import Mathlib

/-!
The gateway pritunl-zero: authentication and SSH certificate issuance.

A shallow embedding of the Go sources of the gateway (package `auth`, the
callback handlers of `mhandlers` and `phandlers`, package `user` and package
`authority`) together with theorems about them.

Conventions of the embedding

* A Go `string` is a list of characters (`Str`).
* Named Go results become the fields of a result structure; a nil pointer is
  `none`.
* The document store is an explicit value (`Database`) passed in and returned;
  every collection operation also appends an entry to `Database.log`, so that
  the order and the absence of store operations can be stated.
* Functions of libraries and of packages whose sources are not part of the
  embedded files (HMAC, base64, URL query parsing, bcrypt, SSH key parsing and
  signing, ...) are fields of an environment record.
-/

set_option autoImplicit false

namespace PritunlZero

/-- A Go string. -/
abbrev Str := List Char

/-! ## Package `strings` -/

/-- The position-independent core of `strings.Index` followed by slicing:
`cutFirst sep s` is `some (a, b)` with `s = a ++ sep ++ b` at the first
occurrence of the non-empty `sep` in `s`, and `none` when `sep` does not
occur. -/
def cutFirst (sep : Str) : Str → Option (Str × Str)
  | [] => none
  | c :: cs =>
    if sep.isPrefixOf (c :: cs) then some ([], (c :: cs).drop sep.length)
    else
      match cutFirst sep cs with
      | some (a, b) => some (c :: a, b)
      | none => none

/-- The loop of `strings.genSplit` for a non-empty separator: at most `n` cuts
are made, the remainder of the string is the last element. -/
def genSplit : Nat → Str → Str → List Str
  | 0, s, _ => [s]
  | n + 1, s, sep =>
    match cutFirst sep s with
    | none => [s]
    | some (a, b) => a :: genSplit n b sep

/-- Go `strings.Split(s, sep)` for a non-empty `sep`: every occurrence is cut
(there are at most `len(s)` of them). -/
def Split (s sep : Str) : List Str := genSplit s.length s sep

/-- Go `strings.SplitN(s, sep, n)` for a non-empty `sep` and `n ≥ 0`: `n = 0`
gives no element, otherwise at most `n - 1` cuts are made. -/
def SplitN (s sep : Str) (n : Nat) : List Str :=
  match n with
  | 0 => []
  | k + 1 => genSplit k s sep

/-! ## Package `crypto/subtle` -/

/-- Go `subtle.ConstantTimeCompare`: 1 when the two byte strings have equal
contents, 0 otherwise (in particular when the lengths differ). -/
def ConstantTimeCompare (x y : Str) : Int :=
  if x = y then 1 else 0

/-! ## Errors -/

/-- The dynamic type of a Go `error` value, as far as the embedded code
distinguishes it by type switch or creates it. `database.NotFoundError` and
`errortypes.NotFoundError` are two different types of two different
packages. -/
inductive GoError where
  /-- Go `*errortypes.ParseError` -/
  | parseError
  /-- Go `*auth.InvalidState` -/
  | invalidState
  /-- Go `*database.NotFoundError` -/
  | databaseNotFound
  /-- Go `*errortypes.NotFoundError` -/
  | errortypesNotFound
  /-- Go `*errortypes.AuthenticationError` -/
  | authenticationError
  /-- Any other error, tagged by its origin. -/
  | other (origin : Str)
  deriving DecidableEq, Repr

/-- Go `errortypes.ErrorData`. -/
structure ErrorData where
  Error : Str
  Message : Str
  deriving DecidableEq, Repr

/-! ## Data model -/

/-- Go `auth.Token` (src/auth/auth.go); `Typ` is the field `Type`, `Timestamp`
the creation time in Unix nanoseconds. A `bson.ObjectId` is a Go string of
raw bytes. -/
structure Token where
  Id : Str := []
  Typ : Str := []
  Secret : Str := []
  Timestamp : Int := 0
  Provider : Str := []
  Query : Str := []
  deriving DecidableEq, Repr

/-- Go `settings.Provider`, the fields read by package `auth`; `Typ` is the
field `Type`. -/
structure Provider where
  Id : Str := []
  Typ : Str := []
  Label : Str := []
  DefaultRoles : List Str := []
  AutoCreate : Bool := false
  RoleManagement : Str := []
  Tenant : Str := []
  Domain : Str := []
  deriving DecidableEq, Repr

/-- Go `user.User`, the fields read by the embedded code; `Typ` is the field
`Type`, `Id` the raw object id. -/
structure User where
  Id : Str := []
  Typ : Str := []
  Username : Str := []
  Password : Str := []
  Keybase : Str := []
  KeybaseId : Str := []
  Roles : List Str := []
  Administrator : Str := []
  Disabled : Bool := false
  deriving DecidableEq, Repr

/-- One operation on the document store or on the event channel. -/
inductive DbCall where
  /-- Go `db.Tokens().FindOneId(id, ...)` -/
  | tokensFindOneId (id : Str)
  /-- Go `db.Tokens().RemoveId(id)` -/
  | tokensRemoveId (id : Str)
  /-- Go `db.Users().FindOne({type, username}, ...)` -/
  | usersFindOne (typ username : Str)
  /-- Go `usr.Upsert(db)` -/
  | usersUpsert (usr : User)
  /-- Go `usr.CommitFields(db, {"roles"})` -/
  | usersCommitRoles (usr : User)
  /-- Go `event.PublishDispatch(db, channel)` -/
  | publish (channel : Str)
  deriving DecidableEq, Repr

/-- The document store: the `tokens` and `users` collections and the log of
the operations performed so far, oldest first. -/
structure Database where
  tokens : List Token := []
  users : List User := []
  log : List DbCall := []
  deriving DecidableEq, Repr

/-- Go `url.Values`: the key/value pairs of a parsed query in order of
appearance. -/
abbrev Values := List (Str × Str)

/-- Go `url.Values.Get`: the first value of `key`, or the empty string. -/
def Values.Get (v : Values) (key : Str) : Str :=
  match v.find? (fun p => p.1 = key) with
  | some p => p.2
  | none => []

/-- What the embedded code takes from libraries and from packages whose
sources are not embedded. -/
structure Env where
  /-- Go `url.ParseQuery`; `none` when it reports an error. -/
  ParseQuery : Str → Option Values
  /-- Go `hmac.New(sha512.New, key)` written with `msg` and summed. -/
  HmacSha512 : Str → Str → Str
  /-- Go `base64.URLEncoding.EncodeToString`. -/
  Base64URLEncode : Str → Str
  /-- Go `settings.Auth.Providers`. -/
  Providers : List Provider
  /-- Go `auth.GoogleRoles`. -/
  GoogleRoles : Provider → Str → Except GoError (List Str)
  /-- Go `user.User.CheckPassword`. -/
  CheckPassword : User → Str → Bool
  /-- Go `user.User.Validate`: the user as left by the call, the error data and
  the error. -/
  UserValidate : Database → User → User × Option ErrorData × Option GoError
  /-- Go `user.User.RolesMerge`: the user as left by the call and `changed`. -/
  RolesMerge : User → List Str → User × Bool
  /-- Go `user.User.RolesOverwrite`: the user as left by the call and
  `changed`. -/
  RolesOverwrite : User → List Str → User × Bool

/-! ## Package `auth`: store access -/

/-- The constant `auth.Google`. -/
def Google : Str := "google".toList

/-- The constant `auth.Azure` (src/auth/azure.go). -/
def Azure : Str := "azure".toList

/-- The constant `user.Local`. -/
def Local_ : Str := "local".toList

/-- The constant `settings.Merge`. -/
def Merge : Str := "merge".toList

/-- The constant `settings.Overwrite`. -/
def Overwrite : Str := "overwrite".toList

/-- Modelled from the spec: `auth.Get` (its file is not among the sources) is
the token store's `Get(id) → token | not-found`: the token whose id is `state`,
or `database.NotFoundError`. -/
def Get (db : Database) (state : Str) : Database × Except GoError Token :=
  let db1 := { db with log := db.log ++ [DbCall.tokensFindOneId state] }
  match db.tokens.find? (fun t => t.Id = state) with
  | some t => (db1, Except.ok t)
  | none => (db1, Except.error GoError.databaseNotFound)

/-- Go `auth.Token.Remove` (src/auth/auth.go): `RemoveId` deletes the document
with the token's id and reports `database.NotFoundError` (through
`database.ParseError`) when there is none. -/
def Token.Remove (t : Token) (db : Database) : Database × Option GoError :=
  let db1 := { db with log := db.log ++ [DbCall.tokensRemoveId t.Id] }
  if db.tokens.any (fun x => x.Id = t.Id) then
    ({ db1 with tokens := db.tokens.filter (fun x => x.Id ≠ t.Id) }, none)
  else (db1, some GoError.databaseNotFound)

/-- Go `settings.Auth.GetProvider`: the configured provider with the given id,
nil when there is none. -/
def GetProvider (env : Env) (id : Str) : Option Provider :=
  env.Providers.find? (fun p => p.Id = id)

/-- Go `user.GetUsername` (src/user/utils.go): the empty username is answered
with `errortypes.NotFoundError` without a query; otherwise `FindOne` yields
the user of that type and name or `database.NotFoundError`. The user result is
the freshly allocated zero `User` when an error is returned. -/
def GetUsername (db : Database) (typ username : Str) :
    Database × User × Option GoError :=
  if username = [] then (db, {}, some GoError.errortypesNotFound)
  else
    let db1 := { db with log := db.log ++ [DbCall.usersFindOne typ username] }
    match db.users.find? (fun u => u.Typ = typ ∧ u.Username = username) with
    | some u => (db1, u, none)
    | none => (db1, {}, some GoError.databaseNotFound)

/-- Modelled from the spec: `user.User.Upsert` (user/user.go is not among the
sources) creates the user document: the document of the same type and username
is replaced, or the user is added. -/
def User.Upsert (usr : User) (db : Database) : Database × Option GoError :=
  let same := fun (u : User) => decide (u.Typ = usr.Typ ∧ u.Username = usr.Username)
  let users :=
    if db.users.any same then db.users.map (fun u => if same u then usr else u)
    else db.users ++ [usr]
  ({ db with users := users, log := db.log ++ [DbCall.usersUpsert usr] }, none)

/-- Modelled from the spec: `user.User.CommitFields(db, {"roles"})`
(user/user.go is not among the sources) persists only the `roles` field of the
user's document. -/
def User.CommitRoles (usr : User) (db : Database) : Database × Option GoError :=
  ({ db with
      users := db.users.map (fun u => if u.Id = usr.Id then { u with Roles := usr.Roles } else u),
      log := db.log ++ [DbCall.usersCommitRoles usr] }, none)

/-- Go `event.PublishDispatch(db, channel)`. -/
def PublishDispatch (db : Database) (channel : Str) : Database :=
  { db with log := db.log ++ [DbCall.publish channel] }

/-! ## `auth.Local` -/

/-- The results `usr`, `errData`, `err` of `auth.Local` and the store. -/
structure LocalResult where
  usr : Option User := none
  errData : Option ErrorData := none
  err : Option GoError := none
  db : Database
  deriving DecidableEq, Repr

/-- The error data `auth_invalid`. -/
def authInvalid : ErrorData :=
  { Error := "auth_invalid".toList,
    Message := "Authencation credentials are invalid".toList }

/-- Go `auth.Local` (src/auth/handler.go, lines 22-50). -/
def Local (env : Env) (db : Database) (username password : Str) : LocalResult :=
  match GetUsername db Local_ username with
  | (db1, usr, some e) =>
    match e with
    | GoError.databaseNotFound =>
      { usr := none, errData := some authInvalid, err := none, db := db1 }
    | e => { usr := some usr, errData := none, err := some e, db := db1 }
  | (db1, usr, none) =>
    let valid := env.CheckPassword usr password
    if !valid then
      { usr := some usr, errData := some authInvalid, err := none, db := db1 }
    else
      { usr := some usr, errData := none, err := none, db := db1 }

/-! ## `auth.Callback` -/

/-- The results `usr`, `tokn`, `errData`, `err` of `auth.Callback` and the
store as the call leaves it. -/
structure CallbackResult where
  usr : Option User := none
  tokn : Option Token := none
  errData : Option ErrorData := none
  err : Option GoError := none
  db : Database
  deriving DecidableEq, Repr

/-- The query key `state`. -/
def keyState : Str := "state".toList

/-- The query key `username`. -/
def keyUsername : Str := "username".toList

/-- The query key `roles`. -/
def keyRoles : Str := "roles".toList

/-- The channel `user.change`. -/
def userChange : Str := "user.change".toList

/-- The error data `authentication_error`. -/
def authenticationError : ErrorData :=
  { Error := "authentication_error".toList,
    Message := "Authentication error occurred".toList }

/-- The error data `invalid_username`. -/
def invalidUsername : ErrorData :=
  { Error := "invalid_username".toList, Message := "Invalid username".toList }

/-- The error data `invalid_tenant`. -/
def invalidTenant : ErrorData :=
  { Error := "invalid_tenant".toList, Message := "Invalid tenant".toList }

/-- The error data `unauthorized`. -/
def unauthorized : ErrorData :=
  { Error := "unauthorized".toList, Message := "Not authorized".toList }

/-- Lines 161-191 of `auth.Callback`: the provider of the callback. For a
Google token it is the first Google provider whose domain is the part of the
username after the first `@` (when that part is not empty); otherwise it is
the provider named by the token. `none` is the nil provider. -/
def callbackProvider (env : Env) (tokn : Token) (username : Str) : Option Provider :=
  if tokn.Typ = Google then
    match SplitN username "@".toList 2 with
    | [_, domain] =>
      if domain ≠ [] then
        env.Providers.find? (fun prv => prv.Typ = Google ∧ prv.Domain = domain)
      else none
    | _ => none
  else GetProvider env tokn.Provider

/-- Lines 193-213 of `auth.Callback`: for an Azure provider the username is
split at the first `/` into tenant and user name; the result is the user name
to resolve, or the error data returned. -/
def callbackAzure (provider : Provider) (username : Str) : Except ErrorData Str :=
  if provider.Typ = Azure then
    match SplitN username "/".toList 2 with
    | [tenant, name] =>
      if tenant ≠ provider.Tenant then Except.error invalidTenant
      else Except.ok name
    | _ => Except.error invalidUsername
  else Except.ok username

/-- Lines 220-227 of `auth.Callback`: the default roles of the provider
followed by the roles of the query, appended one by one by the loop over
`strings.Split(params.Get("roles"), ",")`. -/
def callbackRoles (provider : Provider) (params : Values) : List Str :=
  (Split (params.Get keyRoles) ",".toList).foldl
    (fun roles role => if role ≠ [] then roles ++ [role] else roles)
    ([] ++ provider.DefaultRoles)

/-- Lines 253-326 of `auth.Callback`: creation of the absent user or role
management of the present one. `errData` is the value of the result variable
`errData` when line 253 is reached. The two cases of the switch on
`provider.RoleManagement` differ only in the method called (`RolesMerge`,
`RolesOverwrite`) and share one body here. -/
def callbackUser (env : Env) (db : Database) (tokn : Token) (provider : Provider)
    (username : Str) (roles : List Str) (usr : Option User)
    (errData : Option ErrorData) : CallbackResult :=
  match usr with
  | none =>
    if provider.AutoCreate then
      let usr : User := { Typ := provider.Typ, Username := username, Roles := roles }
      if errData ≠ none then
        { usr := some usr, tokn := some tokn, errData := errData, db := db }
      else
        match usr.Upsert db with
        | (db1, some e) => { usr := some usr, tokn := some tokn, err := some e, db := db1 }
        | (db1, none) =>
          let db2 := PublishDispatch db1 userChange
          match env.UserValidate db2 usr with
          | (usr1, errData, err) =>
            { usr := some usr1, tokn := some tokn, errData := errData, err := err, db := db2 }
    else
      { usr := none, tokn := some tokn, errData := some unauthorized, db := db }
  | some usr =>
    if provider.RoleManagement = Merge ∨ provider.RoleManagement = Overwrite then
      let (usr1, changed) :=
        if provider.RoleManagement = Merge then env.RolesMerge usr roles
        else env.RolesOverwrite usr roles
      if changed then
        match env.UserValidate db usr1 with
        | (usr2, errData, some e) =>
          { usr := some usr2, tokn := some tokn, errData := errData, err := some e, db := db }
        | (usr2, some ed, none) =>
          { usr := some usr2, tokn := some tokn, errData := some ed, db := db }
        | (usr2, none, none) =>
          match usr2.CommitRoles db with
          | (db1, some e) => { usr := some usr2, tokn := some tokn, err := some e, db := db1 }
          | (db1, none) =>
            { usr := some usr2, tokn := some tokn,
              db := PublishDispatch db1 userChange }
      else { usr := some usr1, tokn := some tokn, errData := errData, db := db }
    else { usr := some usr, tokn := some tokn, errData := errData, db := db }

/-- Lines 220-239 of `auth.Callback`: the composed roles; for a Google
provider the roles reported by `GoogleRoles` are appended, and its error is
returned. -/
def resolveRoles (env : Env) (provider : Provider) (params : Values) (username : Str) :
    Except GoError (List Str) :=
  let roles := callbackRoles provider params
  if provider.Typ = Google then
    (env.GoogleRoles provider username).map (fun g => roles ++ g)
  else Except.ok roles

/-- Lines 215-329 of `auth.Callback`: the token is removed, the roles are
composed (for a Google provider with the roles `GoogleRoles` reports), the
user is looked up and created or updated. -/
def callbackResolve (env : Env) (db : Database) (tokn : Token) (provider : Provider)
    (params : Values) (username : Str) : CallbackResult :=
  match tokn.Remove db with
  | (db2, some e) => { tokn := some tokn, err := some e, db := db2 }
  | (db2, none) =>
    match resolveRoles env provider params username with
    | Except.error e => { tokn := some tokn, err := some e, db := db2 }
    | Except.ok roles =>
      match GetUsername db2 provider.Typ username with
      | (db3, usr, some e) =>
        if e = GoError.databaseNotFound then
          callbackUser env db3 tokn provider username roles none none
        else
          { usr := some usr, tokn := some tokn, err := some e, db := db3 }
      | (db3, usr, none) =>
        callbackUser env db3 tokn provider username roles (some usr) none

/-- Lines 151-329 of `auth.Callback`, what follows the signature check: the
username of the query, the provider, the Azure tenant, then
`callbackResolve`. -/
def callbackIdentity (env : Env) (db : Database) (tokn : Token) (params : Values) :
    CallbackResult :=
  let username := params.Get keyUsername
  if username = [] then
    { tokn := some tokn, errData := some invalidUsername, db := db }
  else
    match callbackProvider env tokn username with
    | none =>
      if tokn.Typ = Google then
        { tokn := some tokn, errData := some unauthorized, db := db }
      else
        { tokn := some tokn, err := some GoError.errortypesNotFound, db := db }
    | some provider =>
      match callbackAzure provider username with
      | Except.error errData => { tokn := some tokn, errData := some errData, db := db }
      | Except.ok username => callbackResolve env db tokn provider params username

/-- Go `auth.Callback` (src/auth/handler.go, lines 113-329): the query is parsed,
the token named by `state` is fetched, the signature is compared, and
`callbackIdentity` does the rest. -/
def Callback (env : Env) (db : Database) (sig query : Str) : CallbackResult :=
  match env.ParseQuery query with
  | none => { err := some GoError.parseError, db := db }
  | some params =>
    let state := params.Get keyState
    match Get db state with
    | (db1, Except.error e) =>
      { err := some (if e = GoError.databaseNotFound then GoError.invalidState else e),
        db := db1 }
    | (db1, Except.ok tokn) =>
      let rawSignature := env.HmacSha512 tokn.Secret query
      let testSig := env.Base64URLEncode rawSignature
      if ConstantTimeCompare sig testSig ≠ 1 then
        { tokn := some tokn, errData := some authenticationError, db := db1 }
      else callbackIdentity env db1 tokn params

/-! ## The callback handlers -/

/-- The query handed to `auth.Callback` by `authCallbackGet` of `mhandlers`
(src/mhandlers/auth.go, line 253) and of `phandlers` (src/phandlers/auth.go,
line 262): `strings.Split(c.Request.URL.RawQuery, "&sig=")[0]`. -/
def callbackQuery (rawQuery : Str) : Str :=
  (Split rawQuery "&sig=".toList).headD []

/-! ## Package `authority` -/

/-- Go `bson.ObjectId.Hex`: two lower-case hexadecimal digits for every byte. -/
def Hex (id : Str) : Str :=
  let digit := fun (n : Nat) => "0123456789abcdef".toList.getD n '0'
  id.flatMap (fun c => [digit (c.toNat / 16 % 16), digit (c.toNat % 16)])

/-- Go `authority.Authority` (src/authority/authority.go); `Typ` is the field
`Type`, `KeyAlg` the field `Info.KeyAlg`. `Expire` and `HostExpire` are Go
`int` values. -/
structure Authority where
  Id : Str := []
  Name : Str := []
  Typ : Str := []
  KeyAlg : Str := []
  MatchRoles : Bool := false
  Roles : List Str := []
  Expire : Int := 0
  HostExpire : Int := 0
  PrivateKey : Str := []
  PublicKey : Str := []
  HostDomain : Str := []
  HostProxy : Str := []
  HostCertificates : Bool := false
  StrictHostChecking : Bool := false
  HostTokens : List Str := []
  deriving DecidableEq, Repr

/-- Go `ssh.Permissions`; a Go map is the list of its entries. -/
structure Permissions where
  CriticalOptions : List (Str × Str) := []
  Extensions : List (Str × Str) := []
  deriving DecidableEq, Repr

/-- Go `ssh.Certificate`. `Serial`, `ValidAfter` and `ValidBefore` are `uint64`
values, `CertType` a `uint32`. -/
structure Certificate where
  Nonce : Str := []
  Key : Str := []
  Serial : Nat := 0
  CertType : Nat := 0
  KeyId : Str := []
  ValidPrincipals : List Str := []
  ValidAfter : Nat := 0
  ValidBefore : Nat := 0
  Permissions : Permissions := {}
  SignatureKey : Str := []
  Signature : Str := []
  deriving DecidableEq, Repr

/-- The constant `ssh.UserCert`. -/
def UserCert : Nat := 1

/-- The constant `ssh.HostCert`. -/
def HostCert : Nat := 2

/-- What package `authority` takes from `golang.org/x/crypto/ssh`, from
`hash/fnv` and from its own helpers whose file is not among the sources. -/
structure SshEnv where
  /-- Go `authority.ParsePemKey`. -/
  ParsePemKey : Str → Except GoError Str
  /-- Go `ssh.ParseAuthorizedKey`: the key and the comment. -/
  ParseAuthorizedKey : Str → Except GoError (Str × Str)
  /-- Go `fnv.New64a` written with the given bytes, `Sum64`. -/
  Fnv64a : Str → Nat
  /-- Go `ssh.NewSignerFromKey`. -/
  NewSignerFromKey : Str → Except GoError Str
  /-- Go `ssh.Certificate.SignCert`: the nonce, the signature key and the
  signature it stores in the certificate. -/
  SignCert : Str → Certificate → Except GoError (Str × Str × Str)
  /-- Go `authority.MarshalCertificate`. -/
  MarshalCertificate : Certificate → Str → Str

/-- Conversion of an integer to `int64` (two's complement wrap-around). -/
def toInt64 (x : Int) : Int := (x + 2 ^ 63) % 2 ^ 64 - 2 ^ 63

/-- Conversion of an integer to `uint64`. -/
def toUint64 (x : Int) : Nat := (x % 2 ^ 64).toNat

/-- The constant `time.Minute`, in nanoseconds. -/
def Minute : Int := 60000000000

/-- Go `t.Add(d).Unix()` for a time `t` given in nanoseconds since the Unix
epoch: the whole seconds of `t + d`. -/
def addUnix (t d : Int) : Int := (t + d) / 1000000000

/-- The results `cert`, `certMarshaled`, `err` of `CreateCertificate` and of
`CreateHostCertificate`. -/
structure CertResult where
  cert : Option Certificate := none
  certMarshaled : Str := []
  err : Option GoError := none
  deriving DecidableEq, Repr

/-- The signing tail shared by both functions (lines 290-302 and 343-355):
`ssh.NewSignerFromKey`, `cert.SignCert`, `MarshalCertificate`. -/
def signAndMarshal (env : SshEnv) (privateKey comment : Str) (cert : Certificate) :
    CertResult :=
  match env.NewSignerFromKey privateKey with
  | Except.error e => { cert := some cert, err := some e }
  | Except.ok signer =>
    match env.SignCert signer cert with
    | Except.error e => { cert := some cert, err := some e }
    | Except.ok (nonce, sigKey, sig) =>
      let cert := { cert with Nonce := nonce, SignatureKey := sigKey, Signature := sig }
      { cert := some cert, certMarshaled := env.MarshalCertificate cert comment }

/-- Go `Authority.CreateCertificate` (src/authority/authority.go, lines 236-303).
`objectId` is the hex form of the fresh `bson.NewObjectId()`, `now1` and `now2`
are the two readings of `time.Now()` in nanoseconds since the Unix epoch. -/
def Authority.CreateCertificate (env : SshEnv) (a : Authority) (usr : User)
    (sshPubKey objectId : Str) (now1 now2 : Int) : CertResult :=
  match env.ParsePemKey a.PrivateKey with
  | Except.error e => { err := some e }
  | Except.ok privateKey =>
    match env.ParseAuthorizedKey sshPubKey with
    | Except.error _ => { err := some GoError.parseError }
    | Except.ok (pubKey, comment) =>
      let serial := env.Fnv64a objectId
      let expire := if a.Expire = 0 then 600 else a.Expire
      let validAfter := addUnix now1 (toInt64 (-5 * Minute))
      let validBefore := addUnix now2 (toInt64 (toInt64 expire * Minute))
      if usr.Roles.length = 0 then { err := some GoError.authenticationError }
      else
        let cert : Certificate :=
          { Key := pubKey,
            Serial := serial,
            CertType := UserCert,
            KeyId := Hex usr.Id,
            ValidPrincipals := usr.Roles,
            ValidAfter := toUint64 validAfter,
            ValidBefore := toUint64 validBefore,
            Permissions :=
              { Extensions :=
                  [("permit-X11-forwarding".toList, []),
                   ("permit-agent-forwarding".toList, []),
                   ("permit-port-forwarding".toList, []),
                   ("permit-pty".toList, []),
                   ("permit-user-rc".toList, [])] } }
        signAndMarshal env privateKey comment cert

/-- Go `Authority.GetDomain` (lines 61-63). -/
def Authority.GetDomain (a : Authority) (hostname : Str) : Str :=
  hostname ++ ".".toList ++ a.HostDomain

/-- Go `Authority.CreateHostCertificate` (lines 305-356); the arguments are as
for `CreateCertificate`. -/
def Authority.CreateHostCertificate (env : SshEnv) (a : Authority)
    (hostname sshPubKey objectId : Str) (now1 now2 : Int) : CertResult :=
  match env.ParsePemKey a.PrivateKey with
  | Except.error e => { err := some e }
  | Except.ok privateKey =>
    match env.ParseAuthorizedKey sshPubKey with
    | Except.error _ => { err := some GoError.parseError }
    | Except.ok (pubKey, comment) =>
      let serial := env.Fnv64a objectId
      let expire := if a.HostExpire = 0 then 600 else a.HostExpire
      let validAfter := addUnix now1 (toInt64 (-5 * Minute))
      let validBefore := addUnix now2 (toInt64 (toInt64 expire * Minute))
      let cert : Certificate :=
        { Key := pubKey,
          Serial := serial,
          CertType := HostCert,
          KeyId := hostname,
          ValidPrincipals := [a.GetDomain hostname],
          ValidAfter := toUint64 validAfter,
          ValidBefore := toUint64 validBefore }
      signAndMarshal env privateKey comment cert

/-- Lines 431-435 of `Authority.Validate`: the value of `Expire` the
validation leaves. -/
def validateExpire (expire : Int) : Int :=
  if expire < 1 then 600
  else if expire > 1440 then 1440
  else expire

/-! ## Parameters (of a query) as the claims speak of them -/

/-- The pieces of a query between `&`, the key/value pairs as written. -/
def queryPieces (query : Str) : List Str := Split query "&".toList

/-- The query carries a parameter spelled `key=...`: one of its pieces starts
with `key=`. -/
def hasParam (key query : Str) : Bool :=
  (queryPieces query).any (fun piece => (key ++ "=".toList).isPrefixOf piece)

/-! ## A concrete environment

Used to run the embedded functions on concrete inputs. -/

/-- The behaviour of `url.ParseQuery` on queries without escapes: the query is
cut at every `&`, empty pieces are skipped, a piece is cut at its first `=`.
Queries with `%`, `+` or `;` (where unescaping or an error would come in) are
rejected. -/
def parseQueryPlain (query : Str) : Option Values :=
  if query.any (fun c => c = '%' ∨ c = '+' ∨ c = ';') then none
  else
    some (((Split query "&".toList).filter (fun kv => kv ≠ [])).map (fun kv =>
      match cutFirst "=".toList kv with
      | some (k, v) => (k, v)
      | none => (kv, [])))

/-- An environment with one Azure provider (tenant `acme`) and one Okta
provider without automatic user creation; the keyed hash is a stand-in that
writes key and message side by side, every password check fails unless the
password is the stored one, validation accepts every user. -/
def demoEnv : Env where
  ParseQuery := parseQueryPlain
  HmacSha512 := fun key msg => key ++ "|".toList ++ msg
  Base64URLEncode := fun raw => raw
  Providers :=
    [{ Id := "p-azure".toList, Typ := Azure, Tenant := "acme".toList,
       DefaultRoles := ["staff".toList], AutoCreate := true },
     { Id := "p-okta".toList, Typ := "okta".toList,
       DefaultRoles := ["staff".toList], AutoCreate := false }]
  GoogleRoles := fun _ _ => Except.ok []
  CheckPassword := fun usr password => decide (usr.Password = password)
  UserValidate := fun _ usr => (usr, none, none)
  RolesMerge := fun usr roles =>
    ({ usr with Roles := usr.Roles ++ roles.filter (fun r => r ∉ usr.Roles) },
      roles.any (fun r => r ∉ usr.Roles))
  RolesOverwrite := fun usr roles =>
    ({ usr with Roles := roles }, decide (usr.Roles ≠ roles))

/-- A store with one Azure state token, one Okta state token and one local
user. -/
def demoDb : Database where
  tokens :=
    [{ Id := "st1".toList, Typ := Azure, Secret := "k1".toList,
       Provider := "p-azure".toList },
     { Id := "st2".toList, Typ := "okta".toList, Secret := "k2".toList,
       Provider := "p-okta".toList }]
  users :=
    [{ Id := "u1".toList, Typ := Local_, Username := "alice".toList,
       Password := "secret".toList, Roles := ["ops".toList] }]

/-- FNV-1a with 64 bits over the character codes of the string (its bytes
when the string is ASCII). -/
def fnv64a (bytes : Str) : Nat :=
  bytes.foldl (fun h c => ((h ^^^ c.toNat) * 1099511628211) % 2 ^ 64)
    14695981039346656037

/-- An SSH environment in which every non-empty key parses to itself, the
signer is the private key and signing always succeeds. -/
def demoSshEnv : SshEnv where
  ParsePemKey := fun pem =>
    if pem = [] then Except.error (GoError.other "pem".toList) else Except.ok pem
  ParseAuthorizedKey := fun key =>
    if key = [] then Except.error (GoError.other "ssh".toList) else Except.ok (key, [])
  Fnv64a := fnv64a
  NewSignerFromKey := fun key => Except.ok key
  SignCert := fun signer _ => Except.ok ("nonce".toList, signer, "signature".toList)
  MarshalCertificate := fun cert comment => cert.KeyId ++ " ".toList ++ comment

/-- A user with the roles `ops` and `db`. -/
def demoUser : User :=
  { Id := "u1".toList, Typ := Local_, Username := "alice".toList,
    Roles := ["ops".toList, "db".toList] }

/-- The instant 2023-11-14 22:13:20 UTC, in nanoseconds since the Unix
epoch. -/
def demoNow : Int := 1700000000000000000

/-! ## Package `strings`, continued -/

/-- Go `unicode.IsSpace`: the white space characters of Unicode. -/
def isSpace (c : Char) : Bool :=
  let n := c.toNat
  (9 ≤ n ∧ n ≤ 13) ∨ n = 32 ∨ n = 133 ∨ n = 160 ∨ n = 5760 ∨
    (8192 ≤ n ∧ n ≤ 8202) ∨ n = 8232 ∨ n = 8233 ∨ n = 8239 ∨ n = 8287 ∨ n = 12288

/-- Go `strings.TrimSpace`: the string without its leading and trailing white
space. -/
def TrimSpace (s : Str) : Str :=
  ((s.dropWhile isSpace).reverse.dropWhile isSpace).reverse

/-- Go `len(s)` of a string: the number of bytes of its UTF-8 form. -/
def len (s : Str) : Nat := (s.map Char.utf8Size).sum

/-- Go comparison `a <= b` of strings: lexicographic by bytes, which for UTF-8
is lexicographic by code points. -/
def strLe : Str → Str → Bool
  | [], _ => true
  | _ :: _, [] => false
  | a :: as, b :: bs =>
    if a.toNat < b.toNat then true
    else if b.toNat < a.toNat then false
    else strLe as bs

/-- Go `sort.Strings`: the strings in ascending order. -/
def sortStrings (l : List Str) : List Str :=
  l.insertionSort (fun a b => strLe a b = true)

/-! ## `Authority.HostnameValidate` -/

/-- Go `net.IP` as far as `HostnameValidate` reads it: the printed address
and whether `To4()` is not nil. -/
structure IP where
  addr : Str := []
  v4 : Bool := true
  deriving DecidableEq, Repr

/-- The outcome of `GET http://<ip>:<port>/challenge`. -/
inductive Probe where
  /-- Go `http.NewRequest` failed. -/
  | requestFailed
  /-- Go `client.Do` failed. -/
  | transportFailed
  /-- A response with its status code and the `public_key` of its JSON body,
  `none` when the body does not decode. -/
  | response (status : Int) (publicKey : Option Str)
  deriving DecidableEq, Repr

/-- What `HostnameValidate` takes from the network and from the settings. -/
structure HostEnv where
  /-- Go `net.LookupIP`. -/
  LookupIP : Str → Except GoError (List IP)
  /-- The probe of an address at a port. -/
  Challenge : IP → Int → Probe
  /-- Go `settings.System.SshPubKeyLen`. -/
  SshPubKeyLen : Int

/-- Go `*errortypes.RequestError`. -/
def requestError : GoError := GoError.other "errortypes.RequestError".toList

/-- The loop of lines 162-222 of `HostnameValidate` over the IPv4 addresses:
the values of `valid` and `err` when the loop is left, from the value of `err`
when it is entered. -/
def challengeLoop (env : HostEnv) (port : Int) (pubKey : Str) :
    List IP → Option GoError → Bool × Option GoError
  | [], err => (false, err)
  | ip :: ips, _ =>
    match env.Challenge ip port with
    | Probe.requestFailed => challengeLoop env port pubKey ips (some requestError)
    | Probe.transportFailed => challengeLoop env port pubKey ips (some requestError)
    | Probe.response status publicKey =>
      if status ≠ 200 then challengeLoop env port pubKey ips (some requestError)
      else
        match publicKey with
        | none => (false, some GoError.parseError)
        | some key =>
          let hostPubKey := TrimSpace key
          if (len hostPubKey : Int) > env.SshPubKeyLen then
            (false, some GoError.parseError)
          else if ConstantTimeCompare pubKey hostPubKey ≠ 1 then
            (false, some GoError.authenticationError)
          else (true, none)

/-- Go `Authority.HostnameValidate` (src/authority/authority.go, lines
124-234). -/
def Authority.HostnameValidate (env : HostEnv) (a : Authority) (hostname : Str)
    (port : Int) (pubKey : Str) : Bool :=
  let domain := a.GetDomain hostname
  match env.LookupIP domain with
  | Except.error _ => false
  | Except.ok ipsNet =>
    let ips := ipsNet.filter (fun ip => ip.v4)
    if ips.length = 0 then false
    else
      let port := if port = 0 then 9748 else port
      match challengeLoop env port pubKey ips none with
      | (valid, err) => if err ≠ none ∨ !valid then false else true

/-! ## `Authority.Validate` -/

/-- What `Authority.Validate` takes from files of the package that are not
among the sources. -/
structure KeyEnv where
  /-- The constant `authority.Local`. -/
  Local : Str
  /-- Go `authority.GenerateRsaKey`: the private and the public key. -/
  GenerateRsaKey : Except GoError (Str × Str)

/-- Go `Authority.GenerateRsaPrivateKey` (lines 65-78). -/
def Authority.GenerateRsaPrivateKey (env : KeyEnv) (a : Authority) :
    Authority × Option GoError :=
  match env.GenerateRsaKey with
  | Except.error e => (a, some e)
  | Except.ok (privKeyBytes, pubKeyBytes) =>
    ({ a with
        KeyAlg := "RSA 4096".toList,
        PrivateKey := TrimSpace privKeyBytes,
        PublicKey := TrimSpace pubKeyBytes }, none)

/-- Go `Authority.Format` (lines 468-485): the roles without duplicates in
ascending order (the set is iterated in no particular order and the result is
sorted), and the host tokens in ascending order. -/
def Authority.Format (a : Authority) : Authority :=
  { a with
      Roles := sortStrings a.Roles.dedup,
      HostTokens := sortStrings a.HostTokens }

/-- Lines 437-443 of `Authority.Validate`: the value of `HostExpire` the
validation leaves. -/
def validateHostExpire (hostExpire : Int) : Int :=
  if hostExpire < 1 then 600
  else if hostExpire > 1440 then 1440
  else if hostExpire < 15 then 15
  else hostExpire

/-- The error data `host_domain_required`. -/
def hostDomainRequired : ErrorData :=
  { Error := "host_domain_required".toList,
    Message := "Host domain must be set for host certificates".toList }

/-- Lines 416-429 of `Authority.Validate`: the default type, the roles of an
authority that does not match roles, the generation of a missing private key;
the authority and the error of the generation. -/
def Authority.validateKey (env : KeyEnv) (a : Authority) : Authority × Option GoError :=
  let a := if a.Typ = [] then { a with Typ := env.Local } else a
  let a := if !a.MatchRoles then { a with Roles := [] } else a
  if a.PrivateKey = [] then a.GenerateRsaPrivateKey env else (a, none)

/-- Lines 431-465 of `Authority.Validate`: the bounds of the two expiries, the
host rules and `Format`. A nil list and an empty list are the same value
here. -/
def Authority.validateHost (a : Authority) :
    Authority × Option ErrorData × Option GoError :=
  let a := { a with Expire := validateExpire a.Expire }
  let a := { a with HostExpire := validateHostExpire a.HostExpire }
  if a.HostCertificates ∧ a.HostDomain = [] then (a, some hostDomainRequired, none)
  else
    let a :=
      if a.HostDomain = [] then
        { a with HostCertificates := false, StrictHostChecking := false, HostProxy := [] }
      else a
    let a :=
      if a.HostTokens = [] ∨ !a.HostCertificates then { a with HostTokens := [] } else a
    (a.Format, none, none)

/-- Go `Authority.Validate` (lines 413-466): the authority as the call leaves
it, `errData` and `err`. -/
def Authority.Validate (env : KeyEnv) (a : Authority) :
    Authority × Option ErrorData × Option GoError :=
  match a.validateKey env with
  | (a, some e) => (a, none, some e)
  | (a, none) => a.validateHost

/-- Go `Authority.TokenNew` (lines 358-371); `token` is the result of
`utils.RandStr(48)`. -/
def Authority.TokenNew (a : Authority) (token : Except GoError Str) :
    Authority × Option GoError :=
  match token with
  | Except.error e => (a, some e)
  | Except.ok token => ({ a with HostTokens := a.HostTokens ++ [token] }, none)

/-- Go `Authority.TokenDelete` (lines 373-387): the first token equal to
`token` is removed. -/
def Authority.TokenDelete (a : Authority) (token : Str) : Authority :=
  { a with HostTokens := a.HostTokens.erase token }

/-! ## Package `validator` -/

/-- Go `policy.Policy`, the fields read by the embedded code. -/
structure Policy where
  Id : Str := []
  AdminSecondary : Str := []
  UserSecondary : Str := []
  ProxySecondary : Str := []
  AuthoritySecondary : Str := []
  deriving DecidableEq, Repr

/-- Go `service.Service`, the fields read by package `validator`. -/
structure Service where
  Id : Str := []
  Roles : List Str := []
  deriving DecidableEq, Repr

/-- One use of package `policy`. -/
inductive PolicyCall where
  /-- Go `policy.GetRoles(db, roles)` -/
  | getRoles (roles : List Str)
  /-- Go `policy.GetService(db, id)` -/
  | getService (id : Str)
  /-- Go `polcy.ValidateUser(db, usr, r)` on the policy with this id -/
  | validateUser (policy : Str)
  deriving DecidableEq, Repr

/-- What package `validator` takes from package `policy`, for one store and
one request. -/
structure PolicyEnv where
  /-- Go `policy.GetRoles`. -/
  GetRoles : List Str → Except GoError (List Policy)
  /-- Go `policy.GetService`. -/
  GetService : Str → Except GoError (List Policy)
  /-- Go `policy.Policy.ValidateUser`: `errData` and `err`. -/
  ValidateUser : Policy → User → Option ErrorData × Option GoError

/-- The results `secProvider`, `errData`, `err` of the functions of package
`validator`, and the uses of package `policy` made, in order. -/
structure ValidateResult where
  secProvider : Str := []
  errData : Option ErrorData := none
  err : Option GoError := none
  calls : List PolicyCall := []
  deriving DecidableEq, Repr

/-- The loop `for _, polcy := range policies` that validates the user against
every policy and returns at the first error or error data: the calls made and
the pair returned, `none` when every policy passes. -/
def validateLoop (env : PolicyEnv) (usr : User) :
    List Policy → List PolicyCall × Option (Option ErrorData × Option GoError)
  | [] => ([], none)
  | polcy :: policies =>
    match env.ValidateUser polcy usr with
    | (none, none) =>
      match validateLoop env usr policies with
      | (calls, r) => (PolicyCall.validateUser polcy.Id :: calls, r)
    | (errData, err) => ([PolicyCall.validateUser polcy.Id], some (errData, err))

/-- The loop that sets `secProvider` to the first non-empty secondary field
of the policies and breaks; `secProvider` keeps its value when there is
none. -/
def secondaryLoop (field : Policy → Str) (policies : List Policy) (secProvider : Str) :
    Str :=
  match policies with
  | [] => secProvider
  | polcy :: policies =>
    if field polcy ≠ [] then field polcy
    else secondaryLoop field policies secProvider

/-- The constant `"super"`. -/
def super : Str := "super".toList

/-- The error data `service_unauthorized`. -/
def serviceUnauthorized : ErrorData :=
  { Error := "service_unauthorized".toList,
    Message := "Not authorized for service".toList }

/-- Go `validator.ValidateAdmin` (src/validator/validator.go, lines 14-42). -/
def ValidateAdmin (env : PolicyEnv) (usr : User) (isApi : Bool) : ValidateResult :=
  if usr.Disabled ∨ usr.Administrator ≠ super then
    { errData := some unauthorized }
  else if !isApi then
    match env.GetRoles usr.Roles with
    | Except.error e => { err := some e, calls := [PolicyCall.getRoles usr.Roles] }
    | Except.ok policies =>
      { secProvider := secondaryLoop Policy.AdminSecondary policies [],
        calls := [PolicyCall.getRoles usr.Roles] }
  else {}

/-- Go `validator.ValidateProxy` (lines 81-156). -/
def ValidateProxy (env : PolicyEnv) (usr : User) (isApi : Bool) (srvc : Service) :
    ValidateResult :=
  if usr.Disabled then { errData := some unauthorized }
  else
    let roleMatch := srvc.Roles.any (fun role => decide (role ∈ usr.Roles))
    if !roleMatch then { errData := some serviceUnauthorized }
    else if !isApi then
      match env.GetService srvc.Id with
      | Except.error e => { err := some e, calls := [PolicyCall.getService srvc.Id] }
      | Except.ok policies =>
        match validateLoop env usr policies with
        | (calls1, some (errData, err)) =>
          { errData := errData, err := err,
            calls := PolicyCall.getService srvc.Id :: calls1 }
        | (calls1, none) =>
          let secProvider := secondaryLoop Policy.ProxySecondary policies []
          match env.GetRoles usr.Roles with
          | Except.error e =>
            { secProvider := secProvider, err := some e,
              calls := PolicyCall.getService srvc.Id :: calls1 ++
                [PolicyCall.getRoles usr.Roles] }
          | Except.ok policies =>
            match validateLoop env usr policies with
            | (calls2, some (errData, err)) =>
              { secProvider := secProvider, errData := errData, err := err,
                calls := PolicyCall.getService srvc.Id :: calls1 ++
                  PolicyCall.getRoles usr.Roles :: calls2 }
            | (calls2, none) =>
              { secProvider := secondaryLoop Policy.ProxySecondary policies secProvider,
                calls := PolicyCall.getService srvc.Id :: calls1 ++
                  PolicyCall.getRoles usr.Roles :: calls2 }
    else {}

/-! ## Package `session` -/

/-- Go `session.Session` (src/session/session.go), the fields read by
`Active`; `Typ` is the field `Type`, the times are in nanoseconds since the
Unix epoch. -/
structure Session where
  Id : Str := []
  Typ : Str := []
  User : Str := []
  Timestamp : Int := 0
  LastActive : Int := 0
  Removed : Bool := false
  deriving DecidableEq, Repr

/-- Go `time.Since(t)` read at the instant `now`: the difference as a
`time.Duration`, which is the largest or smallest `int64` when the difference
does not fit. -/
def Since (now t : Int) : Int :=
  if now - t > 9223372036854775807 then 9223372036854775807
  else if now - t < -9223372036854775808 then -9223372036854775808
  else now - t

/-- Go `Session.Active` (lines 23-44). `expire` and `maxDuration` are the
results of `GetExpire(s.Type)` and `GetMaxDuration(s.Type)`, `now1` and `now2`
the clock readings of the two calls of `time.Since`. -/
def Session.Active (s : Session) (expire maxDuration now1 now2 : Int) : Bool :=
  if s.Removed then false
  else if expire ≠ 0 ∧ Since now1 s.LastActive > expire then false
  else if maxDuration ≠ 0 ∧ Since now2 s.Timestamp > maxDuration then false
  else true

/-! ## Probes as the claims speak of them -/

/-- The probe did not answer with status 200: the request could not be made,
the transport failed, or the status is another one. -/
def probeFails (p : Probe) : Bool :=
  match p with
  | Probe.requestFailed => true
  | Probe.transportFailed => true
  | Probe.response status _ => decide (status ≠ 200)

/-! ## A concrete environment, continued -/

/-- A network with the host `node1.example.com` at one IPv6 and two IPv4
addresses: the first IPv4 address refuses the connection, the second answers
with the key `ssh-rsa AAAA` followed by a line feed. -/
def demoHostEnv : HostEnv where
  LookupIP := fun domain =>
    if domain = "node1.example.com".toList then
      Except.ok [{ addr := "fe80::1".toList, v4 := false },
        { addr := "10.0.0.1".toList }, { addr := "10.0.0.2".toList }]
    else Except.error requestError
  Challenge := fun ip port =>
    if ip.addr = "10.0.0.2".toList ∧ port = 9748 then
      Probe.response 200 (some "ssh-rsa AAAA\n".toList)
    else Probe.transportFailed
  SshPubKeyLen := 5000

/-- A key environment whose generator fails. -/
def demoKeyEnv : KeyEnv where
  Local := "local".toList
  GenerateRsaKey := Except.error (GoError.other "rand".toList)

/-- A policy environment with one service policy asking for the secondary
provider `sec-a` and one role policy asking for `sec-b`; every policy accepts
every user. -/
def demoPolicyEnv : PolicyEnv where
  GetRoles := fun _ => Except.ok [{ Id := "pol-r".toList, ProxySecondary := "sec-b".toList }]
  GetService := fun _ => Except.ok [{ Id := "pol-s".toList, ProxySecondary := "sec-a".toList }]
  ValidateUser := fun _ _ => (none, none)

/-! ## `user.Remove` -/

/-- The `users` and `sessions` collections of the store. -/
structure UserStore where
  users : List User := []
  sessions : List Session := []
  deriving DecidableEq, Repr

/-- The error data `user_remove_super`. -/
def userRemoveSuper : ErrorData :=
  { Error := "user_remove_super".toList,
    Message := "Cannot remove all super administrators".toList }

/-- Go `user.Remove` (src/user/utils.go, lines 161-210): the store as the
call leaves it, `errData` and `err`. The count is the number of users whose id
is not in `userIds` and whose `administrator` is `super`. -/
def Remove (store : UserStore) (userIds : List Str) :
    UserStore × Option ErrorData × Option GoError :=
  let count :=
    (store.users.filter
      (fun u => decide (u.Id ∉ userIds ∧ u.Administrator = super))).length
  if count = 0 then (store, some userRemoveSuper, none)
  else
    let sessions := store.sessions.filter (fun s => decide (s.User ∉ userIds))
    let users := store.users.filter (fun u => decide (u.Id ∉ userIds))
    ({ users := users, sessions := sessions }, none, none)

/-! ## `user.GetAll` and `log.GetAll` -/

/-- Modelled from the spec: `utils.Min` (package `utils` is not among the
sources) is the smaller of two integers, the `min` of the offset formula. -/
def Min (x y : Int) : Int := if x < y then x else y

/-- Modelled from the spec: `utils.Max` (package `utils` is not among the
sources) is the larger of two integers, the `max` of the offset formula. -/
def Max (x y : Int) : Int := if x > y then x else y

/-- The value of `skip` in `user.GetAll` (src/user/utils.go, line 142) and in
`log.GetAll` (src/log/utils.go, line 38):
`utils.Min(page*pageCount, utils.Max(0, count-pageCount))` on Go `int`
values of 64 bits. -/
def pageSkip (page pageCount count : Int) : Int :=
  Min (toInt64 (page * pageCount)) (Max 0 (toInt64 (count - pageCount)))

/-! ## Package `keybase` -/

/-- Go `keybase.Challenge` (src/keybase/challenge.go); `Typ` is the field
`Type`. The fields `usr`, `authrs` and `authrIds` are the caches of the
challenge, `none` for nil. -/
structure Challenge where
  usr : Option User := none
  authrs : Option (List Authority) := none
  authrIds : Option (List Str) := none
  Id : Str := []
  Typ : Str := []
  Username : Str := []
  Timestamp : Int := 0
  State : Str := []
  PubKey : Str := []
  deriving DecidableEq, Repr

/-- Go `Challenge.Message` (lines 34-42): `fmt.Sprintf("%s&%s&%s&%s", ...)`
of `Id`, `Type`, `Username` and `PubKey`. -/
def Challenge.Message (c : Challenge) : Str :=
  c.Id ++ "&".toList ++ c.Typ ++ "&".toList ++ c.Username ++ "&".toList ++ c.PubKey

/-- Go `ssh.Certificate` of the package `ssh` of the repository, the fields
read by the handlers. -/
structure SshCertificate where
  Certificates : List Str := []
  CertificateAuthorities : List Str := []
  Hosts : List Str := []
  deriving DecidableEq, Repr

/-- One use of the Keybase service, of the store or of package `policy` by
the challenge. -/
inductive KeybaseCall where
  /-- Go `VerifySig(message, signature, username)` -/
  | verifySig (message signature username : Str)
  /-- Go `user.GetKeybase(db, username)`, the query of the store -/
  | getKeybase (username : Str)
  /-- Go `getInfo(username)` -/
  | getInfo (username : Str)
  /-- Go `authority.GetAll(db)` -/
  | authorityGetAll
  /-- Go `policy.GetAuthoritiesRoles(db, authrIds, roles)` -/
  | getAuthoritiesRoles (authrIds : List Str) (roles : List Str)
  deriving DecidableEq, Repr

/-- What package `keybase` takes from the Keybase service, from the store and
from packages that are not among the sources. -/
structure KeybaseEnv where
  /-- Go `keybase.VerifySig`. -/
  VerifySig : Str → Str → Str → Except GoError Bool
  /-- The `users` collection. -/
  users : List User
  /-- Go `getInfo`: `data.Them.PublicKeys.Primary.UkbId`. -/
  getInfo : Str → Except GoError Str
  /-- Go `authority.GetAll`. -/
  AuthorityGetAll : Except GoError (List Authority)
  /-- Go `user.User.RolesMatch`. -/
  RolesMatch : User → List Str → Bool
  /-- Go `policy.GetAuthoritiesRoles`. -/
  GetAuthoritiesRoles : List Str → List Str → Except GoError (List Policy)
  /-- Go `policy.KeybaseMode`. -/
  KeybaseMode : List Policy → Str
  /-- The constant `policy.Disabled`. -/
  Disabled : Str
  /-- Go `agent.Parse`: its error. -/
  AgentParse : Option GoError
  /-- Go `ssh.NewCertificate` of the repository. -/
  SshNewCertificate : List Authority → User → Str → Except GoError SshCertificate
  /-- Go `cert.Insert`: its error. -/
  CertInsert : SshCertificate → Option GoError

/-- Go `user.GetKeybase` (src/user/utils.go, lines 105-126): as
`GetUsername`, by the field `keybase`; the query made, if any. -/
def GetKeybase (users : List User) (keybase : Str) :
    User × Option GoError × List KeybaseCall :=
  if keybase = [] then ({}, some GoError.errortypesNotFound, [])
  else
    match users.find? (fun u => decide (u.Keybase = keybase)) with
    | some u => (u, none, [KeybaseCall.getKeybase keybase])
    | none => ({}, some GoError.databaseNotFound, [KeybaseCall.getKeybase keybase])

/-- Go `Authority.UserHasAccess` (src/authority/authority.go, lines
117-122). -/
def Authority.UserHasAccess (env : KeybaseEnv) (a : Authority) (usr : User) : Bool :=
  if !a.MatchRoles then true else env.RolesMatch usr a.Roles

/-- Go `Challenge.GetUser` (lines 44-60): the challenge as the call leaves
it, `usr`, `err` and the calls made. -/
def Challenge.GetUser (env : KeybaseEnv) (c : Challenge) :
    Challenge × User × Option GoError × List KeybaseCall :=
  match c.usr with
  | some usr => (c, usr, none, [])
  | none =>
    match GetKeybase env.users c.Username with
    | (usr, some e, calls) => (c, usr, some e, calls)
    | (usr, none, calls) => ({ c with usr := some usr }, usr, none, calls)

/-- Go `Challenge.GetAuthorityIds` (lines 95-126): the challenge as the call
leaves it, `authrIds`, `err` and the calls made. -/
def Challenge.GetAuthorityIds (env : KeybaseEnv) (c : Challenge) :
    Challenge × List Str × Option GoError × List KeybaseCall :=
  match c.authrIds with
  | some authrIds => (c, authrIds, none, [])
  | none =>
    match c.GetUser env with
    | (c, _, some e, calls) => (c, [], some e, calls)
    | (c, usr, none, calls) =>
      match env.AuthorityGetAll with
      | Except.error e => (c, [], some e, calls ++ [KeybaseCall.authorityGetAll])
      | Except.ok allAuthrs =>
        let authrs := allAuthrs.filter (fun authr => authr.UserHasAccess env usr)
        let authrIds := authrs.map (fun authr => authr.Id)
        ({ c with authrs := some authrs, authrIds := some authrIds }, authrIds, none,
          calls ++ [KeybaseCall.authorityGetAll])

/-- Go `Challenge.GetAuthorities` (lines 62-93): the challenge as the call
leaves it, `authrs`, `err` and the calls made. -/
def Challenge.GetAuthorities (env : KeybaseEnv) (c : Challenge) :
    Challenge × List Authority × Option GoError × List KeybaseCall :=
  match c.authrs with
  | some authrs => (c, authrs, none, [])
  | none =>
    match c.GetUser env with
    | (c, _, some e, calls) => (c, [], some e, calls)
    | (c, usr, none, calls) =>
      match env.AuthorityGetAll with
      | Except.error e => (c, [], some e, calls ++ [KeybaseCall.authorityGetAll])
      | Except.ok allAuthrs =>
        let authrs := allAuthrs.filter (fun authr => authr.UserHasAccess env usr)
        let authrIds := authrs.map (fun authr => authr.Id)
        ({ c with authrs := some authrs, authrIds := some authrIds }, authrs, none,
          calls ++ [KeybaseCall.authorityGetAll])

/-- The results `secProvider`, `errData`, `err` of `Challenge.Validate`, the
challenge as the call leaves it and the calls made, in order. -/
structure ChallengeResult where
  secProvider : Str := []
  errData : Option ErrorData := none
  err : Option GoError := none
  chal : Challenge
  calls : List KeybaseCall := []
  deriving DecidableEq, Repr

/-- Go `errortypes.WriteError`. -/
def writeError : GoError := GoError.other "errortypes.WriteError".toList

/-- The error data `invalid_signature`. -/
def invalidSignature : ErrorData :=
  { Error := "invalid_signature".toList, Message := "Keybase signature is invalid".toList }

/-- The error data `invalid_keybase`. -/
def invalidKeybase : ErrorData :=
  { Error := "invalid_keybase".toList, Message := "Keybase username is invalid".toList }

/-- The error data `keybase_id_changed`. -/
def keybaseIdChanged : ErrorData :=
  { Error := "keybase_id_changed".toList,
    Message := "Keybase identity has changed, contact administrator to reset".toList }

/-- The error data `keybase_disabled`. -/
def keybaseDisabled : ErrorData :=
  { Error := "keybase_disabled".toList,
    Message := "Keybase cannot be used with this user".toList }

/-- Lines 178-205 of `Challenge.Validate`, what follows the identity check:
the authorities of the user, the policies, the Keybase mode and the secondary
provider. `calls` are the calls made so far. -/
def Challenge.validatePolicies (env : KeybaseEnv) (c : Challenge) (usr : User)
    (calls : List KeybaseCall) : ChallengeResult :=
  match c.GetAuthorityIds env with
  | (c, _, some e, calls2) => { err := some e, chal := c, calls := calls ++ calls2 }
  | (c, authrIds, none, calls2) =>
    match env.GetAuthoritiesRoles authrIds usr.Roles with
    | Except.error e =>
      { err := some e, chal := c,
        calls := calls ++ calls2 ++ [KeybaseCall.getAuthoritiesRoles authrIds usr.Roles] }
    | Except.ok policies =>
      let keybaseMode := env.KeybaseMode policies
      if keybaseMode = env.Disabled then
        { errData := some keybaseDisabled, chal := c,
          calls := calls ++ calls2 ++ [KeybaseCall.getAuthoritiesRoles authrIds usr.Roles] }
      else
        { secProvider := secondaryLoop Policy.AuthoritySecondary policies [], chal := c,
          calls := calls ++ calls2 ++ [KeybaseCall.getAuthoritiesRoles authrIds usr.Roles] }

/-- Go `Challenge.Validate` (lines 128-205). -/
def Challenge.Validate (env : KeybaseEnv) (c : Challenge) (signature : Str) :
    ChallengeResult :=
  if c.State ≠ [] then { err := some writeError, chal := c }
  else
    let calls := [KeybaseCall.verifySig c.Message signature c.Username]
    match env.VerifySig c.Message signature c.Username with
    | Except.error e => { err := some e, chal := c, calls := calls }
    | Except.ok valid =>
      if !valid then { errData := some invalidSignature, chal := c, calls := calls }
      else
        match c.GetUser env with
        | (c, _, some e, calls2) =>
          if e = GoError.databaseNotFound then
            { errData := some invalidKeybase, chal := c, calls := calls ++ calls2 }
          else { err := some e, chal := c, calls := calls ++ calls2 }
        | (c, usr, none, calls2) =>
          match env.getInfo c.Username with
          | Except.error e =>
            { err := some e, chal := c,
              calls := calls ++ calls2 ++ [KeybaseCall.getInfo c.Username] }
          | Except.ok ukbId =>
            if ukbId ≠ usr.KeybaseId then
              { errData := some keybaseIdChanged, chal := c,
                calls := calls ++ calls2 ++ [KeybaseCall.getInfo c.Username] }
            else
              c.validatePolicies env usr
                (calls ++ calls2 ++ [KeybaseCall.getInfo c.Username])

/-! ## `Challenge.NewCertificate` -/

/-- Modelled from the spec: the constant `ssh.Approved` (package `ssh` of the
repository is not among the sources), the challenge state `approved`. -/
def Approved : Str := "approved".toList

/-- Modelled from the spec: the constant `ssh.Unavailable` (package `ssh` of
the repository is not among the sources), the challenge state
`unavailable`. -/
def Unavailable : Str := "unavailable".toList

/-- The error data `certificate_unavailable`. -/
def certificateUnavailable : ErrorData :=
  { Error := "certificate_unavailable".toList,
    Message := "Cerification was approved but no certificates are available".toList }

/-- The document of a challenge: its fields without the caches, which are not
stored. -/
def Challenge.doc (c : Challenge) : Challenge :=
  { c with usr := none, authrs := none, authrIds := none }

/-- Go `coll.Update({"_id": c.Id, "state": ""}, c)` on the collection of
challenges: the first document with the id of `c` and an empty state is
replaced by `c`; without such a document the error is
`database.NotFoundError` (through `database.ParseError`). -/
def challengeUpdate : List Challenge → Challenge → List Challenge × Option GoError
  | [], _ => ([], some GoError.databaseNotFound)
  | d :: ds, c =>
    if d.Id = c.Id ∧ d.State = [] then (c.doc :: ds, none)
    else
      match challengeUpdate ds c with
      | (ds2, e) => (d :: ds2, e)

/-- The results `certf`, `errData`, `err` of `Challenge.NewCertificate`, the
challenge and the collection of challenges as the call leaves them. -/
structure CertificateResult where
  certf : Option SshCertificate := none
  errData : Option ErrorData := none
  err : Option GoError := none
  chal : Challenge
  challenges : List Challenge
  deriving DecidableEq, Repr

/-- Go `Challenge.NewCertificate` (lines 207-265). -/
def Challenge.NewCertificate (env : KeybaseEnv) (challenges : List Challenge)
    (c : Challenge) : CertificateResult :=
  match c.GetUser env with
  | (c, _, some e, _) => { err := some e, chal := c, challenges := challenges }
  | (c, usr, none, _) =>
    match c.GetAuthorities env with
    | (c, _, some e, _) => { err := some e, chal := c, challenges := challenges }
    | (c, authrs, none, _) =>
      match env.AgentParse with
      | some e => { err := some e, chal := c, challenges := challenges }
      | none =>
        match env.SshNewCertificate authrs usr c.PubKey with
        | Except.error e => { err := some e, chal := c, challenges := challenges }
        | Except.ok cert =>
          match (if cert.Certificates.length = 0 then
                   ({ c with State := Unavailable }, none)
                 else
                   match env.CertInsert cert with
                   | some e => (c, some e)
                   | none => ({ c with State := Approved }, none)) with
          | (c, some e) => { err := some e, chal := c, challenges := challenges }
          | (c, none) =>
            match challengeUpdate challenges c with
            | (challenges, some e) =>
              { err := some e, chal := c, challenges := challenges }
            | (challenges, none) =>
              if cert.Certificates.length = 0 then
                { errData := some certificateUnavailable, chal := c,
                  challenges := challenges }
              else { certf := some cert, chal := c, challenges := challenges }

/-! ## The end of the SSO callback handlers -/

/-- The scope of a session, a cookie, a secondary or an audit record. -/
inductive Scope where
  | admin
  | proxy
  deriving DecidableEq, Repr

/-- One action of a callback handler on the store or on the answer. -/
inductive Effect where
  /-- Go `secondary.New(db, usr.Id, scope, secProviderId)` -/
  | secondaryNew (userId : Str) (scope : Scope) (provider : Str)
  /-- Go `c.Redirect(status, location)` -/
  | redirect (status : Nat) (location : Str)
  /-- Go `audit.New` of a login record -/
  | auditLogin (userId : Str) (scope : Scope)
  /-- Go `utils.AbortWithError(c, status, err)` -/
  | abortWithError (status : Nat)
  /-- Go `cookie.NewProxy` or `cookie.NewAdmin` -/
  | cookieNew (scope : Scope)
  /-- Go `cook.NewSession(db, r, usr.Id, true, scope)` -/
  | newSession (userId : Str) (scope : Scope)
  /-- Go `redirectQuery(c, query)` -/
  | redirectQuery (query : Str)
  deriving DecidableEq, Repr

/-- What the callback handlers take from the packages `secondary`, `audit`
and `cookie`. -/
structure HandlerEnv where
  /-- Go `secondary.New`: the secondary, by its token. -/
  SecondaryNew : Str → Scope → Str → Except GoError Str
  /-- Go `secd.GetQuery`. -/
  GetQuery : Str → Except GoError Str
  /-- Go `audit.New`: its error. -/
  AuditNew : Str → Scope → Option GoError
  /-- Go `cook.NewSession`: its error. -/
  NewSession : Str → Scope → Option GoError

/-- Lines 333-355 of the proxy `authCallbackGet` and lines 316-338 of the
admin one: the login audit record, the cookie, the session and the final
redirect, after the effects made so far. -/
def callbackLogin (env : HandlerEnv) (usr : User) (scope : Scope) (final : Effect)
    (effects : List Effect) : List Effect :=
  match env.AuditNew usr.Id scope with
  | some _ => effects ++ [Effect.auditLogin usr.Id scope, Effect.abortWithError 500]
  | none =>
    match env.NewSession usr.Id scope with
    | some _ =>
      effects ++ [Effect.auditLogin usr.Id scope, Effect.cookieNew scope,
        Effect.newSession usr.Id scope, Effect.abortWithError 500]
    | none =>
      effects ++ [Effect.auditLogin usr.Id scope, Effect.cookieNew scope,
        Effect.newSession usr.Id scope, final]

/-- Lines 313-356 of `authCallbackGet` of `phandlers` (src/phandlers/auth.go):
the actions of the handler once `ValidateProxy` has returned `secProviderId`
without error data. The block of the secondary provider ends with the
redirect and has no `return`. -/
def proxyCallbackEnd (env : HandlerEnv) (usr : User) (tokn : Token)
    (secProviderId : Str) : List Effect :=
  if secProviderId ≠ [] then
    match env.SecondaryNew usr.Id Scope.proxy secProviderId with
    | Except.error _ =>
      [Effect.secondaryNew usr.Id Scope.proxy secProviderId, Effect.abortWithError 500]
    | Except.ok secd =>
      match env.GetQuery secd with
      | Except.error _ =>
        [Effect.secondaryNew usr.Id Scope.proxy secProviderId, Effect.abortWithError 500]
      | Except.ok urlQuery =>
        let urlQuery :=
          if tokn.Query ≠ [] then urlQuery ++ "&".toList ++ tokn.Query else urlQuery
        callbackLogin env usr Scope.proxy (Effect.redirectQuery tokn.Query)
          [Effect.secondaryNew usr.Id Scope.proxy secProviderId,
            Effect.redirect 302 ("/login?".toList ++ urlQuery)]
  else callbackLogin env usr Scope.proxy (Effect.redirectQuery tokn.Query) []

/-- Lines 299-339 of `authCallbackGet` of `mhandlers` (src/mhandlers/auth.go):
the actions of the handler once `ValidateAdmin` has returned `secProviderId`
without error data. The block of the secondary provider ends with the
redirect and `return`. -/
def adminCallbackEnd (env : HandlerEnv) (usr : User) (secProviderId : Str) :
    List Effect :=
  if secProviderId ≠ [] then
    match env.SecondaryNew usr.Id Scope.admin secProviderId with
    | Except.error _ =>
      [Effect.secondaryNew usr.Id Scope.admin secProviderId, Effect.abortWithError 500]
    | Except.ok secd =>
      match env.GetQuery secd with
      | Except.error _ =>
        [Effect.secondaryNew usr.Id Scope.admin secProviderId, Effect.abortWithError 500]
      | Except.ok urlQuery =>
        [Effect.secondaryNew usr.Id Scope.admin secProviderId,
          Effect.redirect 302 ("/login?".toList ++ urlQuery)]
  else callbackLogin env usr Scope.admin (Effect.redirect 302 "/".toList) []

/-! ## `auth.Callback` with its result variables -/

/-- Lines 113-259 of `auth.Callback`, statement by statement, with the named
results `usr`, `tokn`, `errData`, `err` (and the store) as variables that
start at their zero values and change only where the source assigns them.
`Except.error r` stands for a `return` with the results `r` that does not pass
line 261 (also the whole path of an existing user); `Except.ok` carries the
variables, the token, the provider, the user name and the roles with which
line 261, the check `if errData != nil` before the upsert, is reached. -/
def callbackUpsertCheck (env : Env) (db : Database) (sig query : Str) :
    Except CallbackResult (CallbackResult × Token × Provider × Str × List Str) :=
  let r : CallbackResult := { db := db }
  match env.ParseQuery query with
  | none => Except.error { r with err := some GoError.parseError }
  | some params =>
    match Get r.db (params.Get keyState) with
    | (db1, Except.error e) =>
      Except.error
        { r with
            err := some (if e = GoError.databaseNotFound then GoError.invalidState else e),
            db := db1 }
    | (db1, Except.ok tokn) =>
      let r := { r with tokn := some tokn, db := db1 }
      if ConstantTimeCompare sig
          (env.Base64URLEncode (env.HmacSha512 tokn.Secret query)) ≠ 1 then
        Except.error { r with errData := some authenticationError }
      else
        let username := params.Get keyUsername
        if username = [] then Except.error { r with errData := some invalidUsername }
        else
          match callbackProvider env tokn username with
          | none =>
            if tokn.Typ = Google then Except.error { r with errData := some unauthorized }
            else Except.error { r with err := some GoError.errortypesNotFound }
          | some provider =>
            match callbackAzure provider username with
            | Except.error errData => Except.error { r with errData := some errData }
            | Except.ok username =>
              match tokn.Remove r.db with
              | (db2, some e) => Except.error { r with err := some e, db := db2 }
              | (db2, none) =>
                let r := { r with db := db2 }
                match resolveRoles env provider params username with
                | Except.error e => Except.error { r with err := some e }
                | Except.ok roles =>
                  match GetUsername r.db provider.Typ username with
                  | (db3, usr, some e) =>
                    if e = GoError.databaseNotFound then
                      let r := { r with usr := none, err := none, db := db3 }
                      if provider.AutoCreate then
                        let r :=
                          { r with
                              usr := some { Typ := provider.Typ, Username := username,
                                            Roles := roles } }
                        Except.ok (r, tokn, provider, username, roles)
                      else Except.error { r with errData := some unauthorized }
                    else Except.error { r with usr := some usr, err := some e, db := db3 }
                  | (db3, usr, none) =>
                    Except.error
                      (callbackUser env db3 tokn provider username roles (some usr)
                        r.errData)

/-! ## A concrete environment for Keybase -/

/-- A Keybase environment with the user `alice` (Keybase name `alice_kb`,
stored key id `ukb-1`), in which every signature verifies, the service
reports the key id `ukb-2`, and no certificate is available. -/
def demoKeybaseEnv : KeybaseEnv where
  VerifySig := fun _ _ _ => Except.ok true
  users :=
    [{ Id := "u1".toList, Typ := "keybase".toList, Username := "alice".toList,
       Keybase := "alice_kb".toList, KeybaseId := "ukb-1".toList,
       Roles := ["ops".toList] }]
  getInfo := fun _ => Except.ok "ukb-2".toList
  AuthorityGetAll := Except.ok []
  RolesMatch := fun usr roles => roles.any (fun r => decide (r ∈ usr.Roles))
  GetAuthoritiesRoles := fun _ _ => Except.ok []
  KeybaseMode := fun _ => "optional".toList
  Disabled := "disabled".toList
  AgentParse := none
  SshNewCertificate := fun _ _ _ => Except.ok {}
  CertInsert := fun _ => none

/-- A challenge for `alice_kb` that has not been answered. -/
def demoChallenge : Challenge :=
  { Id := "chal-1".toList, Typ := "certificate".toList, Username := "alice_kb".toList,
    PubKey := "ssh-rsa AAAA".toList }

/-- A handler environment in which every operation succeeds. -/
def demoHandlerEnv : HandlerEnv where
  SecondaryNew := fun _ _ _ => Except.ok "sec-token".toList
  GetQuery := fun secd => Except.ok ("secondary=".toList ++ secd)
  AuditNew := fun _ _ => none
  NewSession := fun _ _ => none

/-- An authority with a private key, roles out of order with a duplicate, and
expiries out of range. -/
def demoRolesAuthority : Authority :=
  { PrivateKey := "key".toList, MatchRoles := true,
    Roles := ["ops".toList, "dev".toList, "ops".toList], Expire := 5000, HostExpire := 3 }

/-- The environment `demoKeybaseEnv` with the stored key id `ukb-1` reported by
the service, the authority `authr-1` open to every user and the authority
`authr-2` for the role `admin`, three policies for `authr-1` of which the
second and the third ask for a secondary provider, and one certificate
available. -/
def demoKeybaseEnvPolicies : KeybaseEnv :=
  { demoKeybaseEnv with
      getInfo := fun _ => Except.ok "ukb-1".toList,
      AuthorityGetAll :=
        Except.ok [{ Id := "authr-1".toList },
                   { Id := "authr-2".toList, MatchRoles := true,
                     Roles := ["admin".toList] }],
      GetAuthoritiesRoles := fun authrIds _ =>
        if "authr-1".toList ∈ authrIds then
          Except.ok [{ Id := "pol-1".toList },
                     { Id := "pol-2".toList, AuthoritySecondary := "sec-a".toList },
                     { Id := "pol-3".toList, AuthoritySecondary := "sec-b".toList }]
        else Except.ok [],
      SshNewCertificate := fun _ _ _ =>
        Except.ok { Certificates := ["cert-1".toList],
                    CertificateAuthorities := ["ca-1".toList] } }

/-- The environment `demoEnv` with an Azure provider (tenant `acme`) and a
Google provider (domain `corp.com`) that do not create users, and a Google
group lookup that fails. -/
def demoEnvNoCreate : Env :=
  { demoEnv with
      Providers :=
        [{ Id := "p-azure".toList, Typ := Azure, Tenant := "acme".toList,
           DefaultRoles := ["staff".toList], AutoCreate := false },
         { Id := "p-google".toList, Typ := Google, Domain := "corp.com".toList,
           AutoCreate := false }],
      GoogleRoles := fun _ _ => Except.error (GoError.other "google".toList) }

/-- The store `demoDb` with one more state token, of a Google login. -/
def demoDbGoogle : Database :=
  { demoDb with
      tokens := demoDb.tokens ++
        [{ Id := "st3".toList, Typ := Google, Secret := "k3".toList }] }

/-! # Theorems -/

/-! ## Package `strings` -/

theorem cutFirst_eq_some {sep s a b : Str} (h : cutFirst sep s = some (a, b)) :
    s = a ++ sep ++ b := by
  induction s generalizing a b with
  | nil => simp [cutFirst] at h
  | cons c cs ih =>
    unfold cutFirst at h
    split at h
    · rename_i hp
      simp only [Option.some.injEq, Prod.mk.injEq] at h
      obtain ⟨rfl, rfl⟩ := h
      have hp2 : sep <+: c :: cs := List.isPrefixOf_iff_prefix.mp hp
      simpa using (List.prefix_iff_eq_append.mp hp2).symm
    · split at h
      · rename_i a2 b2 hrec
        simp only [Option.some.injEq, Prod.mk.injEq] at h
        obtain ⟨rfl, rfl⟩ := h
        simp [ih hrec]
      · simp at h

theorem cutFirst_not_infix {sep s a b : Str} (h : cutFirst sep s = some (a, b)) :
    sep ≠ [] → ¬ sep <:+: a := by
  intro hsep
  induction s generalizing a b with
  | nil => simp [cutFirst] at h
  | cons c cs ih =>
    unfold cutFirst at h
    split at h
    · simp only [Option.some.injEq, Prod.mk.injEq] at h
      obtain ⟨rfl, _⟩ := h
      simpa using hsep
    · rename_i hp
      split at h
      · rename_i a2 b2 hrec
        simp only [Option.some.injEq, Prod.mk.injEq] at h
        obtain ⟨rfl, rfl⟩ := h
        intro hin
        rcases List.infix_cons_iff.mp hin with hpre | hinf
        · apply hp
          apply List.isPrefixOf_iff_prefix.mpr
          have hs := cutFirst_eq_some hrec
          obtain ⟨t, ht⟩ := hpre
          exact ⟨t ++ sep ++ b2, by rw [hs, ← List.cons_append, ← List.cons_append, ← ht]; simp⟩
        · exact ih hrec hinf
      · simp at h

theorem cutFirst_none_not_infix {sep s : Str} (h : cutFirst sep s = none) :
    sep ≠ [] → ¬ sep <:+: s := by
  intro hsep
  induction s with
  | nil => simpa using hsep
  | cons c cs ih =>
    unfold cutFirst at h
    split at h
    · simp at h
    · rename_i hp
      split at h
      · simp at h
      · rename_i hrec
        intro hin
        rcases List.infix_cons_iff.mp hin with hpre | hinf
        · exact hp (List.isPrefixOf_iff_prefix.mpr hpre)
        · exact ih hrec hinf

theorem genSplit_head (n : Nat) (s sep : Str) :
    (genSplit (n + 1) s sep).headD [] =
      match cutFirst sep s with
      | none => s
      | some (a, _) => a := by
  unfold genSplit
  cases h : cutFirst sep s with
  | none => simp
  | some p => obtain ⟨a, b⟩ := p; simp

theorem genSplit_head_prefix (n : Nat) (s sep : Str) :
    (genSplit n s sep).headD [] <+: s := by
  cases n with
  | zero => simp [genSplit]
  | succ n =>
    rw [genSplit_head]
    cases h : cutFirst sep s with
    | none => simp
    | some p =>
      obtain ⟨a, b⟩ := p
      exact ⟨sep ++ b, by simp [cutFirst_eq_some h]⟩

theorem genSplit_tail_infix (n : Nat) (s sep p : Str)
    (hp : p ∈ (genSplit n s sep).tail) : ∃ x y, s = x ++ sep ++ p ++ y := by
  induction n generalizing s with
  | zero => simp [genSplit] at hp
  | succ n ih =>
    unfold genSplit at hp
    cases h : cutFirst sep s with
    | none => simp [h] at hp
    | some q =>
      obtain ⟨a, b⟩ := q
      simp only [h, List.tail_cons] at hp
      have hs := cutFirst_eq_some h
      cases hg : genSplit n b sep with
      | nil => simp [hg] at hp
      | cons g gs =>
        rw [hg] at hp
        rcases List.mem_cons.mp hp with rfl | htl
        · have hpre := genSplit_head_prefix n b sep
          rw [hg] at hpre
          obtain ⟨y, hy⟩ := hpre
          exact ⟨a, y, by rw [hs, ← hy]; simp⟩
        · have : p ∈ (genSplit n b sep).tail := by rw [hg]; exact htl
          obtain ⟨x, y, hxy⟩ := ih b this
          exact ⟨a ++ sep ++ x, y, by rw [hs, hxy]; simp⟩

/-! ## The callback handlers -/

theorem callbackQuery_eq (raw : Str) :
    callbackQuery raw =
      match cutFirst "&sig=".toList raw with
      | none => raw
      | some (a, _) => a := by
  unfold callbackQuery Split
  cases raw with
  | nil => simp [genSplit, cutFirst]
  | cons c cs => rw [List.length_cons, genSplit_head]

/-- C3, counterexample: when `sig` is the first parameter of the raw query
there is no `&sig=` to cut at, the handlers hand the whole raw query to
`auth.Callback`, and that string carries the parameter `sig`. -/
theorem callbackQuery_keeps_leading_sig :
    callbackQuery "sig=abc&state=x".toList = "sig=abc&state=x".toList ∧
    hasParam "sig".toList (callbackQuery "sig=abc&state=x".toList) = true := by
  decide

/-- C3, amended: the string handed to `auth.Callback` is the raw query up to
its first `&sig=` (all of it when there is none): the rest of the raw query is
empty or starts with `&sig=`, the string contains no `&sig=`, and none of its
parameters after the first is spelled `sig=...`. -/
theorem callbackQuery_cut_at_first_sig (raw : Str) :
    (∃ rest, raw = callbackQuery raw ++ rest ∧
      (rest = [] ∨ "&sig=".toList <+: rest)) ∧
    ¬ "&sig=".toList <:+: callbackQuery raw ∧
    ∀ piece ∈ (queryPieces (callbackQuery raw)).tail, ¬ "sig=".toList <+: piece := by
  have hsep : "&sig=".toList ≠ [] := by decide
  have h2 : ¬ "&sig=".toList <:+: callbackQuery raw := by
    rw [callbackQuery_eq]
    cases h : cutFirst "&sig=".toList raw with
    | none => exact cutFirst_none_not_infix h hsep
    | some p => obtain ⟨a, b⟩ := p; exact cutFirst_not_infix h hsep
  refine ⟨?_, h2, ?_⟩
  · rw [callbackQuery_eq]
    cases h : cutFirst "&sig=".toList raw with
    | none => exact ⟨[], by simp, Or.inl rfl⟩
    | some p =>
      obtain ⟨a, b⟩ := p
      exact ⟨"&sig=".toList ++ b, by simp [cutFirst_eq_some h], Or.inr ⟨b, rfl⟩⟩
  · intro piece hpiece hpre
    obtain ⟨x, y, hxy⟩ := genSplit_tail_infix _ _ _ _ hpiece
    obtain ⟨t, ht⟩ := hpre
    apply h2
    refine ⟨x, t ++ y, ?_⟩
    rw [hxy, ← ht]
    simp

/-! ## `auth.Callback` -/

theorem Get_ok {db : Database} {state : Str} {tokn : Token}
    (h : (Get db state).2 = Except.ok tokn) :
    Get db state =
      ({ db with log := db.log ++ [DbCall.tokensFindOneId state] }, Except.ok tokn) ∧
    tokn ∈ db.tokens ∧ tokn.Id = state := by
  unfold Get at h ⊢
  cases hf : db.tokens.find? (fun t => decide (t.Id = state)) with
  | none => simp [hf] at h
  | some t =>
    simp only [hf, Except.ok.injEq] at h ⊢
    subst h
    refine ⟨rfl, List.mem_of_find?_eq_some hf, ?_⟩
    simpa using List.find?_some hf

theorem ConstantTimeCompare_ne_one (x y : Str) :
    ConstantTimeCompare x y ≠ 1 ↔ x ≠ y := by
  unfold ConstantTimeCompare
  split <;> simp_all

/-- The state of the store after the token lookup of `auth.Callback`. -/
theorem Callback_of_signature {env : Env} {db : Database} {sig query : Str}
    {params : Values} {tokn : Token}
    (hparse : env.ParseQuery query = some params)
    (hget : (Get db (params.Get keyState)).2 = Except.ok tokn)
    (hsig : sig = env.Base64URLEncode (env.HmacSha512 tokn.Secret query)) :
    Callback env db sig query =
      callbackIdentity env
        { db with log := db.log ++ [DbCall.tokensFindOneId (params.Get keyState)] }
        tokn params := by
  have hg := (Get_ok hget).1
  have hc : ConstantTimeCompare sig
      (env.Base64URLEncode (env.HmacSha512 tokn.Secret query)) = 1 := by
    simp [ConstantTimeCompare, hsig]
  simp [Callback, hparse, hg, hc]

/-- C1: when the `state` of the query names a stored token and `sig` is not
the URL-safe base64 encoding of the HMAC-SHA512 of the query under the token's
secret, `auth.Callback` returns the error data `authentication_error`, no
user and no error, and touches no user document; and every accepted callback
(no error, no error data) had a stored state token whose secret's encoded HMAC
over the query equals `sig`. -/
theorem Callback_signature_checked (env : Env) (db : Database) (sig query : Str) :
    (∀ params tokn,
      env.ParseQuery query = some params →
      (Get db (params.Get keyState)).2 = Except.ok tokn →
      sig ≠ env.Base64URLEncode (env.HmacSha512 tokn.Secret query) →
        (Callback env db sig query).errData = some authenticationError ∧
        (Callback env db sig query).usr = none ∧
        (Callback env db sig query).err = none ∧
        (Callback env db sig query).db.tokens = db.tokens ∧
        (Callback env db sig query).db.users = db.users ∧
        (Callback env db sig query).db.log =
          db.log ++ [DbCall.tokensFindOneId (params.Get keyState)]) ∧
    ((Callback env db sig query).err = none →
      (Callback env db sig query).errData = none →
        ∃ params tokn,
          env.ParseQuery query = some params ∧
          tokn ∈ db.tokens ∧
          tokn.Id = params.Get keyState ∧
          env.Base64URLEncode (env.HmacSha512 tokn.Secret query) = sig) := by
  constructor
  · intro params tokn hparse hget hsig
    have hg := (Get_ok hget).1
    have hc : ConstantTimeCompare sig
        (env.Base64URLEncode (env.HmacSha512 tokn.Secret query)) ≠ 1 :=
      (ConstantTimeCompare_ne_one _ _).mpr hsig
    have heq : Callback env db sig query =
        { tokn := some tokn, errData := some authenticationError,
          db := { db with log := db.log ++ [DbCall.tokensFindOneId (params.Get keyState)] } } := by
      simp [Callback, hparse, hg, hc]
    rw [heq]
    simp
  · intro herr hdata
    cases hparse : env.ParseQuery query with
    | none => simp [Callback, hparse] at herr
    | some params =>
      cases hget : (Get db (params.Get keyState)).2 with
      | error e =>
        have : Get db (params.Get keyState) =
            ((Get db (params.Get keyState)).1, Except.error e) := by
          rw [← hget]
        simp only [Callback, hparse] at herr
        rw [this] at herr
        simp at herr
      | ok tokn =>
        obtain ⟨hg, hmem, hid⟩ := Get_ok hget
        refine ⟨params, tokn, rfl, hmem, hid, ?_⟩
        by_contra hne
        have hc : ConstantTimeCompare sig
            (env.Base64URLEncode (env.HmacSha512 tokn.Secret query)) ≠ 1 :=
          (ConstantTimeCompare_ne_one _ _).mpr (fun h => hne h.symm)
        simp [Callback, hparse, hg, hc] at hdata

/-- C1, witness: the Okta state token `st2` of the demonstration store and a
signature that is not the encoded HMAC. -/
theorem Callback_signature_checked_witness :
    (Callback demoEnv demoDb "bad".toList "state=st2&username=bob".toList).errData =
      some authenticationError ∧
    (Callback demoEnv demoDb "bad".toList "state=st2&username=bob".toList).usr = none :=
  have h := (Callback_signature_checked demoEnv demoDb "bad".toList
    "state=st2&username=bob".toList).1
      [("state".toList, "st2".toList), ("username".toList, "bob".toList)]
      { Id := "st2".toList, Typ := "okta".toList, Secret := "k2".toList,
        Provider := "p-okta".toList }
      (by decide) (by rfl) (by decide)
  ⟨h.1, h.2.1⟩

theorem Token.Remove_of_mem {db : Database} {tokn : Token} (h : tokn ∈ db.tokens) :
    tokn.Remove db =
      ({ tokens := db.tokens.filter (fun x => decide (x.Id ≠ tokn.Id)),
         users := db.users,
         log := db.log ++ [DbCall.tokensRemoveId tokn.Id] }, none) := by
  have hany : db.tokens.any (fun x => decide (x.Id = tokn.Id)) = true :=
    List.any_eq_true.mpr ⟨tokn, h, by simp⟩
  simp [Token.Remove, hany]

theorem GetUsername_of_ne_nil (db : Database) (typ : Str) {username : Str}
    (h : username ≠ []) :
    GetUsername db typ username =
      match db.users.find? (fun u => decide (u.Typ = typ ∧ u.Username = username)) with
      | some u =>
        ({ db with log := db.log ++ [DbCall.usersFindOne typ username] }, u, none)
      | none =>
        ({ db with log := db.log ++ [DbCall.usersFindOne typ username] }, {},
          some GoError.databaseNotFound) := by
  simp [GetUsername, h]

theorem callbackRoles_eq (provider : Provider) (params : Values) :
    callbackRoles provider params =
      provider.DefaultRoles ++
        (Split (params.Get keyRoles) ",".toList).filter (fun role => decide (role ≠ [])) := by
  have hfold : ∀ (l : List Str) (acc : List Str),
      l.foldl (fun roles role => if role ≠ [] then roles ++ [role] else roles) acc =
        acc ++ l.filter (fun role => decide (role ≠ [])) := by
    intro l
    induction l with
    | nil => simp
    | cons r rs ih =>
      intro acc
      rw [List.foldl_cons, ih]
      by_cases hr : r = [] <;> simp [hr]
  unfold callbackRoles
  rw [hfold]
  simp

/-- What `callbackUser` does to the store: nothing, or the upsert of the new
user followed by a `user.change` event, or a commit of the roles of a user
followed by a `user.change` event. -/
theorem callbackUser_frame (env : Env) (db : Database) (tokn : Token)
    (provider : Provider) (username : Str) (roles : List Str) (usr : Option User)
    (errData : Option ErrorData) :
    (callbackUser env db tokn provider username roles usr errData).db = db ∨
    (callbackUser env db tokn provider username roles usr errData).db =
      PublishDispatch
        (User.Upsert { Typ := provider.Typ, Username := username, Roles := roles } db).1
        userChange ∨
    ∃ u, (callbackUser env db tokn provider username roles usr errData).db =
      PublishDispatch (User.CommitRoles u db).1 userChange := by
  cases usr with
  | none =>
    by_cases hauto : provider.AutoCreate = true
    · by_cases hed : errData = none
      · right; left
        subst hed
        simp [callbackUser, hauto, User.Upsert]
      · left
        simp [callbackUser, hauto, hed]
    · left
      simp [callbackUser, hauto]
  | some u =>
    by_cases hrm : provider.RoleManagement = Merge ∨ provider.RoleManagement = Overwrite
    · cases hp : (if provider.RoleManagement = Merge then env.RolesMerge u roles
          else env.RolesOverwrite u roles) with
      | mk usr1 changed =>
        cases changed with
        | false => left; simp [callbackUser, hrm, hp]
        | true =>
          cases hv : env.UserValidate db usr1 with
          | mk usr2 rest =>
            obtain ⟨ed, e⟩ := rest
            cases e with
            | some e => left; simp [callbackUser, hrm, hp, hv]
            | none =>
              cases ed with
              | some ed => left; simp [callbackUser, hrm, hp, hv]
              | none =>
                right; right
                exact ⟨usr2, by simp [callbackUser, hrm, hp, hv, User.CommitRoles]⟩
    · left
      simp [callbackUser, hrm]

theorem callbackIdentity_of_checks {env : Env} {db : Database} {tokn : Token}
    {params : Values} {provider : Provider} {name : Str}
    (huser : params.Get keyUsername ≠ [])
    (hprov : callbackProvider env tokn (params.Get keyUsername) = some provider)
    (hazure : callbackAzure provider (params.Get keyUsername) = Except.ok name) :
    callbackIdentity env db tokn params =
      callbackResolve env db tokn provider params name := by
  simp [callbackIdentity, huser, hprov, hazure]

theorem callbackResolve_of_roles {env : Env} {db : Database} {tokn : Token}
    {provider : Provider} {params : Values} {name : Str} {roles : List Str}
    (hmem : tokn ∈ db.tokens) (hname : name ≠ [])
    (hroles : resolveRoles env provider params name = Except.ok roles) :
    callbackResolve env db tokn provider params name =
      callbackUser env
        { tokens := db.tokens.filter (fun x => decide (x.Id ≠ tokn.Id)),
          users := db.users,
          log := db.log ++
            [DbCall.tokensRemoveId tokn.Id, DbCall.usersFindOne provider.Typ name] }
        tokn provider name roles
        (db.users.find? (fun u => decide (u.Typ = provider.Typ ∧ u.Username = name)))
        none := by
  unfold callbackResolve
  rw [Token.Remove_of_mem hmem]
  simp only [hroles]
  rw [GetUsername_of_ne_nil _ _ hname]
  cases hf : db.users.find? (fun u => decide (u.Typ = provider.Typ ∧ u.Username = name)) with
  | none => simp
  | some u => simp

theorem callbackResolve_frame (env : Env) (db : Database) (tokn : Token)
    (provider : Provider) (params : Values) (name : Str) (hmem : tokn ∈ db.tokens) :
    (callbackResolve env db tokn provider params name).db.tokens =
      db.tokens.filter (fun x => decide (x.Id ≠ tokn.Id)) ∧
    ∃ rest, (callbackResolve env db tokn provider params name).db.log =
      db.log ++ DbCall.tokensRemoveId tokn.Id :: rest := by
  cases hroles : resolveRoles env provider params name with
  | error e =>
    unfold callbackResolve
    rw [Token.Remove_of_mem hmem]
    simp only [hroles]
    refine ⟨?_, [], ?_⟩ <;> simp
  | ok roles =>
    by_cases hname : name = []
    · unfold callbackResolve
      rw [Token.Remove_of_mem hmem]
      simp only [hroles]
      subst hname
      refine ⟨?_, [], ?_⟩ <;> simp [GetUsername]
    · rw [callbackResolve_of_roles hmem hname hroles]
      rcases callbackUser_frame env
          { tokens := db.tokens.filter (fun x => decide (x.Id ≠ tokn.Id)),
            users := db.users,
            log := db.log ++
              [DbCall.tokensRemoveId tokn.Id, DbCall.usersFindOne provider.Typ name] }
          tokn provider name roles
          (db.users.find? (fun u => decide (u.Typ = provider.Typ ∧ u.Username = name)))
          none with h | h | ⟨u, h⟩
      · rw [h]
        exact ⟨rfl, [DbCall.usersFindOne provider.Typ name], by simp⟩
      · rw [h]
        exact ⟨rfl, [DbCall.usersFindOne provider.Typ name,
          DbCall.usersUpsert { Typ := provider.Typ, Username := name, Roles := roles },
          DbCall.publish userChange], by simp [PublishDispatch, User.Upsert]⟩
      · rw [h]
        exact ⟨rfl, [DbCall.usersFindOne provider.Typ name,
          DbCall.usersCommitRoles u, DbCall.publish userChange],
          by simp [PublishDispatch, User.CommitRoles]⟩

/-- C2, counterexample: an Azure callback with a stored state token and a
matching signature whose tenant is not the provider's returns
`invalid_tenant`, and the token is still in the store when `auth.Callback`
returns. -/
theorem Callback_invalid_tenant_keeps_token :
    ({ Id := "st1".toList, Typ := Azure, Secret := "k1".toList,
       Provider := "p-azure".toList } : Token) ∈ demoDb.tokens ∧
    demoEnv.Base64URLEncode
        (demoEnv.HmacSha512 "k1".toList "state=st1&username=other/alice".toList) =
      "k1|state=st1&username=other/alice".toList ∧
    (Callback demoEnv demoDb "k1|state=st1&username=other/alice".toList
        "state=st1&username=other/alice".toList).errData = some invalidTenant ∧
    ({ Id := "st1".toList, Typ := Azure, Secret := "k1".toList,
       Provider := "p-azure".toList } : Token) ∈
      (Callback demoEnv demoDb "k1|state=st1&username=other/alice".toList
        "state=st1&username=other/alice".toList).db.tokens := by
  decide

/-- C2, amended: for a callback whose state token exists and whose signature
matches, `auth.Callback` removes the token after the username, provider and
Azure tenant checks and before it composes the roles and looks up the user.
When those checks pass, the removal is the first store operation after the
token lookup and no token with that id is in the store when `Callback`
returns, whatever the later outcome; when one of them fails, `Callback`
returns before the removal, with no user and the token collection as it
was. -/
theorem Callback_token_removed_after_checks (env : Env) (db : Database)
    (sig query : Str) (params : Values) (tokn : Token)
    (hparse : env.ParseQuery query = some params)
    (hget : (Get db (params.Get keyState)).2 = Except.ok tokn)
    (hsig : sig = env.Base64URLEncode (env.HmacSha512 tokn.Secret query)) :
    (∀ provider name,
      params.Get keyUsername ≠ [] →
      callbackProvider env tokn (params.Get keyUsername) = some provider →
      callbackAzure provider (params.Get keyUsername) = Except.ok name →
        (∀ t ∈ (Callback env db sig query).db.tokens, t.Id ≠ tokn.Id) ∧
        ∃ rest, (Callback env db sig query).db.log =
          db.log ++ [DbCall.tokensFindOneId (params.Get keyState),
            DbCall.tokensRemoveId tokn.Id] ++ rest) ∧
    ((params.Get keyUsername = [] ∨
      callbackProvider env tokn (params.Get keyUsername) = none ∨
      ∃ provider errData,
        callbackProvider env tokn (params.Get keyUsername) = some provider ∧
        callbackAzure provider (params.Get keyUsername) = Except.error errData) →
        (Callback env db sig query).db.tokens = db.tokens ∧
        (Callback env db sig query).usr = none ∧
        (Callback env db sig query).db.log =
          db.log ++ [DbCall.tokensFindOneId (params.Get keyState)]) := by
  obtain ⟨_, hmem, _⟩ := Get_ok hget
  rw [Callback_of_signature hparse hget hsig]
  constructor
  · intro provider name huser hprov hazure
    rw [callbackIdentity_of_checks huser hprov hazure]
    obtain ⟨htok, rest, hlog⟩ := callbackResolve_frame env
      { db with log := db.log ++ [DbCall.tokensFindOneId (params.Get keyState)] }
      tokn provider params name hmem
    constructor
    · intro t ht
      rw [htok] at ht
      simpa using (List.mem_filter.mp ht).2
    · exact ⟨rest, by rw [hlog]; simp⟩
  · rintro (huser | hprov | ⟨provider, errData, hprov, hazure⟩)
    · simp [callbackIdentity, huser]
    · by_cases huser : params.Get keyUsername = []
      · simp [callbackIdentity, huser]
      · by_cases hg : tokn.Typ = Google <;> simp [callbackIdentity, huser, hprov, hg]
    · by_cases huser : params.Get keyUsername = []
      · simp [callbackIdentity, huser]
      · simp [callbackIdentity, huser, hprov, hazure]

/-- C2, amended, witness: the Okta callback for the unknown user `bob`
passes the checks and is answered `unauthorized`; the token `st2` is gone. -/
theorem Callback_token_removed_after_checks_witness :
    (Callback demoEnv demoDb "k2|state=st2&username=bob".toList
        "state=st2&username=bob".toList).db.tokens.any
      (fun t => decide (t.Id = "st2".toList)) = false :=
  List.any_eq_false.mpr (fun t ht => by
    simpa using
      ((Callback_token_removed_after_checks demoEnv demoDb
          "k2|state=st2&username=bob".toList "state=st2&username=bob".toList
          [("state".toList, "st2".toList), ("username".toList, "bob".toList)]
          { Id := "st2".toList, Typ := "okta".toList, Secret := "k2".toList,
            Provider := "p-okta".toList }
          (by decide) (by rfl) (by decide)).1
        { Id := "p-okta".toList, Typ := "okta".toList,
          DefaultRoles := ["staff".toList], AutoCreate := false }
        "bob".toList (by decide) (by decide) (by rfl)).1 t ht)

theorem cutFirst_char (c : Char) (a b : Str) (h : c ∉ a) :
    cutFirst [c] (a ++ c :: b) = some (a, b) := by
  induction a with
  | nil => simp [cutFirst, List.isPrefixOf]
  | cons x xs ih =>
    have hx : x ≠ c := fun e => h (by simp [e])
    have hxs : c ∉ xs := fun e => h (by simp [e])
    have hc : c ≠ x := fun e => hx e.symm
    simp [cutFirst, List.isPrefixOf, ih hxs, hc]

theorem callbackAzure_of_split (provider : Provider) {username tenant name : Str}
    (htype : provider.Typ = Azure)
    (huser : username = tenant ++ '/' :: name) (hten : '/' ∉ tenant) :
    callbackAzure provider username =
      if tenant ≠ provider.Tenant then Except.error invalidTenant
      else Except.ok name := by
  have hsplit : SplitN username "/".toList 2 = [tenant, name] := by
    have : "/".toList = ['/'] := rfl
    simp [SplitN, genSplit, this, huser, cutFirst_char '/' tenant name hten]
  simp only [callbackAzure, htype, if_true, hsplit]

/-- C4: for a signature-valid callback of an Azure provider whose username is
`tenant/name` (cut at the first `/`): when the tenant is not the provider's,
`auth.Callback` returns `invalid_tenant`, no user and no error, and performs
no store operation after the token lookup (no user is looked up or written);
when it is the provider's, the user is looked up, created or updated under
`name` with the type of the provider: for a non-empty `name` the lookup
`(provider type, name)` directly follows the removal of the token and
`Callback` continues with `callbackUser` for `name`. -/
theorem Callback_azure_tenant (env : Env) (db : Database) (sig query : Str)
    (params : Values) (tokn : Token) (provider : Provider) (tenant name : Str)
    (hparse : env.ParseQuery query = some params)
    (hget : (Get db (params.Get keyState)).2 = Except.ok tokn)
    (hsig : sig = env.Base64URLEncode (env.HmacSha512 tokn.Secret query))
    (hprov : callbackProvider env tokn (params.Get keyUsername) = some provider)
    (htype : provider.Typ = Azure)
    (huser : params.Get keyUsername = tenant ++ '/' :: name)
    (hten : '/' ∉ tenant) :
    (tenant ≠ provider.Tenant →
      (Callback env db sig query).errData = some invalidTenant ∧
      (Callback env db sig query).usr = none ∧
      (Callback env db sig query).err = none ∧
      (Callback env db sig query).db.users = db.users ∧
      (Callback env db sig query).db.log =
        db.log ++ [DbCall.tokensFindOneId (params.Get keyState)]) ∧
    (tenant = provider.Tenant → name ≠ [] →
      Callback env db sig query =
        callbackUser env
          { tokens := db.tokens.filter (fun x => decide (x.Id ≠ tokn.Id)),
            users := db.users,
            log := db.log ++ [DbCall.tokensFindOneId (params.Get keyState),
              DbCall.tokensRemoveId tokn.Id, DbCall.usersFindOne provider.Typ name] }
          tokn provider name (callbackRoles provider params)
          (db.users.find? (fun u => decide (u.Typ = provider.Typ ∧ u.Username = name)))
          none) := by
  obtain ⟨_, hmem, _⟩ := Get_ok hget
  have hne : params.Get keyUsername ≠ [] := by rw [huser]; simp
  have haz := callbackAzure_of_split provider htype huser hten
  rw [Callback_of_signature hparse hget hsig]
  constructor
  · intro hdiff
    rw [if_pos hdiff] at haz
    simp [callbackIdentity, hne, hprov, haz]
  · intro hsame hname
    rw [if_neg (fun h => h hsame)] at haz
    rw [callbackIdentity_of_checks hne hprov haz]
    have hroles : resolveRoles env provider params name =
        Except.ok (callbackRoles provider params) := by
      have : Azure ≠ Google := by decide
      simp [resolveRoles, htype, this]
    have hmem2 : tokn ∈ ({ db with log := db.log ++
        [DbCall.tokensFindOneId (params.Get keyState)] } : Database).tokens := hmem
    rw [callbackResolve_of_roles hmem2 hname hroles]
    simp

/-- C4, witness: with the provider tenant `acme`, the username `other/alice`
is answered `invalid_tenant`. -/
theorem Callback_azure_tenant_witness :
    (Callback demoEnv demoDb "k1|state=st1&username=other/alice".toList
        "state=st1&username=other/alice".toList).errData = some invalidTenant :=
  ((Callback_azure_tenant demoEnv demoDb
      "k1|state=st1&username=other/alice".toList "state=st1&username=other/alice".toList
      [("state".toList, "st1".toList), ("username".toList, "other/alice".toList)]
      { Id := "st1".toList, Typ := Azure, Secret := "k1".toList,
        Provider := "p-azure".toList }
      { Id := "p-azure".toList, Typ := Azure, Tenant := "acme".toList,
        DefaultRoles := ["staff".toList], AutoCreate := true }
      "other".toList "alice".toList
      (by decide) (by rfl) (by decide) (by decide) (by rfl) (by decide) (by decide)).1
    (by decide)).1

theorem Callback_of_checks {env : Env} {db : Database} {sig query : Str}
    {params : Values} {tokn : Token} {provider : Provider} {name : Str}
    {roles : List Str}
    (hparse : env.ParseQuery query = some params)
    (hget : (Get db (params.Get keyState)).2 = Except.ok tokn)
    (hsig : sig = env.Base64URLEncode (env.HmacSha512 tokn.Secret query))
    (huser : params.Get keyUsername ≠ [])
    (hprov : callbackProvider env tokn (params.Get keyUsername) = some provider)
    (hazure : callbackAzure provider (params.Get keyUsername) = Except.ok name)
    (hname : name ≠ [])
    (hroles : resolveRoles env provider params name = Except.ok roles) :
    Callback env db sig query =
      callbackUser env
        { tokens := db.tokens.filter (fun x => decide (x.Id ≠ tokn.Id)),
          users := db.users,
          log := db.log ++ [DbCall.tokensFindOneId (params.Get keyState),
            DbCall.tokensRemoveId tokn.Id, DbCall.usersFindOne provider.Typ name] }
        tokn provider name roles
        (db.users.find? (fun u => decide (u.Typ = provider.Typ ∧ u.Username = name)))
        none := by
  obtain ⟨_, hmem, _⟩ := Get_ok hget
  rw [Callback_of_signature hparse hget hsig, callbackIdentity_of_checks huser hprov hazure]
  have hmem2 : tokn ∈ ({ db with log := db.log ++
      [DbCall.tokensFindOneId (params.Get keyState)] } : Database).tokens := hmem
  rw [callbackResolve_of_roles hmem2 hname hroles]
  simp

/-- C5: for a signature-valid callback of a provider that is not a Google
provider and that passes the username, provider and tenant checks, the role
list with which `auth.Callback` creates or updates the user is
`provider.DefaultRoles` followed, in order, by the non-empty entries of the
comma-separated `roles` parameter; an absent user of an auto-creating provider
is stored with exactly these roles; a role is in the list exactly when it is a
default role or a non-empty entry of the parameter; an absent or empty `roles`
parameter leaves the default roles alone. -/
theorem Callback_roles_composed (env : Env) (db : Database) (sig query : Str)
    (params : Values) (tokn : Token) (provider : Provider) (name : Str)
    (hparse : env.ParseQuery query = some params)
    (hget : (Get db (params.Get keyState)).2 = Except.ok tokn)
    (hsig : sig = env.Base64URLEncode (env.HmacSha512 tokn.Secret query))
    (huser : params.Get keyUsername ≠ [])
    (hprov : callbackProvider env tokn (params.Get keyUsername) = some provider)
    (hazure : callbackAzure provider (params.Get keyUsername) = Except.ok name)
    (hname : name ≠ [])
    (hng : provider.Typ ≠ Google) :
    Callback env db sig query =
      callbackUser env
        { tokens := db.tokens.filter (fun x => decide (x.Id ≠ tokn.Id)),
          users := db.users,
          log := db.log ++ [DbCall.tokensFindOneId (params.Get keyState),
            DbCall.tokensRemoveId tokn.Id, DbCall.usersFindOne provider.Typ name] }
        tokn provider name
        (provider.DefaultRoles ++
          (Split (params.Get keyRoles) ",".toList).filter (fun role => decide (role ≠ [])))
        (db.users.find? (fun u => decide (u.Typ = provider.Typ ∧ u.Username = name)))
        none ∧
    ((∀ u ∈ db.users, ¬ (u.Typ = provider.Typ ∧ u.Username = name)) →
      provider.AutoCreate = true →
        DbCall.usersUpsert
            { Typ := provider.Typ, Username := name,
              Roles := provider.DefaultRoles ++
                (Split (params.Get keyRoles) ",".toList).filter
                  (fun role => decide (role ≠ [])) } ∈
          (Callback env db sig query).db.log ∧
        ({ Typ := provider.Typ, Username := name,
           Roles := provider.DefaultRoles ++
             (Split (params.Get keyRoles) ",".toList).filter
               (fun role => decide (role ≠ [])) } : User) ∈
          (Callback env db sig query).db.users) ∧
    (∀ role, role ∈ callbackRoles provider params ↔
      role ∈ provider.DefaultRoles ∨
        (role ∈ Split (params.Get keyRoles) ",".toList ∧ role ≠ [])) ∧
    (params.Get keyRoles = [] → callbackRoles provider params = provider.DefaultRoles) := by
  have hroles : resolveRoles env provider params name =
      Except.ok (provider.DefaultRoles ++
        (Split (params.Get keyRoles) ",".toList).filter (fun role => decide (role ≠ []))) := by
    simp [resolveRoles, hng, callbackRoles_eq]
  have heq := Callback_of_checks hparse hget hsig huser hprov hazure hname hroles
  refine ⟨heq, ?_, ?_, ?_⟩
  · intro habsent hauto
    have hfind : db.users.find?
        (fun u => decide (u.Typ = provider.Typ ∧ u.Username = name)) = none := by
      rw [List.find?_eq_none]
      intro u hu
      simpa using habsent u hu
    have hex : ¬ ∃ x ∈ db.users, x.Typ = provider.Typ ∧ x.Username = name := by
      rintro ⟨x, hx, h⟩
      exact habsent x hx h
    rw [heq, hfind]
    simp [callbackUser, hauto, User.Upsert, PublishDispatch, hex]
  · intro role
    rw [callbackRoles_eq]
    simp [List.mem_filter]
  · intro hempty
    rw [callbackRoles_eq, hempty]
    simp [Split, genSplit]

/-- C5, witness: the Azure callback for `acme/alice` with `roles=a,,b` stores
the new user `alice` with the roles `staff`, `a`, `b`. -/
theorem Callback_roles_composed_witness :
    ({ Typ := Azure, Username := "alice".toList,
       Roles := ["staff".toList, "a".toList, "b".toList] } : User) ∈
      (Callback demoEnv demoDb "k1|state=st1&username=acme/alice&roles=a,,b".toList
        "state=st1&username=acme/alice&roles=a,,b".toList).db.users :=
  ((Callback_roles_composed demoEnv demoDb
      "k1|state=st1&username=acme/alice&roles=a,,b".toList
      "state=st1&username=acme/alice&roles=a,,b".toList
      [("state".toList, "st1".toList), ("username".toList, "acme/alice".toList),
        ("roles".toList, "a,,b".toList)]
      { Id := "st1".toList, Typ := Azure, Secret := "k1".toList,
        Provider := "p-azure".toList }
      { Id := "p-azure".toList, Typ := Azure, Tenant := "acme".toList,
        DefaultRoles := ["staff".toList], AutoCreate := true }
      "alice".toList
      (by decide) (by rfl) (by decide) (by decide) (by decide) (by rfl) (by decide)
      (by decide)).2.1 (by decide) (by rfl)).2

/-- C6, counterexample: two signature-valid callbacks for which no user
exists and the provider does not create users, answered without the error data
`unauthorized`. For the Azure username `acme/` the resolved user name is empty:
the token is removed and `user.GetUsername` answers with
`errortypes.NotFoundError`, which `Callback` returns as an error. For the
Google user `bob@corp.com` the group lookup fails and its error is
returned. -/
theorem Callback_absent_user_not_unauthorized :
    (demoDb.users.any (fun u => decide (u.Typ = Azure ∧ u.Username = []))) = false ∧
    (Callback demoEnvNoCreate demoDb "k1|state=st1&username=acme/".toList
        "state=st1&username=acme/".toList).errData = none ∧
    (Callback demoEnvNoCreate demoDb "k1|state=st1&username=acme/".toList
        "state=st1&username=acme/".toList).err = some GoError.errortypesNotFound ∧
    (Callback demoEnvNoCreate demoDb "k1|state=st1&username=acme/".toList
        "state=st1&username=acme/".toList).db.tokens =
      [{ Id := "st2".toList, Typ := "okta".toList, Secret := "k2".toList,
         Provider := "p-okta".toList }] ∧
    (demoDbGoogle.users.any
      (fun u => decide (u.Typ = Google ∧ u.Username = "bob@corp.com".toList))) = false ∧
    (Callback demoEnvNoCreate demoDbGoogle "k3|state=st3&username=bob@corp.com".toList
        "state=st3&username=bob@corp.com".toList).errData = none ∧
    (Callback demoEnvNoCreate demoDbGoogle "k3|state=st3&username=bob@corp.com".toList
        "state=st3&username=bob@corp.com".toList).err =
      some (GoError.other "google".toList) := by
  decide

/-- C6, amended: for a signature-valid callback that passes the username,
provider and tenant checks (and, for a Google provider, whose group lookup
succeeds), when no user exists for the provider's type and the resolved
non-empty username and `provider.AutoCreate` is false, `auth.Callback` returns
the error data `unauthorized`, no user and no error; the user collection is
unchanged and the store operations are the token lookup, the token removal and
the user lookup only: no user document is written and no `user.change` event
is published. -/
theorem Callback_unauthorized_without_autocreate (env : Env) (db : Database)
    (sig query : Str) (params : Values) (tokn : Token) (provider : Provider)
    (name : Str)
    (hparse : env.ParseQuery query = some params)
    (hget : (Get db (params.Get keyState)).2 = Except.ok tokn)
    (hsig : sig = env.Base64URLEncode (env.HmacSha512 tokn.Secret query))
    (huser : params.Get keyUsername ≠ [])
    (hprov : callbackProvider env tokn (params.Get keyUsername) = some provider)
    (hazure : callbackAzure provider (params.Get keyUsername) = Except.ok name)
    (hname : name ≠ [])
    (hgoogle : provider.Typ = Google → ∃ g, env.GoogleRoles provider name = Except.ok g)
    (habsent : ∀ u ∈ db.users, ¬ (u.Typ = provider.Typ ∧ u.Username = name))
    (hauto : provider.AutoCreate = false) :
    (Callback env db sig query).errData = some unauthorized ∧
    (Callback env db sig query).usr = none ∧
    (Callback env db sig query).err = none ∧
    (Callback env db sig query).db.users = db.users ∧
    (Callback env db sig query).db.log =
      db.log ++ [DbCall.tokensFindOneId (params.Get keyState),
        DbCall.tokensRemoveId tokn.Id, DbCall.usersFindOne provider.Typ name] := by
  have hroles : ∃ roles, resolveRoles env provider params name = Except.ok roles := by
    by_cases hg : provider.Typ = Google
    · obtain ⟨g, hgr⟩ := hgoogle hg
      exact ⟨callbackRoles provider params ++ g, by simp [resolveRoles, hg, hgr, Except.map]⟩
    · exact ⟨callbackRoles provider params, by simp [resolveRoles, hg]⟩
  obtain ⟨roles, hroles⟩ := hroles
  have hfind : db.users.find?
      (fun u => decide (u.Typ = provider.Typ ∧ u.Username = name)) = none := by
    rw [List.find?_eq_none]
    intro u hu
    simpa using habsent u hu
  rw [Callback_of_checks hparse hget hsig huser hprov hazure hname hroles, hfind]
  simp [callbackUser, hauto]

/-- C6, amended, witness: the Okta provider of the demonstration environment does not
create users; the callback for the unknown user `bob` is answered
`unauthorized`. -/
theorem Callback_unauthorized_without_autocreate_witness :
    (Callback demoEnv demoDb "k2|state=st2&username=bob".toList
        "state=st2&username=bob".toList).errData = some unauthorized ∧
    (Callback demoEnv demoDb "k2|state=st2&username=bob".toList
        "state=st2&username=bob".toList).db.users = demoDb.users :=
  have h := Callback_unauthorized_without_autocreate demoEnv demoDb
      "k2|state=st2&username=bob".toList "state=st2&username=bob".toList
      [("state".toList, "st2".toList), ("username".toList, "bob".toList)]
      { Id := "st2".toList, Typ := "okta".toList, Secret := "k2".toList,
        Provider := "p-okta".toList }
      { Id := "p-okta".toList, Typ := "okta".toList,
        DefaultRoles := ["staff".toList], AutoCreate := false }
      "bob".toList
      (by decide) (by rfl) (by decide) (by decide) (by decide) (by rfl) (by decide)
      (fun _ => ⟨[], rfl⟩) (by decide) (by rfl)
  ⟨h.1, h.2.2.2.1⟩

/-! ## `auth.Local` -/

/-- C7, counterexample: for the empty username `auth.Local` returns the error
`errortypes.NotFoundError` and no error data instead of `auth_invalid`; and
the `auth_invalid` result for an existing user with a wrong password carries
the user, while the result for a missing user carries none. -/
theorem Local_empty_username_is_error :
    (Local demoEnv demoDb [] "secret".toList).err = some GoError.errortypesNotFound ∧
    (Local demoEnv demoDb [] "secret".toList).errData = none ∧
    (Local demoEnv demoDb "alice".toList "wrong".toList).errData = some authInvalid ∧
    (Local demoEnv demoDb "alice".toList "wrong".toList).usr ≠ none ∧
    (Local demoEnv demoDb "bob".toList "wrong".toList).errData = some authInvalid ∧
    (Local demoEnv demoDb "bob".toList "wrong".toList).usr = none := by
  decide

/-- C7, amended: for every non-empty username and every password `auth.Local`
returns no error and either a user without error data (a stored local user of
that name whose password check succeeded) or the error data `auth_invalid`;
when no local user has the name the result is `auth_invalid` with no user, and
for a stored user whose password check fails it is the same `auth_invalid`
with no error (and the looked-up user). -/
theorem Local_auth_invalid (env : Env) (db : Database) (username password : Str)
    (hne : username ≠ []) :
    (Local env db username password).err = none ∧
    (((Local env db username password).errData = none ∧
        ∃ u, (Local env db username password).usr = some u ∧ u ∈ db.users ∧
          u.Typ = Local_ ∧ u.Username = username ∧
          env.CheckPassword u password = true) ∨
      (Local env db username password).errData = some authInvalid) ∧
    ((∀ u ∈ db.users, ¬ (u.Typ = Local_ ∧ u.Username = username)) →
      (Local env db username password).errData = some authInvalid ∧
      (Local env db username password).usr = none) ∧
    (∀ u, db.users.find?
        (fun u => decide (u.Typ = Local_ ∧ u.Username = username)) = some u →
      env.CheckPassword u password = false →
        (Local env db username password).errData = some authInvalid ∧
        (Local env db username password).usr = some u) := by
  unfold Local
  rw [GetUsername_of_ne_nil _ _ hne]
  cases hf : db.users.find? (fun u => decide (u.Typ = Local_ ∧ u.Username = username)) with
  | none => simp
  | some u =>
    have hmem := List.mem_of_find?_eq_some hf
    have hp : u.Typ = Local_ ∧ u.Username = username := by
      simpa using List.find?_some hf
    by_cases hc : env.CheckPassword u password = true
    · simp only [hc]
      refine ⟨rfl, Or.inl ⟨rfl, u, rfl, hmem, hp.1, hp.2, hc⟩, ?_, ?_⟩
      · intro habs
        exact absurd hp (habs u hmem)
      · intro v hv hfalse
        simp only [Option.some.injEq] at hv
        subst hv
        rw [hc] at hfalse
        exact absurd hfalse (by simp)
    · have hcf : env.CheckPassword u password = false := by simpa using hc
      simp only [hcf]
      refine ⟨rfl, Or.inr rfl, ?_, ?_⟩
      · intro habs
        exact absurd hp (habs u hmem)
      · intro v hv _
        simp only [Option.some.injEq] at hv
        subst hv
        exact ⟨rfl, rfl⟩

/-- C7, amended, witness: the unknown local user `bob`. -/
theorem Local_auth_invalid_witness :
    (Local demoEnv demoDb "bob".toList "secret".toList).errData = some authInvalid ∧
    (Local demoEnv demoDb "bob".toList "secret".toList).usr = none :=
  (Local_auth_invalid demoEnv demoDb "bob".toList "secret".toList (by decide)).2.2.1
    (by decide)

/-! ## Package `authority` -/

theorem toInt64_of_range {x : Int} (h1 : -9223372036854775808 ≤ x)
    (h2 : x < 9223372036854775808) : toInt64 x = x := by
  unfold toInt64
  norm_num
  omega

theorem toUint64_of_range {x : Int} (h1 : 0 ≤ x) (h2 : x < 18446744073709551616) :
    ((toUint64 x : Nat) : Int) = x := by
  unfold toUint64
  norm_num
  omega

theorem addUnix_minutes (t m : Int) : addUnix t (m * Minute) = t / 1000000000 + m * 60 := by
  unfold addUnix Minute
  have : t + m * 60000000000 = t + (m * 60) * 1000000000 := by ring
  rw [this, Int.add_mul_ediv_right _ _ (by norm_num)]

/-- The certificate of `CreateCertificate` before it is signed. -/
theorem CreateCertificate_cert (env : SshEnv) (a : Authority) (usr : User)
    (sshPubKey objectId : Str) (now1 now2 : Int) {privateKey pubKey comment : Str}
    (hpem : env.ParsePemKey a.PrivateKey = Except.ok privateKey)
    (hkey : env.ParseAuthorizedKey sshPubKey = Except.ok (pubKey, comment))
    (hroles : usr.Roles ≠ []) :
    ∃ nonce sigKey sig,
      (a.CreateCertificate env usr sshPubKey objectId now1 now2).cert =
        some
          { Nonce := nonce, SignatureKey := sigKey, Signature := sig,
            Key := pubKey,
            Serial := env.Fnv64a objectId,
            CertType := UserCert,
            KeyId := Hex usr.Id,
            ValidPrincipals := usr.Roles,
            ValidAfter := toUint64 (addUnix now1 (toInt64 (-5 * Minute))),
            ValidBefore := toUint64 (addUnix now2
              (toInt64 (toInt64 (if a.Expire = 0 then 600 else a.Expire) * Minute))),
            Permissions :=
              { Extensions :=
                  [("permit-X11-forwarding".toList, []),
                   ("permit-agent-forwarding".toList, []),
                   ("permit-port-forwarding".toList, []),
                   ("permit-pty".toList, []),
                   ("permit-user-rc".toList, [])] } } := by
  have hlen : ¬ usr.Roles.length = 0 := by
    intro h
    exact hroles (List.length_eq_zero.mp h)
  unfold Authority.CreateCertificate
  simp only [hpem, hkey, hlen, if_false]
  unfold signAndMarshal
  cases hs : env.NewSignerFromKey privateKey with
  | error e => exact ⟨[], [], [], rfl⟩
  | ok signer =>
    simp only
    split
    · exact ⟨[], [], [], rfl⟩
    · rename_i nonce sigKey sig _
      exact ⟨nonce, sigKey, sig, rfl⟩

/-- C8: for an authority whose private key parses, a user with a non-empty
role list and a parseable SSH public key, `Authority.CreateCertificate`
returns a certificate (whatever the outcome of signing) with `CertType` user,
`KeyId` the hex form of the user's id, `ValidPrincipals` equal to `usr.Roles`,
and extensions that are exactly the five keys `permit-X11-forwarding`,
`permit-agent-forwarding`, `permit-port-forwarding`, `permit-pty` and
`permit-user-rc`. -/
theorem CreateCertificate_fields (env : SshEnv) (a : Authority) (usr : User)
    (sshPubKey objectId privateKey pubKey comment : Str) (now1 now2 : Int)
    (hpem : env.ParsePemKey a.PrivateKey = Except.ok privateKey)
    (hkey : env.ParseAuthorizedKey sshPubKey = Except.ok (pubKey, comment))
    (hroles : usr.Roles ≠ []) :
    ∃ cert,
      (a.CreateCertificate env usr sshPubKey objectId now1 now2).cert = some cert ∧
      cert.CertType = UserCert ∧
      cert.KeyId = Hex usr.Id ∧
      cert.ValidPrincipals = usr.Roles ∧
      cert.Permissions.Extensions.map Prod.fst =
        ["permit-X11-forwarding".toList, "permit-agent-forwarding".toList,
         "permit-port-forwarding".toList, "permit-pty".toList,
         "permit-user-rc".toList] ∧
      (∀ key, key ∈ cert.Permissions.Extensions.map Prod.fst ↔
        key = "permit-X11-forwarding".toList ∨ key = "permit-agent-forwarding".toList ∨
        key = "permit-port-forwarding".toList ∨ key = "permit-pty".toList ∨
        key = "permit-user-rc".toList) := by
  obtain ⟨nonce, sigKey, sig, h⟩ :=
    CreateCertificate_cert env a usr sshPubKey objectId now1 now2 hpem hkey hroles
  refine ⟨_, h, rfl, rfl, rfl, rfl, ?_⟩
  intro key
  simp

/-- C8, witness: the user with the roles `ops` and `db` and the id `u1`. -/
theorem CreateCertificate_fields_witness :
    ∃ cert,
      (Authority.CreateCertificate demoSshEnv
          { Expire := 600, PrivateKey := "ca-key".toList } demoUser
          "ssh-rsa AAAA".toList "5a0b".toList demoNow demoNow).cert = some cert ∧
      cert.CertType = UserCert ∧
      cert.KeyId = "7531".toList ∧
      cert.ValidPrincipals = ["ops".toList, "db".toList] :=
  have h := CreateCertificate_fields demoSshEnv
    { Expire := 600, PrivateKey := "ca-key".toList } demoUser
    "ssh-rsa AAAA".toList "5a0b".toList "ca-key".toList "ssh-rsa AAAA".toList []
    demoNow demoNow (by rfl) (by rfl) (by decide)
  h.imp (fun _ hc => ⟨hc.1, hc.2.1, hc.2.2.1.trans (by decide), hc.2.2.2.1.trans (by decide)⟩)

/-- The validity bounds of the certificate of `CreateCertificate`. -/
theorem CreateCertificate_validity (env : SshEnv) (a : Authority) (usr : User)
    (sshPubKey objectId : Str) (now1 now2 : Int) {privateKey pubKey comment : Str}
    (hpem : env.ParsePemKey a.PrivateKey = Except.ok privateKey)
    (hkey : env.ParseAuthorizedKey sshPubKey = Except.ok (pubKey, comment))
    (hroles : usr.Roles ≠ []) :
    ∃ cert,
      (a.CreateCertificate env usr sshPubKey objectId now1 now2).cert = some cert ∧
      cert.ValidAfter = toUint64 (addUnix now1 (toInt64 (-5 * Minute))) ∧
      cert.ValidBefore = toUint64 (addUnix now2
        (toInt64 (toInt64 (if a.Expire = 0 then 600 else a.Expire) * Minute))) := by
  obtain ⟨nonce, sigKey, sig, h⟩ :=
    CreateCertificate_cert env a usr sshPubKey objectId now1 now2 hpem hkey hroles
  exact ⟨_, h, rfl, rfl⟩

/-- The validity bounds of the certificate of `CreateHostCertificate`. -/
theorem CreateHostCertificate_validity (env : SshEnv) (a : Authority)
    (hostname sshPubKey objectId : Str) (now1 now2 : Int)
    {privateKey pubKey comment : Str}
    (hpem : env.ParsePemKey a.PrivateKey = Except.ok privateKey)
    (hkey : env.ParseAuthorizedKey sshPubKey = Except.ok (pubKey, comment)) :
    ∃ cert,
      (a.CreateHostCertificate env hostname sshPubKey objectId now1 now2).cert =
        some cert ∧
      cert.ValidAfter = toUint64 (addUnix now1 (toInt64 (-5 * Minute))) ∧
      cert.ValidBefore = toUint64 (addUnix now2
        (toInt64 (toInt64 (if a.HostExpire = 0 then 600 else a.HostExpire) * Minute))) := by
  unfold Authority.CreateHostCertificate
  simp only [hpem, hkey]
  unfold signAndMarshal
  cases hs : env.NewSignerFromKey privateKey with
  | error e => exact ⟨_, rfl, rfl, rfl⟩
  | ok signer =>
    simp only
    split
    · exact ⟨_, rfl, rfl, rfl⟩
    · exact ⟨_, rfl, rfl, rfl⟩

/-- The start of validity: five minutes before an instant that is at least
five minutes after the epoch. -/
theorem validAfter_eq {now : Int} (h1 : 300000000000 ≤ now)
    (h2 : now < 9223372036854775808) :
    ((toUint64 (addUnix now (toInt64 (-5 * Minute))) : Nat) : Int) =
      now / 1000000000 - 300 := by
  have hm : toInt64 (-5 * Minute) = (-5) * Minute := by
    apply toInt64_of_range <;> simp [Minute]
  rw [hm, addUnix_minutes]
  apply toUint64_of_range <;> omega

/-- The end of validity for an expiry of `e` minutes whose duration fits in 64
bits and that does not end before the epoch. -/
theorem validBefore_eq {now e : Int} (h2 : now < 9223372036854775808)
    (he1 : -153722867 ≤ e) (he2 : e ≤ 153722867)
    (hpos : 0 ≤ now / 1000000000 + e * 60) :
    ((toUint64 (addUnix now (toInt64 (toInt64 e * Minute))) : Nat) : Int) =
      now / 1000000000 + e * 60 := by
  have h64 : toInt64 e = e := by apply toInt64_of_range <;> omega
  have hm : toInt64 (e * Minute) = e * Minute := by
    apply toInt64_of_range <;> simp only [Minute] <;> omega
  rw [h64, hm, addUnix_minutes]
  apply toUint64_of_range <;> omega

/-- The length of the validity window for the two clock readings `now1` (of
`ValidAfter`) and `now2` (of `ValidBefore`) and a stored expiry `x`. -/
theorem window_eq {now1 now2 x : Int} (hnow1 : 300000000000 ≤ now1)
    (hnow1b : now1 < 9223372036854775808) (hnow2b : now2 < 9223372036854775808)
    (hx1 : -153722867 ≤ x) (hx2 : x ≤ 153722867)
    (hpos : 0 ≤ now2 / 1000000000 + (if x = 0 then 600 else x) * 60) :
    ((toUint64 (addUnix now2
        (toInt64 (toInt64 (if x = 0 then 600 else x) * Minute))) : Nat) : Int) -
      ((toUint64 (addUnix now1 (toInt64 (-5 * Minute))) : Nat) : Int) =
      (if x = 0 then 600 else x) * 60 + 5 * 60 +
        (now2 / 1000000000 - now1 / 1000000000) := by
  rw [validAfter_eq hnow1 hnow1b, validBefore_eq hnow2b
    (by split <;> omega) (by split <;> omega) hpos]
  omega

/-- C9, counterexample: an authority with `Expire = 0` issues a user
certificate valid for 36300 seconds (605 minutes), more than `Expire` minutes
plus 5 minutes (300 seconds). -/
theorem CreateCertificate_window_expire_zero :
    ((Authority.CreateCertificate demoSshEnv
        { Expire := 0, PrivateKey := "ca-key".toList } demoUser
        "ssh-rsa AAAA".toList "5a0b".toList demoNow demoNow).cert.map
      (fun c => (c.ValidBefore : Int) - (c.ValidAfter : Int))) = some 36300 ∧
    ¬ ((36300 : Int) ≤
      ({ Expire := 0, PrivateKey := "ca-key".toList } : Authority).Expire * 60 + 5 * 60) := by
  decide

/-- C9, amended: for an authority whose private key parses, a parseable public
key and the two readings of the clock, `now1` for `ValidAfter` (at least five
minutes after the epoch) and `now2` for `ValidBefore`, with an expiry of
-153722867 to 153722867 minutes (the duration fits in 64 bits) that does not
end before the epoch: a user certificate of `CreateCertificate` satisfies
`ValidBefore - ValidAfter = e * 60 + 5 * 60 + (s2 - s1)` seconds, where `e` is
`authority.Expire`, or 600 when `Expire` is 0, and `s1`, `s2` are the Unix
seconds of the two readings. So when both readings fall in the same second the
window is at most `Expire` minutes plus 5 minutes whenever `Expire` is not 0,
and exactly 605 minutes for `Expire = 600`; when the second reading is not
before the first the window is at least `e` minutes plus 5 minutes, and when
it is less than a second after the first the window is at most one second
longer than that. A host certificate of `CreateHostCertificate` satisfies the
same with `authority.HostExpire`. -/
theorem certificate_window (env : SshEnv) (a : Authority) (usr : User)
    (hostname sshPubKey objectId privateKey pubKey comment : Str) (now1 now2 : Int)
    (hpem : env.ParsePemKey a.PrivateKey = Except.ok privateKey)
    (hkey : env.ParseAuthorizedKey sshPubKey = Except.ok (pubKey, comment))
    (hroles : usr.Roles ≠ [])
    (hnow1 : 300000000000 ≤ now1) (hnow1b : now1 < 9223372036854775808)
    (hnow2b : now2 < 9223372036854775808) :
    (-153722867 ≤ a.Expire → a.Expire ≤ 153722867 →
      0 ≤ now2 / 1000000000 + (if a.Expire = 0 then 600 else a.Expire) * 60 →
      ∃ cert,
        (a.CreateCertificate env usr sshPubKey objectId now1 now2).cert = some cert ∧
        (cert.ValidBefore : Int) - (cert.ValidAfter : Int) =
          (if a.Expire = 0 then 600 else a.Expire) * 60 + 5 * 60 +
            (now2 / 1000000000 - now1 / 1000000000) ∧
        (now1 / 1000000000 = now2 / 1000000000 → a.Expire ≠ 0 →
          (cert.ValidBefore : Int) - (cert.ValidAfter : Int) ≤ a.Expire * 60 + 5 * 60) ∧
        (now1 / 1000000000 = now2 / 1000000000 → a.Expire = 600 →
          (cert.ValidBefore : Int) - (cert.ValidAfter : Int) = 605 * 60) ∧
        (now1 ≤ now2 →
          (if a.Expire = 0 then 600 else a.Expire) * 60 + 5 * 60 ≤
            (cert.ValidBefore : Int) - (cert.ValidAfter : Int)) ∧
        (now2 < now1 + 1000000000 →
          (cert.ValidBefore : Int) - (cert.ValidAfter : Int) ≤
            (if a.Expire = 0 then 600 else a.Expire) * 60 + 5 * 60 + 1)) ∧
    (-153722867 ≤ a.HostExpire → a.HostExpire ≤ 153722867 →
      0 ≤ now2 / 1000000000 + (if a.HostExpire = 0 then 600 else a.HostExpire) * 60 →
      ∃ cert,
        (a.CreateHostCertificate env hostname sshPubKey objectId now1 now2).cert =
          some cert ∧
        (cert.ValidBefore : Int) - (cert.ValidAfter : Int) =
          (if a.HostExpire = 0 then 600 else a.HostExpire) * 60 + 5 * 60 +
            (now2 / 1000000000 - now1 / 1000000000) ∧
        (now1 / 1000000000 = now2 / 1000000000 → a.HostExpire ≠ 0 →
          (cert.ValidBefore : Int) - (cert.ValidAfter : Int) ≤
            a.HostExpire * 60 + 5 * 60) ∧
        (now1 / 1000000000 = now2 / 1000000000 → a.HostExpire = 600 →
          (cert.ValidBefore : Int) - (cert.ValidAfter : Int) = 605 * 60) ∧
        (now1 ≤ now2 →
          (if a.HostExpire = 0 then 600 else a.HostExpire) * 60 + 5 * 60 ≤
            (cert.ValidBefore : Int) - (cert.ValidAfter : Int)) ∧
        (now2 < now1 + 1000000000 →
          (cert.ValidBefore : Int) - (cert.ValidAfter : Int) ≤
            (if a.HostExpire = 0 then 600 else a.HostExpire) * 60 + 5 * 60 + 1)) := by
  constructor
  · intro h1 h2 hpos
    obtain ⟨cert, hc, ha, hb⟩ :=
      CreateCertificate_validity env a usr sshPubKey objectId now1 now2 hpem hkey hroles
    have hd := window_eq hnow1 hnow1b hnow2b h1 h2 hpos
    rw [← ha, ← hb] at hd
    refine ⟨cert, hc, hd, ?_, ?_, ?_, ?_⟩
    · intro hs hne
      rw [hd, if_neg hne, hs]
      omega
    · intro hs h600
      rw [hd, h600, hs]
      norm_num
    · intro hle
      rw [hd]
      omega
    · intro hlt
      rw [hd]
      omega
  · intro h1 h2 hpos
    obtain ⟨cert, hc, ha, hb⟩ :=
      CreateHostCertificate_validity env a hostname sshPubKey objectId now1 now2 hpem hkey
    have hd := window_eq hnow1 hnow1b hnow2b h1 h2 hpos
    rw [← ha, ← hb] at hd
    refine ⟨cert, hc, hd, ?_, ?_, ?_, ?_⟩
    · intro hs hne
      rw [hd, if_neg hne, hs]
      omega
    · intro hs h600
      rw [hd, h600, hs]
      norm_num
    · intro hle
      rw [hd]
      omega
    · intro hlt
      rw [hd]
      omega

/-- C9, amended, witness: with `Expire = 600`, a first reading at the last
nanosecond of a second and a second reading one nanosecond later, the window
is 605 minutes and one second. -/
theorem certificate_window_witness :
    ∃ cert,
      (Authority.CreateCertificate demoSshEnv
          { Expire := 600, HostExpire := 600, PrivateKey := "ca-key".toList } demoUser
          "ssh-rsa AAAA".toList "5a0b".toList 1700000000999999999
          1700000001000000000).cert = some cert ∧
      (cert.ValidBefore : Int) - (cert.ValidAfter : Int) = 605 * 60 + 1 :=
  have h := (certificate_window demoSshEnv
    { Expire := 600, HostExpire := 600, PrivateKey := "ca-key".toList } demoUser
    "node1".toList "ssh-rsa AAAA".toList "5a0b".toList "ca-key".toList
    "ssh-rsa AAAA".toList [] 1700000000999999999 1700000001000000000
    (by rfl) (by rfl) (by decide) (by decide) (by decide) (by decide)).1
    (by decide) (by decide) (by decide)
  h.imp (fun _ hc => ⟨hc.1, hc.2.1.trans (by decide)⟩)

/-- C10, counterexample: with a stored `Expire` of 5000 the user certificate
ends 300000 seconds (5000 minutes) after issuance, although 5000 clamped into
[1,1440] is 1440 minutes (86400 seconds). -/
theorem CreateCertificate_expire_not_clamped :
    ((Authority.CreateCertificate demoSshEnv
        { Expire := 5000, PrivateKey := "ca-key".toList } demoUser
        "ssh-rsa AAAA".toList "5a0b".toList demoNow demoNow).cert.map
      (fun c => (c.ValidBefore : Int) - demoNow / 1000000000)) = some 300000 ∧
    validateExpire 5000 = 1440 ∧
    ¬ ((300000 : Int) ≤ 1440 * 60) := by
  decide

/-- C10, amended: for an authority whose private key parses, a user with
roles, a parseable public key and the two readings of the clock, `now1` (at
least five minutes after the epoch) and `now2`: `CreateCertificate` sets
`ValidAfter` to the Unix second of `now1` minus 5 minutes and `ValidBefore` to
the Unix second of `now2` plus `e` minutes, where `e` is the stored `Expire`
itself (-153722867 to 153722867, not ending before the epoch), or 600 when
`Expire` is 0; `CreateCertificate` does not clamp. The clamp is the one of
`Authority.Validate`: for every value of `Expire`, an authority holding the
value that `Validate` leaves issues a certificate with `ValidBefore` equal to
the second of `now2` plus that value in minutes, which lies in [1,1440], so
the certificate is not valid for more than 1440 minutes after the second
reading of the clock. -/
theorem CreateCertificate_expire (env : SshEnv) (a : Authority) (usr : User)
    (sshPubKey objectId privateKey pubKey comment : Str) (now1 now2 : Int)
    (hpem : env.ParsePemKey a.PrivateKey = Except.ok privateKey)
    (hkey : env.ParseAuthorizedKey sshPubKey = Except.ok (pubKey, comment))
    (hroles : usr.Roles ≠ [])
    (hnow1 : 300000000000 ≤ now1) (hnow1b : now1 < 9223372036854775808)
    (hnow2 : 0 ≤ now2) (hnow2b : now2 < 9223372036854775808) :
    (-153722867 ≤ a.Expire → a.Expire ≤ 153722867 →
      0 ≤ now2 / 1000000000 + (if a.Expire = 0 then 600 else a.Expire) * 60 →
      ∃ cert,
        (a.CreateCertificate env usr sshPubKey objectId now1 now2).cert = some cert ∧
        (cert.ValidAfter : Int) = now1 / 1000000000 - 5 * 60 ∧
        (cert.ValidBefore : Int) =
          now2 / 1000000000 + (if a.Expire = 0 then 600 else a.Expire) * 60) ∧
    (∀ stored : Int,
      ∃ cert,
        (Authority.CreateCertificate env { a with Expire := validateExpire stored } usr
          sshPubKey objectId now1 now2).cert = some cert ∧
        1 ≤ validateExpire stored ∧ validateExpire stored ≤ 1440 ∧
        (cert.ValidAfter : Int) = now1 / 1000000000 - 5 * 60 ∧
        (cert.ValidBefore : Int) = now2 / 1000000000 + validateExpire stored * 60 ∧
        (cert.ValidBefore : Int) ≤ now2 / 1000000000 + 1440 * 60) := by
  constructor
  · intro h1 h2 hpos
    obtain ⟨cert, hc, ha, hb⟩ :=
      CreateCertificate_validity env a usr sshPubKey objectId now1 now2 hpem hkey hroles
    refine ⟨cert, hc, ?_, ?_⟩
    · rw [ha, validAfter_eq hnow1 hnow1b]
      norm_num
    · rw [hb, validBefore_eq hnow2b (by split <;> omega) (by split <;> omega) hpos]
  · intro stored
    have hr1 : 1 ≤ validateExpire stored := by
      unfold validateExpire
      split_ifs <;> omega
    have hr2 : validateExpire stored ≤ 1440 := by
      unfold validateExpire
      split_ifs <;> omega
    obtain ⟨cert, hc, ha, hb⟩ :=
      CreateCertificate_validity env { a with Expire := validateExpire stored } usr
        sshPubKey objectId now1 now2 hpem hkey hroles
    have hne : ¬ validateExpire stored = 0 := by omega
    simp only [hne, if_false] at hb
    have hvb : (cert.ValidBefore : Int) =
        now2 / 1000000000 + validateExpire stored * 60 := by
      rw [hb, validBefore_eq hnow2b (by omega) (by omega) (by omega)]
    refine ⟨cert, hc, hr1, hr2, ?_, hvb, ?_⟩
    · rw [ha, validAfter_eq hnow1 hnow1b]
      norm_num
    · rw [hvb]
      omega

/-- C10, amended, witness: a stored `Expire` of 5000 is left as 1440 by the
validation, and the certificate then ends 1440 minutes after the second
reading of the clock, taken a second after the first. -/
theorem CreateCertificate_expire_witness :
    ∃ cert,
      (Authority.CreateCertificate demoSshEnv
          { Expire := validateExpire 5000, PrivateKey := "ca-key".toList } demoUser
          "ssh-rsa AAAA".toList "5a0b".toList demoNow (demoNow + 1000000000)).cert =
        some cert ∧
      (cert.ValidBefore : Int) ≤ (demoNow + 1000000000) / 1000000000 + 1440 * 60 :=
  have h := (CreateCertificate_expire demoSshEnv
    { Expire := 0, PrivateKey := "ca-key".toList } demoUser
    "ssh-rsa AAAA".toList "5a0b".toList "ca-key".toList "ssh-rsa AAAA".toList []
    demoNow (demoNow + 1000000000) (by rfl) (by rfl) (by decide) (by decide) (by decide)
    (by decide) (by decide)).2 5000
  h.imp (fun _ hc => ⟨hc.1, hc.2.2.2.2.2⟩)

/-! ## Package `strings` and `sort`: the order of strings -/

theorem char_eq_of_toNat_eq {a b : Char} (h : a.toNat = b.toNat) : a = b := by
  rw [← Char.ofNat_toNat a, ← Char.ofNat_toNat b, h]

theorem strLe_refl (a : Str) : strLe a a = true := by
  induction a with
  | nil => rfl
  | cons x xs ih => simp [strLe, ih]

theorem strLe_total (a b : Str) : strLe a b = true ∨ strLe b a = true := by
  induction a generalizing b with
  | nil => left; rfl
  | cons x xs ih =>
    cases b with
    | nil => right; rfl
    | cons y ys =>
      simp only [strLe]
      by_cases h1 : x.toNat < y.toNat
      · left; simp [h1]
      · by_cases h2 : y.toNat < x.toNat
        · right; simp [h2]
        · simp only [h1, h2, if_false]
          exact ih ys

theorem strLe_trans {a b c : Str} (hab : strLe a b = true) (hbc : strLe b c = true) :
    strLe a c = true := by
  induction a generalizing b c with
  | nil => rfl
  | cons x xs ih =>
    cases b with
    | nil => simp [strLe] at hab
    | cons y ys =>
      cases c with
      | nil => simp [strLe] at hbc
      | cons z zs =>
        simp only [strLe] at hab hbc ⊢
        by_cases h1 : x.toNat < y.toNat
        · by_cases h3 : y.toNat < z.toNat
          · have : x.toNat < z.toNat := by omega
            simp [this]
          · by_cases h4 : z.toNat < y.toNat
            · simp [h3, h4] at hbc
            · have : x.toNat < z.toNat := by omega
              simp [this]
        · by_cases h2 : y.toNat < x.toNat
          · simp [h1, h2] at hab
          · simp only [h1, h2, if_false] at hab
            by_cases h3 : y.toNat < z.toNat
            · have : x.toNat < z.toNat := by omega
              simp [this]
            · by_cases h4 : z.toNat < y.toNat
              · simp [h3, h4] at hbc
              · simp only [h3, h4, if_false] at hbc
                have e1 : ¬ x.toNat < z.toNat := by omega
                have e2 : ¬ z.toNat < x.toNat := by omega
                simp only [e1, e2, if_false]
                exact ih hab hbc

theorem strLe_antisymm {a b : Str} (hab : strLe a b = true) (hba : strLe b a = true) :
    a = b := by
  induction a generalizing b with
  | nil =>
    cases b with
    | nil => rfl
    | cons y ys => simp [strLe] at hba
  | cons x xs ih =>
    cases b with
    | nil => simp [strLe] at hab
    | cons y ys =>
      simp only [strLe] at hab hba
      by_cases h1 : x.toNat < y.toNat
      · have h2 : ¬ y.toNat < x.toNat := by omega
        simp [h1, h2] at hba
      · by_cases h2 : y.toNat < x.toNat
        · simp [h1, h2] at hab
        · simp only [h1, h2, if_false] at hab hba
          have hxy : x = y := char_eq_of_toNat_eq (by omega)
          rw [hxy, ih hab hba]

theorem sortStrings_sorted (l : List Str) :
    List.Sorted (fun a b => strLe a b = true) (sortStrings l) := by
  haveI : IsTotal Str (fun a b => strLe a b = true) := ⟨strLe_total⟩
  haveI : IsTrans Str (fun a b => strLe a b = true) := ⟨fun _ _ _ => strLe_trans⟩
  exact List.sorted_insertionSort _ l

theorem sortStrings_perm (l : List Str) : (sortStrings l).Perm l :=
  List.perm_insertionSort _ l

theorem sortStrings_eq_of_perm {l₁ l₂ : List Str} (h : l₁.Perm l₂) :
    sortStrings l₁ = sortStrings l₂ := by
  haveI : IsAntisymm Str (fun a b => strLe a b = true) := ⟨fun _ _ => strLe_antisymm⟩
  exact List.eq_of_perm_of_sorted
    (((sortStrings_perm l₁).trans h).trans (sortStrings_perm l₂).symm)
    (sortStrings_sorted l₁) (sortStrings_sorted l₂)

/-- C11: for every authority and every SSH public key, `CreateCertificate`
called for a user whose role list is empty returns an error, no certificate
and an empty marshaled output. -/
theorem CreateCertificate_no_roles (env : SshEnv) (a : Authority) (usr : User)
    (sshPubKey objectId : Str) (now1 now2 : Int) (hroles : usr.Roles = []) :
    (a.CreateCertificate env usr sshPubKey objectId now1 now2).err ≠ none ∧
    (a.CreateCertificate env usr sshPubKey objectId now1 now2).cert = none ∧
    (a.CreateCertificate env usr sshPubKey objectId now1 now2).certMarshaled = [] := by
  unfold Authority.CreateCertificate
  cases hpem : env.ParsePemKey a.PrivateKey with
  | error e => simp
  | ok privateKey =>
    cases hkey : env.ParseAuthorizedKey sshPubKey with
    | error e => simp
    | ok p =>
      obtain ⟨pubKey, comment⟩ := p
      simp [hroles]

/-- C11, witness: the demonstration user without roles. -/
theorem CreateCertificate_no_roles_witness :
    (Authority.CreateCertificate demoSshEnv
        { Expire := 600, PrivateKey := "ca-key".toList } { demoUser with Roles := [] }
        "ssh-rsa AAAA".toList "5a0b".toList demoNow demoNow).cert = none ∧
    (Authority.CreateCertificate demoSshEnv
        { Expire := 600, PrivateKey := "ca-key".toList } { demoUser with Roles := [] }
        "ssh-rsa AAAA".toList "5a0b".toList demoNow demoNow).certMarshaled = [] :=
  (CreateCertificate_no_roles demoSshEnv
    { Expire := 600, PrivateKey := "ca-key".toList } { demoUser with Roles := [] }
    "ssh-rsa AAAA".toList "5a0b".toList demoNow demoNow rfl).2

/-- C12: for an authority whose private key parses, every hostname and a
parseable SSH public key, `CreateHostCertificate` returns a certificate
(whatever the outcome of signing) with `CertType` host, exactly one valid
principal, `hostname + "." + HostDomain`, which is the value of `GetDomain`,
`KeyId` equal to the hostname, and no extensions and no critical options. -/
theorem CreateHostCertificate_fields (env : SshEnv) (a : Authority)
    (hostname sshPubKey objectId privateKey pubKey comment : Str) (now1 now2 : Int)
    (hpem : env.ParsePemKey a.PrivateKey = Except.ok privateKey)
    (hkey : env.ParseAuthorizedKey sshPubKey = Except.ok (pubKey, comment)) :
    ∃ cert,
      (a.CreateHostCertificate env hostname sshPubKey objectId now1 now2).cert =
        some cert ∧
      cert.CertType = HostCert ∧
      cert.ValidPrincipals = [hostname ++ ".".toList ++ a.HostDomain] ∧
      cert.ValidPrincipals = [a.GetDomain hostname] ∧
      cert.KeyId = hostname ∧
      cert.Permissions.Extensions = [] ∧
      cert.Permissions.CriticalOptions = [] := by
  unfold Authority.CreateHostCertificate
  simp only [hpem, hkey]
  unfold signAndMarshal
  cases hs : env.NewSignerFromKey privateKey with
  | error e => exact ⟨_, rfl, rfl, rfl, rfl, rfl, rfl, rfl⟩
  | ok signer =>
    simp only
    split
    · exact ⟨_, rfl, rfl, rfl, rfl, rfl, rfl, rfl⟩
    · exact ⟨_, rfl, rfl, rfl, rfl, rfl, rfl, rfl⟩

/-- C12, witness: the host `node1` of the domain `example.com`. -/
theorem CreateHostCertificate_fields_witness :
    ∃ cert,
      (Authority.CreateHostCertificate demoSshEnv
          { HostExpire := 600, PrivateKey := "ca-key".toList,
            HostDomain := "example.com".toList }
          "node1".toList "ssh-rsa AAAA".toList "5a0b".toList demoNow demoNow).cert =
        some cert ∧
      cert.CertType = HostCert ∧
      cert.ValidPrincipals = ["node1.example.com".toList] ∧
      cert.KeyId = "node1".toList :=
  have h := CreateHostCertificate_fields demoSshEnv
    { HostExpire := 600, PrivateKey := "ca-key".toList,
      HostDomain := "example.com".toList }
    "node1".toList "ssh-rsa AAAA".toList "5a0b".toList "ca-key".toList
    "ssh-rsa AAAA".toList [] demoNow demoNow (by rfl) (by rfl)
  h.imp (fun _ hc => ⟨hc.1, hc.2.1, hc.2.2.1.trans (by decide), hc.2.2.2.2.1⟩)

/-! ## `Authority.HostnameValidate` -/

theorem challengeLoop_skip (env : HostEnv) (port : Int) (pubKey : Str)
    (pre rest : List IP) (err : Option GoError)
    (hpre : ∀ q ∈ pre, probeFails (env.Challenge q port) = true) :
    challengeLoop env port pubKey (pre ++ rest) err =
      challengeLoop env port pubKey rest (if pre = [] then err else some requestError) := by
  induction pre generalizing err with
  | nil => simp
  | cons q pre ih =>
    have hq := hpre q (by simp)
    have htl : ∀ x ∈ pre, probeFails (env.Challenge x port) = true :=
      fun x hx => hpre x (by simp [hx])
    have hstep : challengeLoop env port pubKey (q :: (pre ++ rest)) err =
        challengeLoop env port pubKey (pre ++ rest) (some requestError) := by
      cases hc : env.Challenge q port with
      | requestFailed => simp [challengeLoop, hc]
      | transportFailed => simp [challengeLoop, hc]
      | response status publicKey =>
        have hs : status ≠ 200 := by simpa [probeFails, hc] using hq
        simp [challengeLoop, hc, hs]
    rw [List.cons_append, hstep, ih _ htl]
    by_cases hnil : pre = [] <;> simp [hnil]

theorem challengeLoop_all_fail (env : HostEnv) (port : Int) (pubKey : Str)
    (ips : List IP) (err : Option GoError)
    (hall : ∀ q ∈ ips, probeFails (env.Challenge q port) = true) :
    (challengeLoop env port pubKey ips err).1 = false := by
  have h := challengeLoop_skip env port pubKey ips [] err hall
  rw [List.append_nil] at h
  rw [h]
  simp [challengeLoop]

theorem challengeLoop_valid (env : HostEnv) (port : Int) (pubKey : Str)
    (ips : List IP) (err : Option GoError)
    (h : (challengeLoop env port pubKey ips err).1 = true) :
    ∃ pre ip post key,
      ips = pre ++ ip :: post ∧
      (∀ q ∈ pre, probeFails (env.Challenge q port) = true) ∧
      env.Challenge ip port = Probe.response 200 (some key) ∧
      (len (TrimSpace key) : Int) ≤ env.SshPubKeyLen ∧
      pubKey = TrimSpace key := by
  induction ips generalizing err with
  | nil => simp [challengeLoop] at h
  | cons ip ips ih =>
    have hfail : probeFails (env.Challenge ip port) = true →
        (challengeLoop env port pubKey ips (some requestError)).1 = true →
        ∃ pre ip' post key,
          ip :: ips = pre ++ ip' :: post ∧
          (∀ q ∈ pre, probeFails (env.Challenge q port) = true) ∧
          env.Challenge ip' port = Probe.response 200 (some key) ∧
          (len (TrimSpace key) : Int) ≤ env.SshPubKeyLen ∧
          pubKey = TrimSpace key := by
      intro hf hrec
      obtain ⟨pre, ip', post, key, hips, hpre, hc, hlen, heq⟩ := ih _ hrec
      refine ⟨ip :: pre, ip', post, key, by simp [hips], ?_, hc, hlen, heq⟩
      intro q hq
      rcases List.mem_cons.mp hq with rfl | hq
      · exact hf
      · exact hpre q hq
    cases hc : env.Challenge ip port with
    | requestFailed =>
      simp only [challengeLoop, hc] at h
      exact hfail (by simp [probeFails, hc]) h
    | transportFailed =>
      simp only [challengeLoop, hc] at h
      exact hfail (by simp [probeFails, hc]) h
    | response status publicKey =>
      by_cases hs : status = 200
      · subst hs
        cases publicKey with
        | none => simp [challengeLoop, hc] at h
        | some key =>
          by_cases hlen : (len (TrimSpace key) : Int) > env.SshPubKeyLen
          · simp [challengeLoop, hc, hlen] at h
          · by_cases hcmp : ConstantTimeCompare pubKey (TrimSpace key) = 1
            · refine ⟨[], ip, ips, key, rfl, by simp, hc, by omega, ?_⟩
              by_contra hne
              exact (ConstantTimeCompare_ne_one _ _).mpr hne hcmp
            · simp [challengeLoop, hc, hlen, hcmp] at h
      · simp only [challengeLoop, hc, ne_eq, hs, not_false_eq_true, if_true] at h
        exact hfail (by simp [probeFails, hc, hs]) h

theorem HostnameValidate_of_lookup (env : HostEnv) (a : Authority)
    (hostname : Str) (port : Int) (pubKey : Str) {ipsNet : List IP}
    (hlookup : env.LookupIP (a.GetDomain hostname) = Except.ok ipsNet)
    (hne : ipsNet.filter (fun ip => ip.v4) ≠ []) :
    a.HostnameValidate env hostname port pubKey =
      decide (challengeLoop env (if port = 0 then 9748 else port) pubKey
        (ipsNet.filter (fun ip => ip.v4)) none = (true, none)) := by
  have hlen : ¬ (ipsNet.filter (fun ip => ip.v4)).length = 0 := by
    intro h
    exact hne (List.length_eq_zero.mp h)
  unfold Authority.HostnameValidate
  simp only [hlookup, hlen, if_false]
  cases hloop : challengeLoop env (if port = 0 then 9748 else port) pubKey
      (ipsNet.filter (fun ip => ip.v4)) none with
  | mk valid err =>
    cases valid <;> cases err <;> simp

/-- C13: with the DNS answer and the outcome of the probe of every address as
inputs, `HostnameValidate` returns true only if some resolved IPv4 address,
reached after addresses that did not answer with status 200, answered 200 with
a `public_key` that, trimmed, is not longer than `SshPubKeyLen` and equal to
the public key of the caller, and it returns true in that case; it returns
false when the lookup fails, when there is no IPv4 address, when every IPv4
address fails with a transport error or another status, and when the first
address that answers 200 reports an undecodable, an over-long or a different
key. The port probed is `port`, or 9748 when `port` is 0. -/
theorem HostnameValidate_spec (env : HostEnv) (a : Authority) (hostname : Str)
    (port : Int) (pubKey : Str) :
    (a.HostnameValidate env hostname port pubKey = true ↔
      ∃ ipsNet pre ip post key,
        env.LookupIP (a.GetDomain hostname) = Except.ok ipsNet ∧
        ipsNet.filter (fun ip => ip.v4) = pre ++ ip :: post ∧
        (∀ q ∈ pre, probeFails (env.Challenge q (if port = 0 then 9748 else port)) = true) ∧
        env.Challenge ip (if port = 0 then 9748 else port) =
          Probe.response 200 (some key) ∧
        (len (TrimSpace key) : Int) ≤ env.SshPubKeyLen ∧
        pubKey = TrimSpace key) ∧
    ((∃ e, env.LookupIP (a.GetDomain hostname) = Except.error e) →
      a.HostnameValidate env hostname port pubKey = false) ∧
    (∀ ipsNet, env.LookupIP (a.GetDomain hostname) = Except.ok ipsNet →
      ipsNet.filter (fun ip => ip.v4) = [] →
      a.HostnameValidate env hostname port pubKey = false) ∧
    (∀ ipsNet, env.LookupIP (a.GetDomain hostname) = Except.ok ipsNet →
      (∀ q ∈ ipsNet.filter (fun ip => ip.v4),
        probeFails (env.Challenge q (if port = 0 then 9748 else port)) = true) →
      a.HostnameValidate env hostname port pubKey = false) ∧
    (∀ ipsNet pre ip post,
      env.LookupIP (a.GetDomain hostname) = Except.ok ipsNet →
      ipsNet.filter (fun ip => ip.v4) = pre ++ ip :: post →
      (∀ q ∈ pre, probeFails (env.Challenge q (if port = 0 then 9748 else port)) = true) →
      (env.Challenge ip (if port = 0 then 9748 else port) = Probe.response 200 none ∨
        ∃ key,
          env.Challenge ip (if port = 0 then 9748 else port) =
            Probe.response 200 (some key) ∧
          ((len (TrimSpace key) : Int) > env.SshPubKeyLen ∨ pubKey ≠ TrimSpace key)) →
      a.HostnameValidate env hostname port pubKey = false) := by
  have hfirst : ∀ (ipsNet pre : List IP) (ip : IP) (post : List IP),
      env.LookupIP (a.GetDomain hostname) = Except.ok ipsNet →
      ipsNet.filter (fun ip => ip.v4) = pre ++ ip :: post →
      (∀ q ∈ pre, probeFails (env.Challenge q (if port = 0 then 9748 else port)) = true) →
      a.HostnameValidate env hostname port pubKey =
        decide (challengeLoop env (if port = 0 then 9748 else port) pubKey
          (ip :: post) none = (true, none)) := by
    intro ipsNet pre ip post hlookup hips hpre
    have hne : ipsNet.filter (fun ip => ip.v4) ≠ [] := by rw [hips]; simp
    rw [HostnameValidate_of_lookup env a hostname port pubKey hlookup hne, hips,
      challengeLoop_skip env _ pubKey pre (ip :: post) none hpre]
    simp [challengeLoop]
  refine ⟨⟨?_, ?_⟩, ?_, ?_, ?_, ?_⟩
  · intro h
    cases hlookup : env.LookupIP (a.GetDomain hostname) with
    | error e => simp [Authority.HostnameValidate, hlookup] at h
    | ok ipsNet =>
      by_cases hne : ipsNet.filter (fun ip => ip.v4) = []
      · simp [Authority.HostnameValidate, hlookup, hne] at h
      · rw [HostnameValidate_of_lookup env a hostname port pubKey hlookup hne] at h
        have hloop := of_decide_eq_true h
        have hvalid : (challengeLoop env (if port = 0 then 9748 else port) pubKey
            (ipsNet.filter (fun ip => ip.v4)) none).1 = true := by rw [hloop]
        obtain ⟨pre, ip, post, key, hips, hpre, hc, hlen, heq⟩ :=
          challengeLoop_valid env _ pubKey _ none hvalid
        exact ⟨ipsNet, pre, ip, post, key, rfl, hips, hpre, hc, hlen, heq⟩
  · rintro ⟨ipsNet, pre, ip, post, key, hlookup, hips, hpre, hc, hlen, heq⟩
    rw [hfirst ipsNet pre ip post hlookup hips hpre]
    have hlen2 : ¬ (len (TrimSpace key) : Int) > env.SshPubKeyLen := by omega
    simp [challengeLoop, hc, hlen2, ConstantTimeCompare, heq]
  · rintro ⟨e, hlookup⟩
    simp [Authority.HostnameValidate, hlookup]
  · intro ipsNet hlookup hnil
    simp [Authority.HostnameValidate, hlookup, hnil]
  · intro ipsNet hlookup hall
    by_cases hne : ipsNet.filter (fun ip => ip.v4) = []
    · simp [Authority.HostnameValidate, hlookup, hne]
    · rw [HostnameValidate_of_lookup env a hostname port pubKey hlookup hne]
      have hv := challengeLoop_all_fail env (if port = 0 then 9748 else port) pubKey
        (ipsNet.filter (fun ip => ip.v4)) none hall
      apply decide_eq_false
      intro hloop
      rw [hloop] at hv
      simp at hv
  · intro ipsNet pre ip post hlookup hips hpre hbad
    rw [hfirst ipsNet pre ip post hlookup hips hpre]
    rcases hbad with hc | ⟨key, hc, hlen | hne⟩
    · simp [challengeLoop, hc]
    · simp [challengeLoop, hc, hlen]
    · by_cases hlen : (len (TrimSpace key) : Int) > env.SshPubKeyLen
      · simp [challengeLoop, hc, hlen]
      · have hcmp : ConstantTimeCompare pubKey (TrimSpace key) ≠ 1 :=
          (ConstantTimeCompare_ne_one _ _).mpr hne
        simp [challengeLoop, hc, hlen, hcmp]

/-- C13, witness: the second IPv4 address of `node1.example.com` answers 200
with the key `ssh-rsa AAAA`; the caller's key `ssh-rsa BBBB` is refused and
the caller's key `ssh-rsa AAAA` is accepted. -/
theorem HostnameValidate_spec_witness :
    Authority.HostnameValidate demoHostEnv { HostDomain := "example.com".toList }
        "node1".toList 0 "ssh-rsa BBBB".toList = false ∧
    Authority.HostnameValidate demoHostEnv { HostDomain := "example.com".toList }
        "node1".toList 0 "ssh-rsa AAAA".toList = true :=
  ⟨(HostnameValidate_spec demoHostEnv { HostDomain := "example.com".toList }
      "node1".toList 0 "ssh-rsa BBBB".toList).2.2.2.2
      [{ addr := "fe80::1".toList, v4 := false },
        { addr := "10.0.0.1".toList }, { addr := "10.0.0.2".toList }]
      [{ addr := "10.0.0.1".toList }] { addr := "10.0.0.2".toList } []
      (by rfl) (by decide) (by decide)
      (Or.inr ⟨"ssh-rsa AAAA\n".toList, by decide, Or.inr (by decide)⟩),
   (HostnameValidate_spec demoHostEnv { HostDomain := "example.com".toList }
      "node1".toList 0 "ssh-rsa AAAA".toList).1.mpr
      ⟨[{ addr := "fe80::1".toList, v4 := false },
        { addr := "10.0.0.1".toList }, { addr := "10.0.0.2".toList }],
       [{ addr := "10.0.0.1".toList }], { addr := "10.0.0.2".toList }, [],
       "ssh-rsa AAAA\n".toList, by rfl, by decide, by decide, by decide, by decide,
       by decide⟩⟩

/-! ## `Authority.Validate` -/

/-- The key step of the validation leaves the expiries and the host fields as
they are and cannot fail when a private key is present. -/
theorem validateKey_fields (env : KeyEnv) (a : Authority) :
    (a.validateKey env).1.Expire = a.Expire ∧
    (a.validateKey env).1.HostExpire = a.HostExpire ∧
    (a.validateKey env).1.HostDomain = a.HostDomain ∧
    (a.validateKey env).1.HostProxy = a.HostProxy ∧
    (a.validateKey env).1.HostCertificates = a.HostCertificates ∧
    (a.validateKey env).1.StrictHostChecking = a.StrictHostChecking ∧
    (a.validateKey env).1.HostTokens = a.HostTokens ∧
    (a.PrivateKey ≠ [] → (a.validateKey env).2 = none) := by
  unfold Authority.validateKey Authority.GenerateRsaPrivateKey
  by_cases ht : a.Typ = [] <;> by_cases hm : a.MatchRoles = true <;>
    by_cases hk : a.PrivateKey = [] <;>
    cases hg : env.GenerateRsaKey <;> simp [ht, hm, hk]

theorem validateHost_expire (a : Authority) :
    a.validateHost.1.Expire = validateExpire a.Expire ∧
    a.validateHost.1.HostExpire = validateHostExpire a.HostExpire ∧
    a.validateHost.2.2 = none := by
  unfold Authority.validateHost Authority.Format
  simp only
  split
  · exact ⟨rfl, rfl, rfl⟩
  · split <;> split <;> exact ⟨rfl, rfl, rfl⟩

theorem Validate_of_key (env : KeyEnv) (a : Authority)
    (h : (a.validateKey env).2 = none) :
    a.Validate env = (a.validateKey env).1.validateHost := by
  unfold Authority.Validate
  cases hk : a.validateKey env with
  | mk k e =>
    rw [hk] at h
    simp only at h
    subst h
    rfl

theorem Validate_of_key_error (env : KeyEnv) (a : Authority) {e : GoError}
    (h : (a.validateKey env).2 = some e) :
    a.Validate env = ((a.validateKey env).1, none, some e) := by
  unfold Authority.Validate
  cases hk : a.validateKey env with
  | mk k e' =>
    rw [hk] at h
    simp only at h
    subst h
    rfl

/-- C14: for every authority with a non-empty private key and every integer
value of `Expire` and `HostExpire`, after `Authority.Validate` returns,
`Expire` is in [1,1440] and `HostExpire` is in [15,1440]: values below 1
become 600, values above 1440 become 1440, values of `HostExpire` from 1 to 14
become 15, and values in range are unchanged. -/
theorem Validate_expire_bounds (env : KeyEnv) (a : Authority)
    (hkey : a.PrivateKey ≠ []) :
    1 ≤ (a.Validate env).1.Expire ∧ (a.Validate env).1.Expire ≤ 1440 ∧
    15 ≤ (a.Validate env).1.HostExpire ∧ (a.Validate env).1.HostExpire ≤ 1440 ∧
    (a.Expire < 1 → (a.Validate env).1.Expire = 600) ∧
    (a.Expire > 1440 → (a.Validate env).1.Expire = 1440) ∧
    (1 ≤ a.Expire → a.Expire ≤ 1440 → (a.Validate env).1.Expire = a.Expire) ∧
    (a.HostExpire < 1 → (a.Validate env).1.HostExpire = 600) ∧
    (a.HostExpire > 1440 → (a.Validate env).1.HostExpire = 1440) ∧
    (1 ≤ a.HostExpire → a.HostExpire < 15 → (a.Validate env).1.HostExpire = 15) ∧
    (15 ≤ a.HostExpire → a.HostExpire ≤ 1440 →
      (a.Validate env).1.HostExpire = a.HostExpire) := by
  obtain ⟨he, hh, _, _, _, _, _, hnone⟩ := validateKey_fields env a
  obtain ⟨h1, h2, _⟩ := validateHost_expire (a.validateKey env).1
  rw [Validate_of_key env a (hnone hkey), h1, h2, he, hh]
  unfold validateExpire validateHostExpire
  refine ⟨?_, ?_, ?_, ?_, ?_, ?_, ?_, ?_, ?_, ?_, ?_⟩ <;> intros <;> split_ifs <;> omega

/-- C14, witness: `Expire = 5000` becomes 1440 and `HostExpire = 3` becomes
15. -/
theorem Validate_expire_bounds_witness :
    (Authority.Validate demoKeyEnv
      { PrivateKey := "ca-key".toList, Expire := 5000, HostExpire := 3 }).1.Expire = 1440 ∧
    (Authority.Validate demoKeyEnv
      { PrivateKey := "ca-key".toList, Expire := 5000, HostExpire := 3 }).1.HostExpire = 15 :=
  have h := Validate_expire_bounds demoKeyEnv
    { PrivateKey := "ca-key".toList, Expire := 5000, HostExpire := 3 } (by decide)
  ⟨h.2.2.2.2.2.1 (by decide), h.2.2.2.2.2.2.2.2.2.1 (by decide) (by decide)⟩

/-- The host step of the validation: rejected with `host_domain_required`
when host certificates are wanted without a host domain; otherwise the host
fields are cleared for an empty host domain, the tokens are dropped without
host certificates, and roles and tokens are sorted. -/
theorem validateHost_cases (a : Authority) :
    (a.HostCertificates = true → a.HostDomain = [] →
      a.validateHost.2.1 = some hostDomainRequired) ∧
    (a.HostCertificates = true → a.HostDomain ≠ [] →
      a.validateHost.2.1 = none ∧
      a.validateHost.1.HostCertificates = true ∧
      a.validateHost.1.HostDomain = a.HostDomain ∧
      a.validateHost.1.HostTokens = sortStrings a.HostTokens) ∧
    (a.HostCertificates = false →
      a.validateHost.2.1 = none ∧
      a.validateHost.1.HostCertificates = false ∧
      a.validateHost.1.HostDomain = a.HostDomain ∧
      a.validateHost.1.HostTokens = [] ∧
      (a.HostDomain = [] →
        a.validateHost.1.StrictHostChecking = false ∧ a.validateHost.1.HostProxy = [])) := by
  have hnil : sortStrings [] = [] := rfl
  refine ⟨?_, ?_, ?_⟩
  · intro hc hd
    simp [Authority.validateHost, hc, hd]
  · intro hc hd
    by_cases ht : a.HostTokens = []
    · simp [Authority.validateHost, Authority.Format, hc, hd, ht, hnil]
    · simp [Authority.validateHost, Authority.Format, hc, hd, ht]
  · intro hc
    by_cases hd : a.HostDomain = []
    · simp [Authority.validateHost, Authority.Format, hc, hd, hnil]
    · simp [Authority.validateHost, Authority.Format, hc, hd, hnil]

/-- C15: for every authority that `Authority.Validate` accepts (no error and
no error data), the resulting authority has a non-empty `HostDomain` whenever
`HostCertificates` is set, and with an empty `HostDomain` it has
`HostCertificates = false`, `StrictHostChecking = false`, `HostProxy = ""`
and no host tokens; and `Validate` returns the error data
`host_domain_required` when `HostCertificates` is set and `HostDomain` is
empty, unless the generation of a missing private key failed before (which a
non-empty private key excludes). -/
theorem Validate_host_invariants (env : KeyEnv) (a : Authority) :
    ((a.Validate env).2.1 = none → (a.Validate env).2.2 = none →
      ((a.Validate env).1.HostCertificates = true → (a.Validate env).1.HostDomain ≠ []) ∧
      ((a.Validate env).1.HostDomain = [] →
        (a.Validate env).1.HostCertificates = false ∧
        (a.Validate env).1.StrictHostChecking = false ∧
        (a.Validate env).1.HostProxy = [] ∧
        (a.Validate env).1.HostTokens = [])) ∧
    (a.HostCertificates = true → a.HostDomain = [] → (a.Validate env).2.2 = none →
      (a.Validate env).2.1 = some hostDomainRequired) ∧
    (a.PrivateKey ≠ [] → (a.Validate env).2.2 = none) := by
  obtain ⟨_, _, hd, _, hc, _, _, hnone⟩ := validateKey_fields env a
  obtain ⟨h1, h2, h3⟩ := validateHost_cases (a.validateKey env).1
  cases hk : (a.validateKey env).2 with
  | some e =>
    rw [Validate_of_key_error env a hk]
    refine ⟨?_, ?_, ?_⟩
    · intro _ h; simp at h
    · intro _ _ h; simp at h
    · intro hkey
      rw [hnone hkey] at hk
      simp at hk
  | none =>
    rw [Validate_of_key env a hk]
    refine ⟨?_, ?_, ?_⟩
    · intro hed _
      cases hcert : (a.validateKey env).1.HostCertificates with
      | true =>
        by_cases hdom : (a.validateKey env).1.HostDomain = []
        · rw [h1 hcert hdom] at hed
          simp at hed
        · obtain ⟨_, hc2, hd2, _⟩ := h2 hcert hdom
          rw [hc2, hd2]
          exact ⟨fun _ => hdom, fun h => absurd h hdom⟩
      | false =>
        obtain ⟨_, hc2, hd2, ht2, hrest⟩ := h3 hcert
        rw [hc2, hd2, ht2]
        refine ⟨fun h => by simp at h, fun h => ?_⟩
        obtain ⟨hs, hp⟩ := hrest h
        exact ⟨rfl, hs, hp, rfl⟩
    · intro hcert hdom _
      exact h1 (hc.trans hcert) (hd.trans hdom)
    · intro _
      exact (validateHost_expire _).2.2

/-- C15, witness: host certificates without a host domain are rejected with
`host_domain_required`. -/
theorem Validate_host_invariants_witness :
    (Authority.Validate demoKeyEnv
      { PrivateKey := "ca-key".toList, HostCertificates := true }).2.1 =
      some hostDomainRequired :=
  (Validate_host_invariants demoKeyEnv
    { PrivateKey := "ca-key".toList, HostCertificates := true }).2.1 rfl rfl (by decide)

/-- C16: for every authority with host certificates enabled that
`Authority.Validate` accepts, the host tokens after the call are in ascending
order and a permutation of the tokens before the call; the result depends on
the tokens held, not on their order: two such authorities whose token lists
are permutations of each other end with the same list, in particular whatever
the order in which `TokenNew` added two tokens. -/
theorem Validate_tokens_sorted (env : KeyEnv) (a : Authority)
    (hcert : a.HostCertificates = true)
    (hdata : (a.Validate env).2.1 = none) (herr : (a.Validate env).2.2 = none) :
    List.Sorted (fun x y => strLe x y = true) (a.Validate env).1.HostTokens ∧
    (a.Validate env).1.HostTokens.Perm a.HostTokens ∧
    (∀ (env2 : KeyEnv) (b : Authority), b.HostCertificates = true →
      (b.Validate env2).2.1 = none → (b.Validate env2).2.2 = none →
      b.HostTokens.Perm a.HostTokens →
        (b.Validate env2).1.HostTokens = (a.Validate env).1.HostTokens) ∧
    (∀ t1 t2 : Str,
      ((a.TokenNew (Except.ok t1)).1.TokenNew (Except.ok t2)).1.HostTokens.Perm
        ((a.TokenNew (Except.ok t2)).1.TokenNew (Except.ok t1)).1.HostTokens) := by
  have key : ∀ (e : KeyEnv) (x : Authority), x.HostCertificates = true →
      (x.Validate e).2.1 = none → (x.Validate e).2.2 = none →
      (x.Validate e).1.HostTokens = sortStrings x.HostTokens := by
    intro e x hc hed her
    obtain ⟨_, _, hd, _, hc2, _, ht, _⟩ := validateKey_fields e x
    obtain ⟨h1, h2, _⟩ := validateHost_cases (x.validateKey e).1
    cases hk : (x.validateKey e).2 with
    | some err =>
      rw [Validate_of_key_error e x hk] at her
      simp at her
    | none =>
      rw [Validate_of_key e x hk] at hed ⊢
      by_cases hdom : (x.validateKey e).1.HostDomain = []
      · rw [h1 (hc2.trans hc) hdom] at hed
        simp at hed
      · rw [(h2 (hc2.trans hc) hdom).2.2.2, ht]
  rw [key env a hcert hdata herr]
  refine ⟨sortStrings_sorted _, sortStrings_perm _, ?_, ?_⟩
  · intro env2 b hb hbd hbe hperm
    rw [key env2 b hb hbd hbe]
    exact sortStrings_eq_of_perm hperm
  · intro t1 t2
    simp only [Authority.TokenNew, List.append_assoc]
    exact List.Perm.append_left _ (List.Perm.swap _ _ _)

/-- C16, witness: the tokens `b`, `a` are stored as `a`, `b`. -/
theorem Validate_tokens_sorted_witness :
    (Authority.Validate demoKeyEnv
      { PrivateKey := "ca-key".toList, HostCertificates := true,
        HostDomain := "example.com".toList,
        HostTokens := ["b".toList, "a".toList] }).1.HostTokens.Perm
      ["b".toList, "a".toList] :=
  (Validate_tokens_sorted demoKeyEnv
    { PrivateKey := "ca-key".toList, HostCertificates := true,
      HostDomain := "example.com".toList,
      HostTokens := ["b".toList, "a".toList] } rfl (by decide) (by decide)).2.1

/-! ## Package `validator` -/

theorem secondaryLoop_eq (field : Policy → Str) (policies : List Policy)
    (secProvider : Str) :
    secondaryLoop field policies secProvider =
      match policies.find? (fun p => decide (field p ≠ [])) with
      | some p => field p
      | none => secProvider := by
  induction policies with
  | nil => rfl
  | cons p ps ih =>
    by_cases h : field p = []
    · simp [secondaryLoop, h, ih]
    · simp [secondaryLoop, h]

theorem validateLoop_pass (env : PolicyEnv) (usr : User) (policies : List Policy)
    (h : ∀ p ∈ policies, env.ValidateUser p usr = (none, none)) :
    validateLoop env usr policies =
      (policies.map (fun p => PolicyCall.validateUser p.Id), none) := by
  induction policies with
  | nil => rfl
  | cons p ps ih =>
    have hp := h p (by simp)
    have hps := ih (fun q hq => h q (by simp [hq]))
    simp [validateLoop, hp, hps]

/-- C17, counterexample: with a service policy asking for `sec-a` and a role
policy asking for `sec-b`, a request that passes every check is answered with
`sec-b`, although the first non-empty `ProxySecondary` of the service policies
followed by the role policies is `sec-a`. -/
theorem ValidateProxy_role_policy_wins :
    (ValidateProxy demoPolicyEnv { Roles := ["ops".toList] } false
      { Id := "s1".toList, Roles := ["ops".toList] }).secProvider = "sec-b".toList ∧
    (ValidateProxy demoPolicyEnv { Roles := ["ops".toList] } false
      { Id := "s1".toList, Roles := ["ops".toList] }).errData = none ∧
    (ValidateProxy demoPolicyEnv { Roles := ["ops".toList] } false
      { Id := "s1".toList, Roles := ["ops".toList] }).err = none ∧
    secondaryLoop Policy.ProxySecondary
      ([{ Id := "pol-s".toList, ProxySecondary := "sec-a".toList }] ++
        [{ Id := "pol-r".toList, ProxySecondary := "sec-b".toList }]) [] =
      "sec-a".toList := by
  decide

/-- C17, amended: for a non-API proxy request that passes the disabled, role
and policy checks, `ValidateProxy` returns no error data and no error, and as
secondary provider the first non-empty `ProxySecondary` of the role-scoped
policies; when no role-scoped policy has one, the first non-empty
`ProxySecondary` of the service-scoped policies; and the empty id when no
collected policy has one. -/
theorem ValidateProxy_secondary (env : PolicyEnv) (usr : User) (srvc : Service)
    (servicePolicies rolePolicies : List Policy)
    (hdis : usr.Disabled = false)
    (hrole : ∃ role, role ∈ srvc.Roles ∧ role ∈ usr.Roles)
    (hs : env.GetService srvc.Id = Except.ok servicePolicies)
    (hsv : ∀ p ∈ servicePolicies, env.ValidateUser p usr = (none, none))
    (hr : env.GetRoles usr.Roles = Except.ok rolePolicies)
    (hrv : ∀ p ∈ rolePolicies, env.ValidateUser p usr = (none, none)) :
    (ValidateProxy env usr false srvc).errData = none ∧
    (ValidateProxy env usr false srvc).err = none ∧
    (∀ p, rolePolicies.find? (fun p => decide (p.ProxySecondary ≠ [])) = some p →
      (ValidateProxy env usr false srvc).secProvider = p.ProxySecondary) ∧
    (rolePolicies.find? (fun p => decide (p.ProxySecondary ≠ [])) = none →
      ∀ p, servicePolicies.find? (fun p => decide (p.ProxySecondary ≠ [])) = some p →
        (ValidateProxy env usr false srvc).secProvider = p.ProxySecondary) ∧
    (rolePolicies.find? (fun p => decide (p.ProxySecondary ≠ [])) = none →
      servicePolicies.find? (fun p => decide (p.ProxySecondary ≠ [])) = none →
        (ValidateProxy env usr false srvc).secProvider = []) := by
  have hany : srvc.Roles.any (fun role => decide (role ∈ usr.Roles)) = true := by
    obtain ⟨role, h1, h2⟩ := hrole
    exact List.any_eq_true.mpr ⟨role, h1, by simpa using h2⟩
  have heq : ValidateProxy env usr false srvc =
      { secProvider := secondaryLoop Policy.ProxySecondary rolePolicies
          (secondaryLoop Policy.ProxySecondary servicePolicies []),
        calls := PolicyCall.getService srvc.Id ::
          servicePolicies.map (fun p => PolicyCall.validateUser p.Id) ++
          PolicyCall.getRoles usr.Roles ::
          rolePolicies.map (fun p => PolicyCall.validateUser p.Id) } := by
    unfold ValidateProxy
    simp only [hdis, hany, hs, hr, validateLoop_pass env usr _ hsv,
      validateLoop_pass env usr _ hrv]
    simp
  rw [heq]
  refine ⟨rfl, rfl, ?_, ?_, ?_⟩
  · intro p hp
    show secondaryLoop Policy.ProxySecondary rolePolicies _ = _
    rw [secondaryLoop_eq, hp]
  · intro hnone p hp
    show secondaryLoop Policy.ProxySecondary rolePolicies _ = _
    rw [secondaryLoop_eq, hnone, secondaryLoop_eq, hp]
  · intro hnone hnone2
    show secondaryLoop Policy.ProxySecondary rolePolicies _ = _
    rw [secondaryLoop_eq, hnone, secondaryLoop_eq, hnone2]

/-- C17, amended, witness: the role policy's `sec-b` is returned. -/
theorem ValidateProxy_secondary_witness :
    (ValidateProxy demoPolicyEnv { Roles := ["ops".toList] } false
      { Id := "s1".toList, Roles := ["ops".toList] }).secProvider = "sec-b".toList :=
  (ValidateProxy_secondary demoPolicyEnv { Roles := ["ops".toList] }
    { Id := "s1".toList, Roles := ["ops".toList] }
    [{ Id := "pol-s".toList, ProxySecondary := "sec-a".toList }]
    [{ Id := "pol-r".toList, ProxySecondary := "sec-b".toList }]
    rfl ⟨"ops".toList, by decide, by decide⟩ (by rfl) (fun _ _ => rfl) (by rfl)
    (fun _ _ => rfl)).2.2.1
    { Id := "pol-r".toList, ProxySecondary := "sec-b".toList } (by decide)

/-- C18: for every user, `ValidateAdmin` returns the error data `unauthorized`
exactly when the user is disabled or the user's `Administrator` value is not
`super`; in that case it returns an empty secondary provider and no error and
makes no use of package `policy`. -/
theorem ValidateAdmin_unauthorized (env : PolicyEnv) (usr : User) (isApi : Bool) :
    ((ValidateAdmin env usr isApi).errData = some unauthorized ↔
      (usr.Disabled = true ∨ usr.Administrator ≠ super)) ∧
    ((usr.Disabled = true ∨ usr.Administrator ≠ super) →
      (ValidateAdmin env usr isApi).secProvider = [] ∧
      (ValidateAdmin env usr isApi).err = none ∧
      (ValidateAdmin env usr isApi).calls = []) := by
  by_cases h : usr.Disabled = true ∨ usr.Administrator ≠ super
  · have heq : ValidateAdmin env usr isApi = { errData := some unauthorized } := by
      unfold ValidateAdmin
      rw [if_pos h]
    rw [heq]
    exact ⟨⟨fun _ => h, fun _ => rfl⟩, fun _ => ⟨rfl, rfl, rfl⟩⟩
  · refine ⟨⟨fun hed => ?_, fun h' => absurd h' h⟩, fun h' => absurd h' h⟩
    exfalso
    unfold ValidateAdmin at hed
    rw [if_neg h] at hed
    cases isApi with
    | true => simp at hed
    | false =>
      cases hg : env.GetRoles usr.Roles with
      | error e => simp [hg] at hed
      | ok policies => simp [hg] at hed

/-- C18, witness: a disabled super administrator is refused. -/
theorem ValidateAdmin_unauthorized_witness :
    (ValidateAdmin demoPolicyEnv { Administrator := super, Disabled := true } false).errData =
      some unauthorized ∧
    (ValidateAdmin demoPolicyEnv { Administrator := super, Disabled := true } false).calls =
      [] :=
  ⟨((ValidateAdmin_unauthorized demoPolicyEnv
      { Administrator := super, Disabled := true } false).1).mpr (Or.inl rfl),
   ((ValidateAdmin_unauthorized demoPolicyEnv
      { Administrator := super, Disabled := true } false).2 (Or.inl rfl)).2.2⟩

theorem validateLoop_errData (env : PolicyEnv) (usr : User) (policies : List Policy)
    {errData : ErrorData} {err : Option GoError}
    (h : (validateLoop env usr policies).2 = some (some errData, err)) :
    ∃ p, p ∈ policies ∧ (env.ValidateUser p usr).1 = some errData := by
  induction policies with
  | nil => simp [validateLoop] at h
  | cons p ps ih =>
    cases hv : env.ValidateUser p usr with
    | mk ed e =>
      cases ed with
      | some ed =>
        simp only [validateLoop, hv, Option.some.injEq, Prod.mk.injEq] at h
        exact ⟨p, by simp, by rw [hv]; simp [h.1]⟩
      | none =>
        cases e with
        | some e => simp [validateLoop, hv] at h
        | none =>
          simp only [validateLoop, hv] at h
          obtain ⟨q, hq, hqe⟩ := ih h
          exact ⟨q, by simp [hq], hqe⟩

/-- With a role in common, a user that is not disabled gets error data only
from a policy, after package `policy` has been used. -/
theorem ValidateProxy_of_match (env : PolicyEnv) (usr : User) (isApi : Bool)
    (srvc : Service) (hdis : usr.Disabled = false)
    (hrole : ∃ role, role ∈ srvc.Roles ∧ role ∈ usr.Roles) :
    ((ValidateProxy env usr isApi srvc).errData = none ∨
      (ValidateProxy env usr isApi srvc).calls ≠ []) ∧
    ∀ errData, (ValidateProxy env usr isApi srvc).errData = some errData →
      ∃ p, (env.ValidateUser p usr).1 = some errData := by
  have hany : srvc.Roles.any (fun role => decide (role ∈ usr.Roles)) = true := by
    obtain ⟨role, h1, h2⟩ := hrole
    exact List.any_eq_true.mpr ⟨role, h1, by simpa using h2⟩
  cases isApi with
  | true => simp [ValidateProxy, hdis, hany]
  | false =>
    cases hs : env.GetService srvc.Id with
    | error e => simp [ValidateProxy, hdis, hany, hs]
    | ok sp =>
      cases hv : validateLoop env usr sp with
      | mk c1 r1 =>
        cases r1 with
        | some pr =>
          obtain ⟨ed, e⟩ := pr
          have heq : ValidateProxy env usr false srvc =
              { errData := ed, err := e, calls := PolicyCall.getService srvc.Id :: c1 } := by
            simp [ValidateProxy, hdis, hany, hs, hv]
          rw [heq]
          refine ⟨Or.inr (by simp), ?_⟩
          intro errData hed
          have hed2 : ed = some errData := hed
          subst hed2
          obtain ⟨p, _, hp⟩ := validateLoop_errData env usr sp (by rw [hv])
          exact ⟨p, hp⟩
        | none =>
          cases hr : env.GetRoles usr.Roles with
          | error e => simp [ValidateProxy, hdis, hany, hs, hv, hr]
          | ok rp =>
            cases hv2 : validateLoop env usr rp with
            | mk c2 r2 =>
              cases r2 with
              | some pr =>
                obtain ⟨ed, e⟩ := pr
                have heq : ValidateProxy env usr false srvc =
                    { secProvider := secondaryLoop Policy.ProxySecondary sp [],
                      errData := ed, err := e,
                      calls := PolicyCall.getService srvc.Id :: c1 ++
                        PolicyCall.getRoles usr.Roles :: c2 } := by
                  simp [ValidateProxy, hdis, hany, hs, hv, hr, hv2]
                rw [heq]
                refine ⟨Or.inr (by simp), ?_⟩
                intro errData hed
                have hed2 : ed = some errData := hed
                subst hed2
                obtain ⟨p, _, hp⟩ := validateLoop_errData env usr rp (by rw [hv2])
                exact ⟨p, hp⟩
              | none => simp [ValidateProxy, hdis, hany, hs, hv, hr, hv2]

/-- C19: for every user and service, `ValidateProxy` returns `unauthorized`
when the user is disabled; for a user that is not disabled, it returns
`service_unauthorized` when the role lists of the user and of the service have
no element in common (in particular when either list is empty), for API and
non-API requests alike and before any use of package `policy`; and it returns
`service_unauthorized` only then: with a role in common, error data comes only
from the validation of a policy (so never `service_unauthorized`, given that
no policy validation answers with it), after package `policy` has been
used. -/
theorem ValidateProxy_role_check (env : PolicyEnv) (usr : User) (isApi : Bool)
    (srvc : Service) :
    (usr.Disabled = true →
      (ValidateProxy env usr isApi srvc).errData = some unauthorized ∧
      (ValidateProxy env usr isApi srvc).secProvider = [] ∧
      (ValidateProxy env usr isApi srvc).err = none ∧
      (ValidateProxy env usr isApi srvc).calls = []) ∧
    (usr.Disabled = false → (¬ ∃ role, role ∈ srvc.Roles ∧ role ∈ usr.Roles) →
      (ValidateProxy env usr isApi srvc).errData = some serviceUnauthorized ∧
      (ValidateProxy env usr isApi srvc).secProvider = [] ∧
      (ValidateProxy env usr isApi srvc).err = none ∧
      (ValidateProxy env usr isApi srvc).calls = []) ∧
    (usr.Disabled = false →
      (((ValidateProxy env usr isApi srvc).errData = some serviceUnauthorized ∧
          (ValidateProxy env usr isApi srvc).calls = []) ↔
        ¬ ∃ role, role ∈ srvc.Roles ∧ role ∈ usr.Roles)) ∧
    (usr.Disabled = false →
      (∀ p, (env.ValidateUser p usr).1 ≠ some serviceUnauthorized) →
      ((ValidateProxy env usr isApi srvc).errData = some serviceUnauthorized ↔
        ¬ ∃ role, role ∈ srvc.Roles ∧ role ∈ usr.Roles)) ∧
    (usr.Disabled = false → (usr.Roles = [] ∨ srvc.Roles = []) →
      (ValidateProxy env usr isApi srvc).errData = some serviceUnauthorized) := by
  have hno : usr.Disabled = false → (¬ ∃ role, role ∈ srvc.Roles ∧ role ∈ usr.Roles) →
      ValidateProxy env usr isApi srvc = { errData := some serviceUnauthorized } := by
    intro hdis hnone
    have hany : srvc.Roles.any (fun role => decide (role ∈ usr.Roles)) = false := by
      rw [List.any_eq_false]
      intro role hr
      have : role ∉ usr.Roles := fun h => hnone ⟨role, hr, h⟩
      simpa using this
    unfold ValidateProxy
    simp [hdis, hany]
  refine ⟨?_, ?_, ?_, ?_, ?_⟩
  · intro hdis
    have heq : ValidateProxy env usr isApi srvc = { errData := some unauthorized } := by
      unfold ValidateProxy
      simp [hdis]
    rw [heq]
    exact ⟨rfl, rfl, rfl, rfl⟩
  · intro hdis hnone
    rw [hno hdis hnone]
    exact ⟨rfl, rfl, rfl, rfl⟩
  · intro hdis
    constructor
    · rintro ⟨hed, hcalls⟩ hrole
      rcases (ValidateProxy_of_match env usr isApi srvc hdis hrole).1 with h | h
      · rw [h] at hed
        simp at hed
      · exact h hcalls
    · intro hnone
      rw [hno hdis hnone]
      exact ⟨rfl, rfl⟩
  · intro hdis hpol
    constructor
    · intro hed hrole
      obtain ⟨p, hp⟩ := (ValidateProxy_of_match env usr isApi srvc hdis hrole).2 _ hed
      exact hpol p hp
    · intro hnone
      rw [hno hdis hnone]
  · intro hdis hempty
    have hnone : ¬ ∃ role, role ∈ srvc.Roles ∧ role ∈ usr.Roles := by
      rintro ⟨role, h1, h2⟩
      rcases hempty with h | h
      · rw [h] at h2
        simp at h2
      · rw [h] at h1
        simp at h1
    rw [hno hdis hnone]

/-- C19, witness: a user with the role `dev` asks for a service of the role
`ops`. -/
theorem ValidateProxy_role_check_witness :
    (ValidateProxy demoPolicyEnv { Roles := ["dev".toList] } false
      { Id := "s1".toList, Roles := ["ops".toList] }).errData =
      some serviceUnauthorized ∧
    (ValidateProxy demoPolicyEnv { Roles := ["dev".toList] } false
      { Id := "s1".toList, Roles := ["ops".toList] }).calls = [] :=
  have h := (ValidateProxy_role_check demoPolicyEnv { Roles := ["dev".toList] } false
    { Id := "s1".toList, Roles := ["ops".toList] }).2.1 rfl (by decide)
  ⟨h.1, h.2.2.2⟩

/-! ## Package `session` -/

theorem Since_gt_iff (now t d : Int) (h1 : -9223372036854775808 ≤ d)
    (h2 : d < 9223372036854775807) : Since now t > d ↔ now - t > d := by
  unfold Since
  split_ifs <;> omega

/-- C20: for every session, with `expire` and `maxDuration` the idle timeout
and the maximum duration of its scope (durations below the largest
`time.Duration`), and `now1`, `now2` the clock readings of the two comparisons
(one instant `now` when both are the same): `Session.Active` returns false
exactly when the session is removed, or `expire` is not 0 and
`now1 - LastActive > expire`, or `maxDuration` is not 0 and
`now2 - Timestamp > maxDuration`; a zero timeout never deactivates a
session. -/
theorem Session_Active_false_iff (s : Session) (expire maxDuration now1 now2 : Int)
    (he1 : -9223372036854775808 ≤ expire) (he2 : expire < 9223372036854775807)
    (hm1 : -9223372036854775808 ≤ maxDuration)
    (hm2 : maxDuration < 9223372036854775807) :
    (s.Active expire maxDuration now1 now2 = false ↔
      (s.Removed = true ∨
        (expire ≠ 0 ∧ now1 - s.LastActive > expire) ∨
        (maxDuration ≠ 0 ∧ now2 - s.Timestamp > maxDuration))) ∧
    (expire = 0 →
      (s.Active expire maxDuration now1 now2 = false ↔
        (s.Removed = true ∨ (maxDuration ≠ 0 ∧ now2 - s.Timestamp > maxDuration)))) ∧
    (maxDuration = 0 →
      (s.Active expire maxDuration now1 now2 = false ↔
        (s.Removed = true ∨ (expire ≠ 0 ∧ now1 - s.LastActive > expire)))) ∧
    (expire = 0 → maxDuration = 0 → s.Removed = false →
      s.Active expire maxDuration now1 now2 = true) := by
  have hmain : s.Active expire maxDuration now1 now2 = false ↔
      (s.Removed = true ∨
        (expire ≠ 0 ∧ now1 - s.LastActive > expire) ∨
        (maxDuration ≠ 0 ∧ now2 - s.Timestamp > maxDuration)) := by
    have hs1 := Since_gt_iff now1 s.LastActive expire he1 he2
    have hs2 := Since_gt_iff now2 s.Timestamp maxDuration hm1 hm2
    unfold Session.Active
    by_cases hr : s.Removed = true
    · simp [hr]
    · by_cases hx : expire ≠ 0 ∧ Since now1 s.LastActive > expire
      · have hx2 : expire ≠ 0 ∧ now1 - s.LastActive > expire := ⟨hx.1, hs1.mp hx.2⟩
        simp only [hr, hx, if_true]
        simp [hx2]
      · have hx2 : ¬ (expire ≠ 0 ∧ now1 - s.LastActive > expire) :=
          fun h => hx ⟨h.1, hs1.mpr h.2⟩
        by_cases hy : maxDuration ≠ 0 ∧ Since now2 s.Timestamp > maxDuration
        · have hy2 : maxDuration ≠ 0 ∧ now2 - s.Timestamp > maxDuration :=
            ⟨hy.1, hs2.mp hy.2⟩
          simp only [hr, hx, hy, if_true, if_false]
          simp [hy2]
        · have hy2 : ¬ (maxDuration ≠ 0 ∧ now2 - s.Timestamp > maxDuration) :=
            fun h => hy ⟨h.1, hs2.mpr h.2⟩
          simp only [hr, hx, hy, if_false]
          simp [hr, hx2, hy2]
  refine ⟨hmain, ?_, ?_, ?_⟩
  · intro h0
    rw [hmain]
    simp [h0]
  · intro h0
    rw [hmain]
    simp [h0]
  · intro h0 h1 hr
    cases hact : s.Active expire maxDuration now1 now2 with
    | true => rfl
    | false =>
      rcases hmain.mp hact with h | h | h
      · rw [hr] at h
        simp at h
      · exact absurd h0 h.1
      · exact absurd h1 h.1

/-- C20, witness: with an idle timeout of 50 and no maximum duration, a
session last active at 100 is not active at 151 and is active at 150. -/
theorem Session_Active_false_iff_witness :
    Session.Active { Timestamp := 0, LastActive := 100 } 50 0 151 151 = false ∧
    Session.Active { Timestamp := 0, LastActive := 100 } 50 0 150 150 = true :=
  ⟨((Session_Active_false_iff { Timestamp := 0, LastActive := 100 } 50 0 151 151
      (by decide) (by decide) (by decide) (by decide)).1).mpr
      (Or.inr (Or.inl ⟨by decide, by decide⟩)),
   by
    cases h : Session.Active { Timestamp := 0, LastActive := 100 } 50 0 150 150 with
    | true => rfl
    | false =>
      rcases ((Session_Active_false_iff { Timestamp := 0, LastActive := 100 } 50 0 150 150
        (by decide) (by decide) (by decide) (by decide)).1).mp h with h1 | h1 | h1
      · exact absurd h1 (by decide)
      · exact absurd h1.2 (by decide)
      · exact absurd h1.1 (by decide)⟩


/-! ## `user.Remove` -/

theorem Remove_count_zero_iff (store : UserStore) (userIds : List Str) :
    (store.users.filter
      (fun u => decide (u.Id ∉ userIds ∧ u.Administrator = super))).length = 0 ↔
    ∀ u ∈ store.users, u.Administrator = super → u.Id ∈ userIds := by
  rw [List.length_eq_zero, List.filter_eq_nil_iff]
  constructor
  · intro h u hu hs
    by_contra hn
    exact h u hu (by simp [hn, hs])
  · intro h u hu
    simp only [decide_eq_true_eq, not_and]
    intro hn hs
    exact hn (h u hu hs)

/-- C21: over an explicit store of users and sessions, when every user with
administrator `super` has its id in the list, `user.Remove` returns the error
data `user_remove_super` and leaves both collections as they were; otherwise
it returns no error data, keeps exactly the users whose id is not in the list
and the sessions whose user is not in the list (in their order), and a super
administrator remains among the users. -/
theorem Remove_spec (store : UserStore) (userIds : List Str) :
    ((∀ u ∈ store.users, u.Administrator = super → u.Id ∈ userIds) →
      Remove store userIds = (store, some userRemoveSuper, none)) ∧
    ((∃ u ∈ store.users, u.Administrator = super ∧ u.Id ∉ userIds) →
      (Remove store userIds).2 = (none, none) ∧
      (Remove store userIds).1.users =
        store.users.filter (fun u => decide (u.Id ∉ userIds)) ∧
      (Remove store userIds).1.sessions =
        store.sessions.filter (fun s => decide (s.User ∉ userIds)) ∧
      (∀ u, u ∈ (Remove store userIds).1.users ↔ u ∈ store.users ∧ u.Id ∉ userIds) ∧
      (∀ s, s ∈ (Remove store userIds).1.sessions ↔
        s ∈ store.sessions ∧ s.User ∉ userIds) ∧
      ∃ u ∈ (Remove store userIds).1.users, u.Administrator = super) := by
  constructor
  · intro h
    have hc := (Remove_count_zero_iff store userIds).2 h
    simp only [Remove, hc, if_true]
  · rintro ⟨u, hu, hs, hn⟩
    have hc : ¬ (store.users.filter
        (fun u => decide (u.Id ∉ userIds ∧ u.Administrator = super))).length = 0 := by
      intro h0
      exact hn ((Remove_count_zero_iff store userIds).1 h0 u hu hs)
    have hr : Remove store userIds =
        ({ users := store.users.filter (fun u => decide (u.Id ∉ userIds)),
           sessions := store.sessions.filter (fun s => decide (s.User ∉ userIds)) },
          none, none) := by
      simp only [Remove, hc, if_false]
    rw [hr]
    refine ⟨rfl, rfl, rfl, ?_, ?_, u, ?_, hs⟩
    · intro v
      simp [List.mem_filter]
    · intro s
      simp [List.mem_filter]
    · simp [List.mem_filter, hu, hn]

/-- A store with the super administrator `root`, the user `bob`, and a session
of each. -/
theorem Remove_spec_witness :
    (∃ u ∈ [({ Id := "root".toList, Administrator := super } : User),
            { Id := "bob".toList }],
        u.Administrator = super ∧ u.Id ∉ ["bob".toList]) ∧
    (Remove
      { users := [{ Id := "root".toList, Administrator := super }, { Id := "bob".toList }],
        sessions := [{ Id := "s1".toList, User := "root".toList },
                     { Id := "s2".toList, User := "bob".toList }] }
      ["bob".toList]).1 =
      { users := [{ Id := "root".toList, Administrator := super }],
        sessions := [{ Id := "s1".toList, User := "root".toList }] } ∧
    Remove
      { users := [{ Id := "root".toList, Administrator := super }, { Id := "bob".toList }],
        sessions := [{ Id := "s1".toList, User := "root".toList }] }
      ["root".toList] =
      ({ users := [{ Id := "root".toList, Administrator := super }, { Id := "bob".toList }],
         sessions := [{ Id := "s1".toList, User := "root".toList }] },
        some userRemoveSuper, none) :=
  ⟨⟨{ Id := "root".toList, Administrator := super }, by decide, by decide, by decide⟩,
    by decide,
    (Remove_spec
      { users := [{ Id := "root".toList, Administrator := super }, { Id := "bob".toList }],
        sessions := [{ Id := "s1".toList, User := "root".toList }] }
      ["root".toList]).1 (by decide)⟩

/-! ## `Challenge.Message` -/

theorem append_sep_inj (c : Char) {a b a2 b2 : Str} (ha : c ∉ a) (ha2 : c ∉ a2)
    (h : a ++ c :: b = a2 ++ c :: b2) : a = a2 ∧ b = b2 := by
  have h1 := cutFirst_char c a b ha
  have h2 := cutFirst_char c a2 b2 ha2
  rw [h, h2] at h1
  simpa [eq_comm] using h1

/-- C29: the message of a challenge is its Id, Type, Username and PubKey
joined by `&` in that order, and two challenges whose Id, Type and Username
contain no `&` and whose messages are equal have the same Id, Type, Username
and PubKey. -/
theorem Message_injective (c d : Challenge) :
    c.Message =
      c.Id ++ "&".toList ++ c.Typ ++ "&".toList ++ c.Username ++ "&".toList ++ c.PubKey ∧
    ('&' ∉ c.Id ∧ '&' ∉ c.Typ ∧ '&' ∉ c.Username →
      '&' ∉ d.Id ∧ '&' ∉ d.Typ ∧ '&' ∉ d.Username →
      c.Message = d.Message →
      c.Id = d.Id ∧ c.Typ = d.Typ ∧ c.Username = d.Username ∧ c.PubKey = d.PubKey) := by
  refine ⟨rfl, ?_⟩
  rintro ⟨hc1, hc2, hc3⟩ ⟨hd1, hd2, hd3⟩ h
  have hm : ∀ e : Challenge,
      e.Message = e.Id ++ '&' :: (e.Typ ++ '&' :: (e.Username ++ '&' :: e.PubKey)) := by
    intro e
    simp [Challenge.Message]
  rw [hm c, hm d] at h
  obtain ⟨h1, h⟩ := append_sep_inj '&' hc1 hd1 h
  obtain ⟨h2, h⟩ := append_sep_inj '&' hc2 hd2 h
  obtain ⟨h3, h4⟩ := append_sep_inj '&' hc3 hd3 h
  exact ⟨h1, h2, h3, h4⟩

/-- Two challenges that differ only in their caches have the same message and
the same four fields. -/
theorem Message_injective_witness :
    ('&' ∉ demoChallenge.Id ∧ '&' ∉ demoChallenge.Typ ∧ '&' ∉ demoChallenge.Username) ∧
    demoChallenge.Message = ({ demoChallenge with authrIds := some [] }).Message ∧
    demoChallenge.PubKey = ({ demoChallenge with authrIds := some [] }).PubKey :=
  ⟨by decide, by decide,
    ((Message_injective demoChallenge { demoChallenge with authrIds := some [] }).2
      (by decide) (by decide) (by decide)).2.2.2⟩

/-! ## The offset of `GetAll` -/

theorem Min_eq_min (x y : Int) : Min x y = min x y := by
  unfold Min
  split_ifs with h
  · exact (min_eq_left (le_of_lt h)).symm
  · exact (min_eq_right (not_lt.1 h)).symm

theorem Max_eq_max (x y : Int) : Max x y = max x y := by
  unfold Max
  split_ifs with h
  · exact (max_eq_left (le_of_lt h)).symm
  · exact (max_eq_right (not_lt.1 h)).symm

/-- The product of page 4294967296 and pageCount 2147483648 is 2^63, which
wraps to the smallest `int`: the offset is negative. -/
theorem pageSkip_negative_on_overflow :
    (0 : Int) ≤ 4294967296 ∧ (0 : Int) ≤ 2147483648 ∧
    pageSkip 4294967296 2147483648 0 = -9223372036854775808 ∧
    ¬ 0 ≤ pageSkip 4294967296 2147483648 0 := by
  decide

/-- C30 (amended): for page, pageCount and count not negative, pageCount and
count values of `int` and the product of page and pageCount below 2^63, the
offset of `user.GetAll` and `log.GetAll` is the smaller of that product and of
the larger of 0 and count − pageCount; it lies between 0 and the larger of 0
and count − pageCount; with count at least pageCount the offset plus pageCount
is at most count, and a page past the end gives the offset count − pageCount,
so that the window of pageCount documents from the offset in a collection of
count documents is full. -/
theorem pageSkip_bounds (page pageCount count : Int) (hp : 0 ≤ page)
    (hpc : 0 ≤ pageCount) (hc : 0 ≤ count) (hpcr : pageCount < 9223372036854775808)
    (hcr : count < 9223372036854775808)
    (hmul : page * pageCount < 9223372036854775808) :
    pageSkip page pageCount count = min (page * pageCount) (max 0 (count - pageCount)) ∧
    0 ≤ pageSkip page pageCount count ∧
    pageSkip page pageCount count ≤ max 0 (count - pageCount) ∧
    (pageCount ≤ count → pageSkip page pageCount count + pageCount ≤ count) ∧
    (pageCount ≤ count → count - pageCount ≤ page * pageCount →
      pageSkip page pageCount count = count - pageCount ∧
      ∀ docs : List Nat, (docs.length : Int) = count →
        (((docs.drop (pageSkip page pageCount count).toNat).take
          pageCount.toNat).length : Int) = pageCount) := by
  have hm0 : 0 ≤ page * pageCount := mul_nonneg hp hpc
  have h1 : toInt64 (page * pageCount) = page * pageCount :=
    toInt64_of_range (by omega) hmul
  have h2 : toInt64 (count - pageCount) = count - pageCount :=
    toInt64_of_range (by omega) (by omega)
  have hs : pageSkip page pageCount count =
      min (page * pageCount) (max 0 (count - pageCount)) := by
    unfold pageSkip
    rw [h1, h2, Min_eq_min, Max_eq_max]
  rw [hs]
  refine ⟨rfl, ?_, ?_, ?_, ?_⟩
  · exact le_min hm0 (le_max_left _ _)
  · exact min_le_right _ _
  · intro hle
    have : max 0 (count - pageCount) = count - pageCount := max_eq_right (by omega)
    have h3 := min_le_right (page * pageCount) (max 0 (count - pageCount))
    omega
  · intro hle hpast
    have hmax : max 0 (count - pageCount) = count - pageCount := max_eq_right (by omega)
    have hmin : min (page * pageCount) (max 0 (count - pageCount)) = count - pageCount := by
      rw [hmax]
      exact min_eq_right hpast
    refine ⟨hmin, ?_⟩
    intro docs hlen
    rw [hmin, List.length_take, List.length_drop]
    omega

/-- Page 7 of a collection of 25 documents in pages of 10: the offset is 15
and the window holds the documents 15 to 24. -/
theorem pageSkip_bounds_witness :
    pageSkip 7 10 25 = 15 ∧
    (((List.range 25).drop (pageSkip 7 10 25).toNat).take (10 : Int).toNat) =
      [15, 16, 17, 18, 19, 20, 21, 22, 23, 24] ∧
    pageSkip 7 10 25 + 10 ≤ 25 :=
  ⟨by decide, by decide,
    (pageSkip_bounds 7 10 25 (by decide) (by decide) (by decide) (by decide) (by decide)
      (by decide)).2.2.2.1 (by decide)⟩

/-! ## `Authority.Validate` twice -/

theorem sortStrings_idem (l : List Str) : sortStrings (sortStrings l) = sortStrings l :=
  List.Sorted.insertionSort_eq (sortStrings_sorted l)

theorem sortStrings_nodup {l : List Str} (h : l.Nodup) : (sortStrings l).Nodup :=
  (sortStrings_perm l).nodup_iff.2 h

theorem sortStrings_dedup_idem (l : List Str) :
    sortStrings (sortStrings l.dedup).dedup = sortStrings l.dedup := by
  rw [List.dedup_eq_self.2 (sortStrings_nodup (List.nodup_dedup l)), sortStrings_idem]

theorem sortStrings_eq_nil (l : List Str) : sortStrings l = [] ↔ l = [] := by
  constructor
  · intro h
    have hp := sortStrings_perm l
    rw [h] at hp
    exact List.Perm.nil_eq hp |>.symm
  · intro h
    subst h
    rfl

theorem validateExpire_idem (e : Int) : validateExpire (validateExpire e) = validateExpire e := by
  unfold validateExpire
  split_ifs <;> omega

theorem validateHostExpire_idem (e : Int) :
    validateHostExpire (validateHostExpire e) = validateHostExpire e := by
  unfold validateHostExpire
  split_ifs <;> omega

theorem Validate_accepted (env : KeyEnv) (a : Authority) (hk : a.PrivateKey ≠ [])
    (hacc : ¬ (a.HostCertificates = true ∧ a.HostDomain = [])) :
    a.Validate env =
      ({ a with
          Typ := if a.Typ = [] then env.Local else a.Typ,
          Roles := sortStrings (if a.MatchRoles then a.Roles else []).dedup,
          Expire := validateExpire a.Expire,
          HostExpire := validateHostExpire a.HostExpire,
          HostCertificates := if a.HostDomain = [] then false else a.HostCertificates,
          StrictHostChecking := if a.HostDomain = [] then false else a.StrictHostChecking,
          HostProxy := if a.HostDomain = [] then [] else a.HostProxy,
          HostTokens :=
            sortStrings (if a.HostTokens = [] ∨ a.HostCertificates = false then []
              else a.HostTokens) }, none, none) := by
  have hk2 := (validateKey_fields env a).2.2.2.2.2.2.2 hk
  rw [Validate_of_key env a hk2]
  unfold Authority.validateKey Authority.validateHost Authority.Format
  by_cases ht : a.Typ = [] <;> by_cases hm : a.MatchRoles = true <;>
    by_cases hd : a.HostDomain = [] <;> by_cases hc : a.HostCertificates = true <;>
    by_cases hto : a.HostTokens = [] <;>
    simp_all [sortStrings]

theorem Validate_accepted_host (env : KeyEnv) (a : Authority) (hk : a.PrivateKey ≠ [])
    (hacc : (a.Validate env).2 = (none, none)) :
    ¬ (a.HostCertificates = true ∧ a.HostDomain = []) := by
  rintro ⟨hc, hd⟩
  have hk2 := (validateKey_fields env a).2.2.2.2.2.2.2 hk
  have hf := validateKey_fields env a
  rw [Validate_of_key env a hk2] at hacc
  have h1 := (validateHost_cases (a.validateKey env).1).1
    (by rw [hf.2.2.2.2.1]; exact hc) (by rw [hf.2.2.1]; exact hd)
  rw [Prod.ext_iff] at hacc
  rw [hacc.1] at h1
  exact absurd h1 (by simp)

/-- C28: for every authority with a non-empty private key that
`Authority.Validate` accepts, a second run of `Validate` on the result returns
no error data and no error and leaves every field as the first run left it;
the roles of the result are in ascending order without duplicates, they are
the elements of the input roles when MatchRoles is set, and there are none
otherwise. -/
theorem Validate_idempotent (env : KeyEnv) (a : Authority) (hk : a.PrivateKey ≠ [])
    (hacc : (a.Validate env).2 = (none, none)) :
    (a.Validate env).1.Validate env = ((a.Validate env).1, none, none) ∧
    List.Sorted (fun x y => strLe x y = true) (a.Validate env).1.Roles ∧
    (a.Validate env).1.Roles.Nodup ∧
    (a.MatchRoles = true → ∀ r, r ∈ (a.Validate env).1.Roles ↔ r ∈ a.Roles) ∧
    (a.MatchRoles = false → (a.Validate env).1.Roles = []) := by
  have hh := Validate_accepted_host env a hk hacc
  have h1 := Validate_accepted env a hk hh
  have hb : (a.Validate env).1 = _ := congrArg Prod.fst h1
  have hkb : (a.Validate env).1.PrivateKey ≠ [] := by
    rw [hb]
    exact hk
  have hhb : ¬ ((a.Validate env).1.HostCertificates = true ∧
      (a.Validate env).1.HostDomain = []) := by
    rw [hb]
    by_cases hd : a.HostDomain = [] <;> simp [hd]
  have h2 := Validate_accepted env (a.Validate env).1 hkb hhb
  refine ⟨?_, ?_, ?_, ?_, ?_⟩
  · rw [h2]
    rw [hb]
    simp only [sortStrings_dedup_idem, validateExpire_idem, validateHostExpire_idem]
    by_cases ht : a.Typ = [] <;> by_cases hel : env.Local = [] <;>
      by_cases hm : a.MatchRoles = true <;>
      by_cases hd : a.HostDomain = [] <;> by_cases hc : a.HostCertificates = true <;>
      by_cases hto : a.HostTokens = [] <;>
      simp_all [sortStrings_idem, sortStrings_eq_nil, sortStrings_dedup_idem]
  · rw [hb]
    exact sortStrings_sorted _
  · rw [hb]
    exact sortStrings_nodup (List.nodup_dedup _)
  · intro hm r
    rw [hb]
    simp only [hm, if_true]
    rw [(sortStrings_perm _).mem_iff, List.mem_dedup]
  · intro hm
    rw [hb]
    simp only [hm]
    rfl

/-- The authority `demoRolesAuthority` is accepted; its roles come out as
`dev`, `ops` and its expiries as 1440 and 15. -/
theorem Validate_idempotent_witness :
    (demoRolesAuthority.Validate demoKeyEnv).1 =
      { Typ := "local".toList, PrivateKey := "key".toList, MatchRoles := true,
        Roles := ["dev".toList, "ops".toList], Expire := 1440, HostExpire := 15 } ∧
    (demoRolesAuthority.Validate demoKeyEnv).1.Validate demoKeyEnv =
      ((demoRolesAuthority.Validate demoKeyEnv).1, none, none) :=
  ⟨by decide, (Validate_idempotent demoKeyEnv demoRolesAuthority (by decide) (by decide)).1⟩

/-! ## `Challenge.Validate` -/

theorem GetUser_fields (env : KeybaseEnv) (c : Challenge) :
    (c.GetUser env).1.Id = c.Id ∧ (c.GetUser env).1.Typ = c.Typ ∧
    (c.GetUser env).1.Username = c.Username ∧ (c.GetUser env).1.State = c.State ∧
    (c.GetUser env).1.PubKey = c.PubKey ∧ (c.GetUser env).1.Timestamp = c.Timestamp ∧
    ((c.GetUser env).2.2.2 = [] ∨
      (c.GetUser env).2.2.2 = [KeybaseCall.getKeybase c.Username]) := by
  unfold Challenge.GetUser GetKeybase
  cases hu : c.usr with
  | some usr => simp
  | none =>
    by_cases hn : c.Username = []
    · simp [hn]
    · cases hf : env.users.find? (fun u => decide (u.Keybase = c.Username)) <;>
        simp [hn, hf]

theorem challengeUpdate_mem (challenges : List Challenge) (c : Challenge)
    (h : (challengeUpdate challenges c).2 = none) :
    c.doc ∈ (challengeUpdate challenges c).1 := by
  induction challenges with
  | nil => simp [challengeUpdate] at h
  | cons d ds ih =>
    unfold challengeUpdate at h ⊢
    by_cases hd : d.Id = c.Id ∧ d.State = []
    · simp [hd]
    · simp only [hd, if_false] at h ⊢
      simp only [List.mem_cons]
      exact Or.inr (ih h)

theorem NewCertificate_state (env : KeybaseEnv) (challenges : List Challenge)
    (c : Challenge) (h : (c.NewCertificate env challenges).err = none) :
    ((c.NewCertificate env challenges).chal.State = Approved ∨
      (c.NewCertificate env challenges).chal.State = Unavailable) ∧
    (c.NewCertificate env challenges).chal.doc ∈
      (c.NewCertificate env challenges).challenges := by
  unfold Challenge.NewCertificate at h ⊢
  rcases hg : c.GetUser env with ⟨c1, usr, e1, calls1⟩
  rw [hg] at h
  cases e1 with
  | some e => simp at h
  | none =>
    try simp only at h ⊢
    rcases hga : c1.GetAuthorities env with ⟨c2, authrs, e2, calls2⟩
    rw [hga] at h
    try simp only at h ⊢
    cases e2 with
    | some e => simp at h
    | none =>
      try simp only at h ⊢
      cases hp : env.AgentParse with
      | some e => simp [hp] at h
      | none =>
        rw [hp] at h
        try simp only at h ⊢
        cases hn : env.SshNewCertificate authrs usr c2.PubKey with
        | error e => simp [hn] at h
        | ok cert =>
          rw [hn] at h
          try simp only at h ⊢
          by_cases hl : cert.Certificates.length = 0
          · simp only [hl, if_true] at h ⊢
            rcases hup : challengeUpdate challenges { c2 with State := Unavailable }
              with ⟨chs, e3⟩
            rw [hup] at h
            cases e3 with
            | some e => simp at h
            | none =>
              simp only
              refine ⟨by simp, ?_⟩
              have := challengeUpdate_mem challenges { c2 with State := Unavailable }
                (by rw [hup])
              rw [hup] at this
              exact this
          · simp only [hl, if_false] at h ⊢
            cases hi : env.CertInsert cert with
            | some e => simp [hi] at h
            | none =>
              rw [hi] at h
              try simp only at h ⊢
              rcases hup : challengeUpdate challenges { c2 with State := Approved }
                with ⟨chs, e3⟩
              rw [hup] at h
              cases e3 with
              | some e => simp at h
              | none =>
                simp only
                refine ⟨by simp, ?_⟩
                have := challengeUpdate_mem challenges { c2 with State := Approved }
                  (by rw [hup])
                rw [hup] at this
                exact this

/-- C22: for every challenge whose State is not empty, `Challenge.Validate`
returns the error `WriteError` with an empty secondary provider and no error
data, makes no call (no signature is verified) and leaves the challenge as it
was; and after a `NewCertificate` that returned no error the challenge, also
as stored, has the state `approved` or `unavailable`, so a later `Validate` of
it is rejected in this way. -/
theorem Validate_answered (env : KeybaseEnv) (c : Challenge) (signature : Str) :
    (c.State ≠ [] →
      c.Validate env signature = { err := some writeError, chal := c } ∧
      (c.Validate env signature).secProvider = [] ∧
      (c.Validate env signature).calls = [] ∧
      (c.Validate env signature).chal = c) ∧
    (∀ challenges : List Challenge, (c.NewCertificate env challenges).err = none →
      (c.NewCertificate env challenges).chal.doc ∈
        (c.NewCertificate env challenges).challenges ∧
      (c.NewCertificate env challenges).chal.doc.State ≠ [] ∧
      (c.NewCertificate env challenges).chal.doc.Validate env signature =
        { err := some writeError, chal := (c.NewCertificate env challenges).chal.doc }) := by
  have hrej : ∀ d : Challenge, d.State ≠ [] →
      d.Validate env signature = { err := some writeError, chal := d } := by
    intro d hd
    unfold Challenge.Validate
    rw [if_pos hd]
  constructor
  · intro h
    rw [hrej c h]
    exact ⟨rfl, rfl, rfl, rfl⟩
  · intro challenges h
    obtain ⟨hs, hm⟩ := NewCertificate_state env challenges c h
    have hne : (c.NewCertificate env challenges).chal.doc.State ≠ [] := by
      show (c.NewCertificate env challenges).chal.State ≠ []
      rcases hs with hs | hs <;> rw [hs] <;> decide
    exact ⟨hm, hne, hrej _ hne⟩

/-- The challenge `demoChallenge` with the state `approved`. -/
theorem Validate_answered_witness :
    ({ demoChallenge with State := Approved } : Challenge).State ≠ [] ∧
    (({ demoChallenge with State := Approved } : Challenge).Validate demoKeybaseEnv
      "sig".toList).calls = [] :=
  ⟨by decide,
    ((Validate_answered demoKeybaseEnv { demoChallenge with State := Approved }
      "sig".toList).1 (by decide)).2.2.1⟩

/-- C23: for every challenge with an empty State whose signature verifies and
whose Keybase username gives a user, when the key id reported by Keybase is
not the KeybaseId of that user, `Challenge.Validate` returns the error data
`keybase_id_changed` with an empty secondary provider and no error; the calls
made are the signature check, the lookup of the user (if not cached) and the
request to Keybase, so neither the authorities nor the policies are read; and
the State of the challenge is still empty. -/
theorem Validate_keybase_id_changed (env : KeybaseEnv) (c : Challenge)
    (signature ukbId : Str)
    (hstate : c.State = [])
    (hsig : env.VerifySig c.Message signature c.Username = Except.ok true)
    (husr : (c.GetUser env).2.2.1 = none)
    (hinfo : env.getInfo c.Username = Except.ok ukbId)
    (hid : ukbId ≠ (c.GetUser env).2.1.KeybaseId) :
    (c.Validate env signature).errData = some keybaseIdChanged ∧
    (c.Validate env signature).secProvider = [] ∧
    (c.Validate env signature).err = none ∧
    (c.Validate env signature).calls =
      KeybaseCall.verifySig c.Message signature c.Username ::
        ((c.GetUser env).2.2.2 ++ [KeybaseCall.getInfo c.Username]) ∧
    KeybaseCall.authorityGetAll ∉ (c.Validate env signature).calls ∧
    (∀ authrIds roles,
      KeybaseCall.getAuthoritiesRoles authrIds roles ∉ (c.Validate env signature).calls) ∧
    (c.Validate env signature).chal.State = [] ∧
    (c.Validate env signature).chal = (c.GetUser env).1 := by
  have hf := GetUser_fields env c
  have heq : c.Validate env signature =
      { errData := some keybaseIdChanged, chal := (c.GetUser env).1,
        calls := KeybaseCall.verifySig c.Message signature c.Username ::
          ((c.GetUser env).2.2.2 ++ [KeybaseCall.getInfo c.Username]) } := by
    unfold Challenge.Validate
    rcases hg : c.GetUser env with ⟨c1, usr, e1, calls1⟩
    rw [hg] at husr hid hf
    simp only at husr hid hf
    subst husr
    simp [hstate, hsig, hf.2.2.1, hinfo, hid]
  rw [heq]
  refine ⟨rfl, rfl, rfl, rfl, ?_, ?_, ?_, rfl⟩
  · rcases hf.2.2.2.2.2.2 with h | h <;> simp [h]
  · intro authrIds roles
    rcases hf.2.2.2.2.2.2 with h | h <;> simp [h]
  · show (c.GetUser env).1.State = []
    rw [hf.2.2.2.1, hstate]

/-- In `demoKeybaseEnv` the user `alice` has the stored key id `ukb-1` and the
service reports `ukb-2`. -/
theorem Validate_keybase_id_changed_witness :
    (demoChallenge.Validate demoKeybaseEnv "sig".toList).errData = some keybaseIdChanged ∧
    (demoChallenge.Validate demoKeybaseEnv "sig".toList).calls =
      [KeybaseCall.verifySig demoChallenge.Message "sig".toList "alice_kb".toList,
        KeybaseCall.getKeybase "alice_kb".toList, KeybaseCall.getInfo "alice_kb".toList] :=
  ⟨(Validate_keybase_id_changed demoKeybaseEnv demoChallenge "sig".toList "ukb-2".toList
      (by decide) (by rfl) (by decide) (by rfl) (by decide)).1,
    by decide⟩

theorem GetUser_cached (env : KeybaseEnv) (c : Challenge)
    (h : (c.GetUser env).2.2.1 = none) :
    (c.GetUser env).1.GetUser env = ((c.GetUser env).1, (c.GetUser env).2.1, none, []) ∧
    (c.GetUser env).1.authrIds = c.authrIds := by
  unfold Challenge.GetUser at h ⊢
  cases hu : c.usr with
  | some usr => simp [hu]
  | none =>
    rw [hu] at h
    simp only at h ⊢
    rcases hk : GetKeybase env.users c.Username with ⟨usr, e, calls⟩
    rw [hk] at h
    cases e with
    | some e => simp at h
    | none => simp

/-- The ids that `Challenge.GetAuthorityIds` returns after the user has been
resolved: the ids of the authorities of `authority.GetAll` that the user has
access to, in their order; a filled cache is returned as it is. -/
theorem GetAuthorityIds_of_user (env : KeybaseEnv) (c : Challenge)
    (allAuthrs : List Authority)
    (husr : (c.GetUser env).2.2.1 = none)
    (hall : env.AuthorityGetAll = Except.ok allAuthrs)
    (hcache : ∀ ids, c.authrIds = some ids →
      ids = (allAuthrs.filter
        (fun authr => authr.UserHasAccess env (c.GetUser env).2.1)).map (fun authr => authr.Id)) :
    ((c.GetUser env).1.GetAuthorityIds env).2.1 =
      (allAuthrs.filter
        (fun authr => authr.UserHasAccess env (c.GetUser env).2.1)).map (fun authr => authr.Id) ∧
    ((c.GetUser env).1.GetAuthorityIds env).2.2.1 = none ∧
    (((c.GetUser env).1.GetAuthorityIds env).2.2.2 = [] ∨
      ((c.GetUser env).1.GetAuthorityIds env).2.2.2 = [KeybaseCall.authorityGetAll]) := by
  obtain ⟨hg, hids⟩ := GetUser_cached env c husr
  unfold Challenge.GetAuthorityIds
  rw [hids]
  cases hc : c.authrIds with
  | some ids =>
    simp only
    exact ⟨hcache ids hc, trivial, Or.inl trivial⟩
  | none =>
    simp only [hg, hall]
    simp

/-- C24: for every challenge with an empty State whose signature verifies,
whose user is found and has the key id that Keybase reports, with `allAuthrs`
the authorities of `authority.GetAll` (a filled cache of authority ids holding
the ids that `GetAuthorityIds` computes), the policies consulted are those
that `policy.GetAuthoritiesRoles` gives for the ids of the authorities the
user has access to (those that do not match roles or whose roles match the
user's) and the roles of the user. With `policies` that list,
`Challenge.Validate` returns the error data `keybase_disabled` with an empty
secondary provider when the Keybase mode of `policies` is `Disabled`;
otherwise it returns no error data and no error, and the secondary provider
is the `AuthoritySecondary` of the first policy of the list that has one, or
empty when no policy has one. -/
theorem Validate_policies (env : KeybaseEnv) (c : Challenge) (signature : Str)
    (allAuthrs : List Authority) (policies : List Policy)
    (hstate : c.State = [])
    (hsig : env.VerifySig c.Message signature c.Username = Except.ok true)
    (husr : (c.GetUser env).2.2.1 = none)
    (hinfo : env.getInfo c.Username = Except.ok (c.GetUser env).2.1.KeybaseId)
    (hall : env.AuthorityGetAll = Except.ok allAuthrs)
    (hcache : ∀ ids, c.authrIds = some ids →
      ids = (allAuthrs.filter
        (fun authr => authr.UserHasAccess env (c.GetUser env).2.1)).map (fun authr => authr.Id))
    (hpol : env.GetAuthoritiesRoles
      ((allAuthrs.filter
        (fun authr => authr.UserHasAccess env (c.GetUser env).2.1)).map (fun authr => authr.Id))
      (c.GetUser env).2.1.Roles = Except.ok policies) :
    (∀ id, id ∈ (allAuthrs.filter
        (fun authr => authr.UserHasAccess env (c.GetUser env).2.1)).map (fun authr => authr.Id) ↔
      ∃ authr ∈ allAuthrs, authr.Id = id ∧
        (authr.MatchRoles = false ∨
          env.RolesMatch (c.GetUser env).2.1 authr.Roles = true)) ∧
    KeybaseCall.getAuthoritiesRoles
      ((allAuthrs.filter
        (fun authr => authr.UserHasAccess env (c.GetUser env).2.1)).map (fun authr => authr.Id))
      (c.GetUser env).2.1.Roles ∈ (c.Validate env signature).calls ∧
    (∀ authrIds roles,
      KeybaseCall.getAuthoritiesRoles authrIds roles ∈ (c.Validate env signature).calls →
      authrIds = (allAuthrs.filter
        (fun authr => authr.UserHasAccess env (c.GetUser env).2.1)).map (fun authr => authr.Id) ∧
      roles = (c.GetUser env).2.1.Roles) ∧
    (env.KeybaseMode policies = env.Disabled →
      (c.Validate env signature).errData = some keybaseDisabled ∧
      (c.Validate env signature).secProvider = [] ∧
      (c.Validate env signature).err = none) ∧
    (env.KeybaseMode policies ≠ env.Disabled →
      (c.Validate env signature).errData = none ∧
      (c.Validate env signature).err = none ∧
      (∀ p, policies.find? (fun p => decide (p.AuthoritySecondary ≠ [])) = some p →
        (c.Validate env signature).secProvider = p.AuthoritySecondary) ∧
      (policies.find? (fun p => decide (p.AuthoritySecondary ≠ [])) = none →
        (c.Validate env signature).secProvider = [])) := by
  have hf := GetUser_fields env c
  obtain ⟨hids, herr, hcalls⟩ := GetAuthorityIds_of_user env c allAuthrs husr hall hcache
  have heq : c.Validate env signature =
      (c.GetUser env).1.validatePolicies env (c.GetUser env).2.1
        (KeybaseCall.verifySig c.Message signature c.Username ::
          ((c.GetUser env).2.2.2 ++ [KeybaseCall.getInfo c.Username])) := by
    unfold Challenge.Validate
    rcases hg : c.GetUser env with ⟨c1, usr, e1, calls1⟩
    rw [hg] at husr hinfo hf
    simp only at husr hinfo hf
    subst husr
    simp [hstate, hsig, hf.2.2.1, hinfo]
  have hcalls0 : ∀ authrIds roles, KeybaseCall.getAuthoritiesRoles authrIds roles ∉
      (KeybaseCall.verifySig c.Message signature c.Username ::
          ((c.GetUser env).2.2.2 ++ [KeybaseCall.getInfo c.Username])) ++
        ((c.GetUser env).1.GetAuthorityIds env).2.2.2 := by
    intro authrIds roles
    rcases hf.2.2.2.2.2.2 with h | h <;> rcases hcalls with h2 | h2 <;> simp [h, h2]
  have hres : (c.Validate env signature).calls =
      (KeybaseCall.verifySig c.Message signature c.Username ::
          ((c.GetUser env).2.2.2 ++ [KeybaseCall.getInfo c.Username])) ++
        ((c.GetUser env).1.GetAuthorityIds env).2.2.2 ++
        [KeybaseCall.getAuthoritiesRoles
          ((allAuthrs.filter
            (fun authr => authr.UserHasAccess env (c.GetUser env).2.1)).map
            (fun authr => authr.Id))
          (c.GetUser env).2.1.Roles] ∧
      (env.KeybaseMode policies = env.Disabled →
        (c.Validate env signature).errData = some keybaseDisabled ∧
        (c.Validate env signature).secProvider = [] ∧
        (c.Validate env signature).err = none) ∧
      (env.KeybaseMode policies ≠ env.Disabled →
        (c.Validate env signature).errData = none ∧
        (c.Validate env signature).err = none ∧
        (c.Validate env signature).secProvider =
          secondaryLoop Policy.AuthoritySecondary policies []) := by
    rw [heq]
    unfold Challenge.validatePolicies
    rcases hg : (c.GetUser env).1.GetAuthorityIds env with ⟨c2, authrIds, e2, calls2⟩
    rw [hg] at hids herr
    simp only at hids herr
    subst herr
    subst hids
    simp only [hpol]
    by_cases hd : env.KeybaseMode policies = env.Disabled
    · simp [hd]
    · simp [hd]
  obtain ⟨hc, hdis, hen⟩ := hres
  refine ⟨?_, ?_, ?_, hdis, ?_⟩
  · intro id
    simp only [List.mem_map, List.mem_filter, Authority.UserHasAccess]
    constructor
    · rintro ⟨authr, ⟨hm, ha⟩, rfl⟩
      refine ⟨authr, hm, rfl, ?_⟩
      by_cases hmr : authr.MatchRoles = true
      · right
        simpa [hmr] using ha
      · left
        simpa using hmr
    · rintro ⟨authr, hm, rfl, ha⟩
      refine ⟨authr, ⟨hm, ?_⟩, rfl⟩
      rcases ha with ha | ha
      · simp [ha]
      · by_cases hmr : authr.MatchRoles = true
        · simp [hmr, ha]
        · simp [hmr]
  · rw [hc]
    simp
  · intro authrIds roles hmem
    rw [hc, List.mem_append] at hmem
    rcases hmem with hmem | hmem
    · exact absurd hmem (hcalls0 authrIds roles)
    · simpa using hmem
  · intro hd
    obtain ⟨h1, h2, h3⟩ := hen hd
    refine ⟨h1, h2, ?_, ?_⟩
    · intro p hp
      rw [h3, secondaryLoop_eq, hp]
    · intro hp
      rw [h3, secondaryLoop_eq, hp]

/-- In `demoKeybaseEnvPolicies` the user has access to the authority
`authr-1` and not to `authr-2`; of the policies for `authr-1` the first has no
secondary provider, the second has `sec-a` and the third `sec-b`: the result
is `sec-a`. -/
theorem Validate_policies_witness :
    (demoChallenge.Validate demoKeybaseEnvPolicies "sig".toList).secProvider =
      "sec-a".toList ∧
    (demoChallenge.Validate demoKeybaseEnvPolicies "sig".toList).errData = none ∧
    KeybaseCall.getAuthoritiesRoles ["authr-1".toList] ["ops".toList] ∈
      (demoChallenge.Validate demoKeybaseEnvPolicies "sig".toList).calls :=
  ⟨((Validate_policies demoKeybaseEnvPolicies demoChallenge "sig".toList
      [{ Id := "authr-1".toList },
       { Id := "authr-2".toList, MatchRoles := true, Roles := ["admin".toList] }]
      [{ Id := "pol-1".toList },
       { Id := "pol-2".toList, AuthoritySecondary := "sec-a".toList },
       { Id := "pol-3".toList, AuthoritySecondary := "sec-b".toList }]
      (by decide) (by rfl) (by decide) (by rfl) (by rfl) (by decide) (by rfl)).2.2.2.2
      (by decide)).2.2.1 { Id := "pol-2".toList, AuthoritySecondary := "sec-a".toList }
      (by decide),
    by decide, by decide⟩

/-! ## The end of the SSO callback handlers -/

/-- C25: in the proxy SSO callback handler, for an accepted callback for which
`ValidateProxy` has returned a non-empty secondary provider, with
`secondary.New` and `GetQuery` succeeding, the handler, after the secondary
and the redirect 302 to the login page, goes on: it writes the login audit
record and, with the audit record and the session stored, sets the proxy
cookie, creates the session and redirects a second time. The admin handler
under the same conditions ends with the redirect. -/
theorem proxyCallbackEnd_after_redirect (env : HandlerEnv) (usr : User) (tokn : Token)
    (secProviderId secd urlQuery : Str)
    (hsec : secProviderId ≠ [])
    (hnew : env.SecondaryNew usr.Id Scope.proxy secProviderId = Except.ok secd)
    (hquery : env.GetQuery secd = Except.ok urlQuery)
    (haudit : env.AuditNew usr.Id Scope.proxy = none)
    (hsession : env.NewSession usr.Id Scope.proxy = none) :
    proxyCallbackEnd env usr tokn secProviderId =
      [Effect.secondaryNew usr.Id Scope.proxy secProviderId,
        Effect.redirect 302 ("/login?".toList ++
          (if tokn.Query ≠ [] then urlQuery ++ "&".toList ++ tokn.Query else urlQuery)),
        Effect.auditLogin usr.Id Scope.proxy,
        Effect.cookieNew Scope.proxy,
        Effect.newSession usr.Id Scope.proxy,
        Effect.redirectQuery tokn.Query] ∧
    (∀ secdAdmin urlQueryAdmin,
      env.SecondaryNew usr.Id Scope.admin secProviderId = Except.ok secdAdmin →
      env.GetQuery secdAdmin = Except.ok urlQueryAdmin →
      adminCallbackEnd env usr secProviderId =
        [Effect.secondaryNew usr.Id Scope.admin secProviderId,
          Effect.redirect 302 ("/login?".toList ++ urlQueryAdmin)]) := by
  constructor
  · unfold proxyCallbackEnd callbackLogin
    rw [if_pos hsec]
    simp only [hnew, hquery, haudit, hsession]
    simp
  · intro secdAdmin urlQueryAdmin hnewA hqueryA
    unfold adminCallbackEnd
    rw [if_pos hsec]
    simp only [hnewA, hqueryA]

/-- The user `demoUser`, a token without query and the secondary provider
`duo` in `demoHandlerEnv`: the session of `u1` is created after the redirect
to the login page. -/
theorem proxyCallbackEnd_after_redirect_witness :
    proxyCallbackEnd demoHandlerEnv demoUser {} "duo".toList =
      [Effect.secondaryNew "u1".toList Scope.proxy "duo".toList,
        Effect.redirect 302 "/login?secondary=sec-token".toList,
        Effect.auditLogin "u1".toList Scope.proxy,
        Effect.cookieNew Scope.proxy,
        Effect.newSession "u1".toList Scope.proxy,
        Effect.redirectQuery []] :=
  (proxyCallbackEnd_after_redirect demoHandlerEnv demoUser {} "duo".toList
    "sec-token".toList "secondary=sec-token".toList (by decide) (by rfl) (by rfl)
    (by rfl) (by rfl)).1

/-! ## The check of `errData` before the upsert -/

theorem callbackUpsertCheck_ok (env : Env) (db : Database) (sig query : Str)
    {r : CallbackResult} {tokn : Token} {provider : Provider} {username : Str}
    {roles : List Str}
    (h : callbackUpsertCheck env db sig query =
      Except.ok (r, tokn, provider, username, roles)) :
    r.errData = none ∧ r.err = none ∧ r.tokn = some tokn ∧
    provider.AutoCreate = true ∧
    r.usr = some { Typ := provider.Typ, Username := username, Roles := roles } := by
  unfold callbackUpsertCheck at h
  cases hp : env.ParseQuery query with
  | none => simp [hp] at h
  | some params =>
    rw [hp] at h
    try simp only at h
    rcases hg : Get db (params.Get keyState) with ⟨db1, g⟩
    rw [hg] at h
    cases g with
    | error e => simp at h
    | ok tokn1 =>
      try simp only at h
      by_cases hs : ConstantTimeCompare sig
          (env.Base64URLEncode (env.HmacSha512 tokn1.Secret query)) ≠ 1
      · rw [if_pos hs] at h
        simp at h
      rw [if_neg hs] at h
      by_cases hu : params.Get keyUsername = []
      · rw [if_pos hu] at h
        simp at h
      rw [if_neg hu] at h
      cases hcp : callbackProvider env tokn1 (params.Get keyUsername) with
      | none =>
        rw [hcp] at h
        try simp only at h
        by_cases hgo : tokn1.Typ = Google
        · rw [if_pos hgo] at h
          simp at h
        · rw [if_neg hgo] at h
          simp at h
      | some provider1 =>
        rw [hcp] at h
        try simp only at h
        cases hca : callbackAzure provider1 (params.Get keyUsername) with
        | error ed => simp [hca] at h
        | ok username1 =>
          rw [hca] at h
          try simp only at h
          rcases hr : tokn1.Remove db1 with ⟨db2, e2⟩
          rw [hr] at h
          cases e2 with
          | some e => simp at h
          | none =>
            try simp only at h
            cases hrr : resolveRoles env provider1 params username1 with
            | error e => simp [hrr] at h
            | ok roles1 =>
              rw [hrr] at h
              try simp only at h
              rcases hgu : GetUsername db2 provider1.Typ username1 with ⟨db3, usr, e3⟩
              rw [hgu] at h
              cases e3 with
              | none => simp at h
              | some e =>
                try simp only at h
                by_cases he : e = GoError.databaseNotFound
                swap
                · rw [if_neg he] at h
                  simp at h
                rw [if_pos he] at h
                by_cases ha : provider1.AutoCreate = true
                swap
                · rw [if_neg ha] at h
                  simp at h
                rw [if_pos ha] at h
                simp only [Except.ok.injEq, Prod.mk.injEq] at h
                obtain ⟨h1, h2, h3, h4, h5⟩ := h
                subst h1 h2 h3 h4 h5
                exact ⟨rfl, rfl, rfl, ha, rfl⟩

theorem Callback_eq_upsertCheck (env : Env) (db : Database) (sig query : Str) :
    Callback env db sig query =
      match callbackUpsertCheck env db sig query with
      | Except.error r => r
      | Except.ok (r, tokn, provider, username, roles) =>
        callbackUser env r.db tokn provider username roles none r.errData := by
  unfold Callback callbackUpsertCheck
  cases hp : env.ParseQuery query with
  | none => rfl
  | some params =>
    try simp only
    rcases hg : Get db (params.Get keyState) with ⟨db1, g⟩
    cases g with
    | error e => rfl
    | ok tokn1 =>
      try simp only
      by_cases hs : ConstantTimeCompare sig
          (env.Base64URLEncode (env.HmacSha512 tokn1.Secret query)) ≠ 1
      · simp only [if_pos hs]
      · simp only [if_neg hs]
        unfold callbackIdentity
        try simp only
        by_cases hu : params.Get keyUsername = []
        · simp only [if_pos hu]
        · simp only [if_neg hu]
          cases hcp : callbackProvider env tokn1 (params.Get keyUsername) with
          | none =>
            try simp only
            by_cases hgo : tokn1.Typ = Google
            · simp only [if_pos hgo]
            · simp only [if_neg hgo]
          | some provider1 =>
            try simp only
            cases hca : callbackAzure provider1 (params.Get keyUsername) with
            | error ed => rfl
            | ok username1 =>
              try simp only
              unfold callbackResolve
              rcases hr : tokn1.Remove db1 with ⟨db2, e2⟩
              cases e2 with
              | some e => rfl
              | none =>
                try simp only
                cases hrr : resolveRoles env provider1 params username1 with
                | error e => rfl
                | ok roles1 =>
                  try simp only
                  rcases hgu : GetUsername db2 provider1.Typ username1 with ⟨db3, usr, e3⟩
                  cases e3 with
                  | none => rfl
                  | some e =>
                    try simp only
                    by_cases he : e = GoError.databaseNotFound
                    · simp only [if_pos he]
                      by_cases ha : provider1.AutoCreate = true
                      · simp only [if_pos ha]
                      · simp only [if_neg ha]
                        simp [callbackUser, ha]
                    · simp only [if_neg he]

/-- C27: in the auto-create path of `auth.Callback`, on every execution that
reaches the check `if errData != nil` before the upsert, `errData` is nil (and
so is `err`): every earlier assignment of error data returned. The branch of
the check is never taken, and the result of `Callback` is the one of the path
that goes on to the upsert. -/
theorem Callback_upsert_check_errData_nil (env : Env) (db : Database) (sig query : Str)
    (x : CallbackResult × Token × Provider × Str × List Str)
    (h : callbackUpsertCheck env db sig query = Except.ok x) :
    x.1.errData = none ∧ x.1.err = none ∧ x.2.2.1.AutoCreate = true ∧
    Callback env db sig query =
      callbackUser env x.1.db x.2.1 x.2.2.1 x.2.2.2.1 x.2.2.2.2 none none ∧
    Callback env db sig query =
      (match ({ Typ := x.2.2.1.Typ, Username := x.2.2.2.1, Roles := x.2.2.2.2 } :
          User).Upsert x.1.db with
        | (db1, some e) =>
          { usr := some { Typ := x.2.2.1.Typ, Username := x.2.2.2.1, Roles := x.2.2.2.2 },
            tokn := some x.2.1, err := some e, db := db1 }
        | (db1, none) =>
          match env.UserValidate (PublishDispatch db1 userChange)
              { Typ := x.2.2.1.Typ, Username := x.2.2.2.1, Roles := x.2.2.2.2 } with
          | (usr1, errData, err) =>
            { usr := some usr1, tokn := some x.2.1, errData := errData, err := err,
              db := PublishDispatch db1 userChange }) := by
  obtain ⟨r, tokn, provider, username, roles⟩ := x
  obtain ⟨h1, h2, _, h4, _⟩ := callbackUpsertCheck_ok env db sig query h
  have hc := Callback_eq_upsertCheck env db sig query
  rw [h] at hc
  simp only at hc
  rw [h1] at hc
  refine ⟨h1, h2, h4, hc, ?_⟩
  rw [hc]
  simp [callbackUser, h4]

/-- The Azure callback for `acme/alice`, a user that is not stored, with
automatic creation: the check before the upsert is reached with no error
data. -/
theorem Callback_upsert_check_errData_nil_witness :
    callbackUpsertCheck demoEnv demoDb "k1|state=st1&username=acme/alice".toList
        "state=st1&username=acme/alice".toList =
      Except.ok
        ({ usr := some { Typ := Azure, Username := "alice".toList,
                         Roles := ["staff".toList] },
           tokn := some { Id := "st1".toList, Typ := Azure, Secret := "k1".toList,
                          Provider := "p-azure".toList },
           db := { tokens := [{ Id := "st2".toList, Typ := "okta".toList,
                                Secret := "k2".toList, Provider := "p-okta".toList }],
                   users := demoDb.users,
                   log := [DbCall.tokensFindOneId "st1".toList,
                           DbCall.tokensRemoveId "st1".toList,
                           DbCall.usersFindOne Azure "alice".toList] } },
          { Id := "st1".toList, Typ := Azure, Secret := "k1".toList,
            Provider := "p-azure".toList },
          { Id := "p-azure".toList, Typ := Azure, Tenant := "acme".toList,
            DefaultRoles := ["staff".toList], AutoCreate := true },
          "alice".toList, ["staff".toList]) ∧
    (Callback demoEnv demoDb "k1|state=st1&username=acme/alice".toList
        "state=st1&username=acme/alice".toList).errData = none :=
  ⟨by rfl,
    by
      rw [(Callback_upsert_check_errData_nil demoEnv demoDb
        "k1|state=st1&username=acme/alice".toList "state=st1&username=acme/alice".toList
        _ (by rfl)).2.2.2.1]
      rfl⟩

end PritunlZero
